import Mathlib

/-!
# Car-Dealership: the inventory service and its HTTP boundary

A shallow embedding of `backend/models`, `backend/services/carService.go` and the parts of
`backend/handlers/carHandler.go` that the verified properties are about.

* The MongoDB collection `cars` is a list of documents in natural order; the GridFS bucket is a
  list of stored files.  Both are threaded through every operation as an explicit `Store`.
* A Go `(result, error)` pair is an `Except Error result`.
* Everything the program cannot decide by itself (object ids generated by the driver, storage
  calls failing for reasons outside the program) is read from an explicit `Env`.
-/

namespace CarDealership

/-! ## Identifiers, bytes, numbers -/

/-- A `primitive.ObjectID`: twelve bytes, read as one big-endian number. -/
abbrev ObjectID := Fin (2 ^ 96)

/-- The zero value `primitive.NilObjectID`. -/
def NilObjectID : ObjectID := ⟨0, by decide⟩

/-- One byte. -/
abbrev Byte := Fin 256

/-- A Go `[]byte`: `none` is the nil slice, `some []` an empty slice that is not nil. -/
abbrev Slice := Option (List Byte)

/-- The bytes a slice holds (none for the nil slice). -/
def Slice.bytes (b : Slice) : List Byte := b.getD []

/-- A Go `float64`, kept as its IEEE-754 binary64 bit pattern.  The service only copies prices. -/
structure Float64 where
  bits : Nat
deriving DecidableEq, Repr

/-- Lower-case hexadecimal digit of a number below sixteen. -/
def hexDigit (n : Nat) : Char :=
  if n < 10 then Char.ofNat (48 + n) else Char.ofNat (87 + n)

/-- The `k` least significant hexadecimal digits of `n`, most significant first. -/
def hexDigits : Nat → Nat → List Char
  | 0, _ => []
  | k + 1, n => hexDigits k (n / 16) ++ [hexDigit (n % 16)]

/-- Method `ObjectID.Hex`: the 24-character lower-case hexadecimal form. -/
def ObjectID.Hex (id : ObjectID) : String := ⟨hexDigits 24 id.val⟩

/-- Value of one hexadecimal character (`encoding/hex` accepts both cases). -/
def fromHexChar (c : Char) : Option Nat :=
  if 48 ≤ c.toNat ∧ c.toNat ≤ 57 then some (c.toNat - 48)
  else if 97 ≤ c.toNat ∧ c.toNat ≤ 102 then some (c.toNat - 87)
  else if 65 ≤ c.toNat ∧ c.toNat ≤ 70 then some (c.toNat - 55)
  else none

/-- Big-endian value of a string of hexadecimal characters, `none` at the first bad character. -/
def hexValue : List Char → Nat → Option Nat
  | [], acc => some acc
  | c :: cs, acc =>
    match fromHexChar c with
    | none => none
    | some v => hexValue cs (acc * 16 + v)

/-- The kinds of call the service makes on the document collection and on the bucket. -/
inductive StoreCall where
  | find | findOne | insertOne | updateOne | deleteOne
  | openUploadStream | uploadWrite | uploadClose | bucketDelete
  | openDownloadStream | downloadRead
deriving DecidableEq, Repr

/-- Go `error` values that reach the service's callers. -/
inductive Error where
  /-- `mongo.ErrNoDocuments`: `FindOne` matched nothing. -/
  | ErrNoDocuments
  /-- `primitive.ErrInvalidHex`: the string is not 24 bytes long. -/
  | ErrInvalidHex
  /-- `hex.InvalidByteError`: a character that is not a hexadecimal digit. -/
  | InvalidByteError
  /-- `gridfs.ErrFileNotFound`. -/
  | ErrFileNotFound
  /-- Write error of the server: a document with this `_id` exists already. -/
  | DuplicateKey
  /-- Write error of the server: a `$set` would change `_id`. -/
  | ImmutableField
  /-- The storage call failed for a reason outside the program (network, server down). -/
  | Storage (call : StoreCall)
deriving DecidableEq, Repr

/-- Equality of Go `(result, error)` pairs can be computed. -/
instance instDecidableEqExcept {ε α : Type} [DecidableEq ε] [DecidableEq α] :
    DecidableEq (Except ε α)
  | .error a, .error b => if h : a = b then isTrue (by rw [h]) else isFalse (by simpa using h)
  | .ok a, .ok b => if h : a = b then isTrue (by rw [h]) else isFalse (by simpa using h)
  | .error _, .ok _ => isFalse (by simp)
  | .ok _, .error _ => isFalse (by simp)

/-- Function `primitive.ObjectIDFromHex`. -/
def ObjectIDFromHex (s : String) : Except Error ObjectID :=
  if s.utf8ByteSize ≠ 24 then .error .ErrInvalidHex
  else
    match hexValue s.data 0 with
    | none => .error .InvalidByteError
    | some v => if h : v < 2 ^ 96 then .ok ⟨v, h⟩ else .error .InvalidByteError

/-! ## models -/

def CarStatusAvailable : String := "available"
def CarStatusReserved : String := "reserved"
def CarStatusSold : String := "sold"

/-- Go struct `models.Customer`. -/
structure Customer where
  FullName : String
  Email : String
  PhoneNumber : String
deriving DecidableEq, Repr

/-- Go struct `models.Car`.  `Customer` is a pointer: `none` is nil. -/
structure Car where
  ID : ObjectID
  Make : String
  Model : String
  Year : Int
  Price : Float64
  Status : String
  Customer : Option Customer
  Picture : String
deriving DecidableEq, Repr

/-- The zero value of `models.Car` (`var car models.Car`). -/
def Car.zero : Car :=
  { ID := NilObjectID, Make := "", Model := "", Year := 0, Price := ⟨0⟩, Status := "",
    Customer := none, Picture := "" }

/-! ## The document store -/

/-- The `customer` field of a stored document: missing, BSON null, or an embedded document. -/
inductive BsonCustomer where
  | absent
  | null
  | doc (c : Customer)
deriving DecidableEq, Repr

/-- A document of the collection `cars`, as the bson tags of `models.Car` lay it out. -/
structure CarDoc where
  id : ObjectID
  make : String
  model : String
  year : Int
  price : Float64
  status : String
  customer : BsonCustomer
  picture : String
deriving DecidableEq, Repr

/-- A file of the GridFS bucket (its `fs.files` document with its chunks put together). -/
structure GridFile where
  id : ObjectID
  filename : String
  data : List Byte
deriving DecidableEq, Repr

/-- The two stores the service works on. -/
structure Store where
  cars : List CarDoc
  files : List GridFile
deriving DecidableEq, Repr

/-- What the program reads from the outside world during one operation. -/
structure Env where
  /-- The storage calls that fail.  A failed call has no effect on the store, but for
  `Bucket.Delete`, see `failedDeleteRemovesFile`. -/
  fails : StoreCall → Bool
  /-- Whether a `Bucket.Delete` that returns a fault has taken the file away already: the
  driver deletes the `fs.files` document first and the chunks after it, and returns the error
  of the second step with the first one done. -/
  failedDeleteRemovesFile : Bool
  /-- The id `OpenUploadStream` generates for the new file. -/
  newFileID : ObjectID
  /-- The `_id` the driver generates for a document that is inserted without one. -/
  newDocID : ObjectID

/-- Struct `mongo.InsertOneResult`. -/
structure InsertOneResult where
  InsertedID : ObjectID
deriving DecidableEq, Repr

/-- Struct `mongo.UpdateResult` (no upserts are made, so `UpsertedID` is always nil). -/
structure UpdateResult where
  MatchedCount : Nat
  ModifiedCount : Nat
  UpsertedCount : Nat
deriving DecidableEq, Repr

/-- Struct `mongo.DeleteResult`. -/
structure DeleteResult where
  DeletedCount : Nat
deriving DecidableEq, Repr

/-- Marshalling of a `models.Car` for `InsertOne`: `customer` is `omitempty`. -/
def marshalCar (id : ObjectID) (car : Car) : CarDoc :=
  { id := id, make := car.Make, model := car.Model, year := car.Year, price := car.Price,
    status := car.Status,
    customer := match car.Customer with
      | none => .absent
      | some c => .doc c,
    picture := car.Picture }

/-- Decoding of a stored document into a fresh `models.Car`: a missing or null `customer`
leaves the pointer nil. -/
def decodeCar (d : CarDoc) : Car :=
  { ID := d.id, Make := d.make, Model := d.model, Year := d.year, Price := d.price,
    Status := d.status,
    Customer := match d.customer with
      | .doc c => some c
      | _ => none,
    Picture := d.picture }

/-- The query filters the service uses: `bson.M{"_id": id}` with `status = none`,
`bson.M{"_id": id, "status": st}` with `status = some st`. -/
structure Filter where
  id : ObjectID
  status : Option String
deriving DecidableEq, Repr

/-- Whether a document matches a filter. -/
def Filter.matches (f : Filter) (d : CarDoc) : Bool :=
  d.id == f.id && (match f.status with
    | none => true
    | some st => d.status == st)

/-- The two shapes of `$set` the service sends. -/
inductive Update where
  /-- `{$set: car}` with a `models.Car` (zero `_id` and nil `customer` are `omitempty`). -/
  | setCar (car : Car)
  /-- `{$set: {status: st, customer: c}}`. -/
  | setStatusCustomer (st : String) (c : BsonCustomer)
deriving DecidableEq, Repr

/-- Applying an update to a matched document. -/
def Update.apply (u : Update) (d : CarDoc) : Except Error CarDoc :=
  match u with
  | .setCar car =>
    if car.ID ≠ NilObjectID ∧ car.ID ≠ d.id then .error .ImmutableField
    else .ok
      { id := d.id, make := car.Make, model := car.Model, year := car.Year, price := car.Price,
        status := car.Status,
        customer := match car.Customer with
          | none => d.customer
          | some c => .doc c,
        picture := car.Picture }
  | .setStatusCustomer st c => .ok { d with status := st, customer := c }

/-- Replace the first element satisfying `p` by `d`. -/
def replaceFirst (p : CarDoc → Bool) (d : CarDoc) : List CarDoc → List CarDoc
  | [] => []
  | x :: xs => if p x then d :: xs else x :: replaceFirst p d xs

/-- Remove the first element satisfying `p`. -/
def removeFirst {α : Type} (p : α → Bool) : List α → List α
  | [] => []
  | x :: xs => if p x then xs else x :: removeFirst p xs

/-- Method `Collection.Find` with `bson.M{"status": status}`, decoded by `cursor.All`. -/
def Find (env : Env) (cars : List CarDoc) (status : String) : Except Error (List Car) :=
  if env.fails .find then .error (.Storage .find)
  else .ok ((cars.filter (fun d => d.status == status)).map decodeCar)

/-- Method `Collection.FindOne(...).Decode`. -/
def FindOne (env : Env) (cars : List CarDoc) (f : Filter) : Except Error Car :=
  if env.fails .findOne then .error (.Storage .findOne)
  else
    match cars.find? f.matches with
    | none => .error .ErrNoDocuments
    | some d => .ok (decodeCar d)

/-- Method `Collection.InsertOne` with a `models.Car`: a zero `ID` is omitted and the driver
generates the `_id`. -/
def InsertOne (env : Env) (cars : List CarDoc) (car : Car) :
    Except Error (InsertOneResult × List CarDoc) :=
  if env.fails .insertOne then .error (.Storage .insertOne)
  else
    let id := if car.ID = NilObjectID then env.newDocID else car.ID
    if cars.any (fun d => d.id == id) then .error .DuplicateKey
    else .ok (⟨id⟩, cars ++ [marshalCar id car])

/-- Method `Collection.UpdateOne`: one atomic find-and-modify of the first matching document. -/
def UpdateOne (env : Env) (cars : List CarDoc) (f : Filter) (u : Update) :
    Except Error (UpdateResult × List CarDoc) :=
  if env.fails .updateOne then .error (.Storage .updateOne)
  else
    match cars.find? f.matches with
    | none => .ok (⟨0, 0, 0⟩, cars)
    | some d =>
      match u.apply d with
      | .error e => .error e
      | .ok d' => .ok (⟨1, if d' = d then 0 else 1, 0⟩, replaceFirst f.matches d' cars)

/-- Method `Collection.DeleteOne`. -/
def DeleteOne (env : Env) (cars : List CarDoc) (f : Filter) :
    Except Error (DeleteResult × List CarDoc) :=
  if env.fails .deleteOne then .error (.Storage .deleteOne)
  else
    match cars.find? f.matches with
    | none => .ok (⟨0⟩, cars)
    | some _ => .ok (⟨1⟩, removeFirst f.matches cars)

/-! ## The GridFS bucket -/

/-- A `gridfs.UploadStream`: the id chosen when it was opened and what was written so far. -/
structure UploadStream where
  FileID : ObjectID
  filename : String
  buffer : List Byte
deriving DecidableEq, Repr

/-- Method `Bucket.OpenUploadStream`. -/
def OpenUploadStream (env : Env) (fileName : String) : Except Error UploadStream :=
  if env.fails .openUploadStream then .error (.Storage .openUploadStream)
  else .ok ⟨env.newFileID, fileName, []⟩

/-- Method `UploadStream.Write`. -/
def UploadStream.Write (env : Env) (us : UploadStream) (p : Slice) : Except Error UploadStream :=
  if env.fails .uploadWrite then .error (.Storage .uploadWrite)
  else .ok { us with buffer := us.buffer ++ p.bytes }

/-- Method `UploadStream.Close`, which stores the file.  The service runs it deferred and drops
its error, so only its effect on the bucket is kept: none when the call fails or when a file
with this id exists already. -/
def UploadStream.Close (env : Env) (us : UploadStream) (files : List GridFile) : List GridFile :=
  if env.fails .uploadClose then files
  else if files.any (fun f => f.id == us.FileID) then files
  else files ++ [⟨us.FileID, us.filename, us.buffer⟩]

/-- Method `Bucket.Delete`: the Go `error` it returns and the bucket it leaves.  The driver
deletes the `fs.files` document and then the chunks, so a call that returns a fault leaves the
file in place or has removed it already, as `env.failedDeleteRemovesFile` says.  A call on an
id no file has returns `ErrFileNotFound`. -/
def BucketDelete (env : Env) (files : List GridFile) (id : ObjectID) :
    Option Error × List GridFile :=
  if env.fails .bucketDelete then
    (some (.Storage .bucketDelete),
      if env.failedDeleteRemovesFile then removeFirst (fun f => f.id == id) files else files)
  else if files.any (fun f => f.id == id) then (none, removeFirst (fun f => f.id == id) files)
  else (some .ErrFileNotFound, files)

/-- Method `Bucket.OpenDownloadStream` followed by `io.Copy` into a buffer. -/
def Download (env : Env) (files : List GridFile) (id : ObjectID) : Except Error (List Byte) :=
  if env.fails .openDownloadStream then .error (.Storage .openDownloadStream)
  else
    match files.find? (fun f => f.id == id) with
    | none => .error .ErrFileNotFound
    | some f => if env.fails .downloadRead then .error (.Storage .downloadRead) else .ok f.data

/-! ## services: carService -/

/-- What a service method leaves behind: the Go `(interface{}, error)` pair and the store. -/
structure Outcome (α : Type) where
  result : Except Error α
  store : Store

/-- As `Outcome`, for the methods that take a `*models.Car` and write to it: `car` is the
caller's struct after the call. -/
structure CarOutcome (α : Type) where
  result : Except Error α
  store : Store
  car : Car

/-- Method `GetCarsByStatus`. -/
def GetCarsByStatus (env : Env) (s : Store) (status : String) : Outcome (List Car) :=
  match Find env s.cars status with
  | .error e => ⟨.error e, s⟩
  | .ok cars => ⟨.ok cars, s⟩

/-- Method `GetCarImage`. -/
def GetCarImage (env : Env) (s : Store) (pictureID : String) : Outcome (List Byte) :=
  match ObjectIDFromHex pictureID with
  | .error e => ⟨.error e, s⟩
  | .ok oid =>
    match Download env s.files oid with
    | .error e => ⟨.error e, s⟩
    | .ok data => ⟨.ok data, s⟩

/-- Method `CreateCar`. -/
def CreateCar (env : Env) (s : Store) (car : Car) (fileData : Slice) (fileName : String) :
    CarOutcome InsertOneResult :=
  -- Ensure that the car status is available
  let car := { car with Status := CarStatusAvailable }
  -- Upload the image to GridFS
  match OpenUploadStream env fileName with
  | .error e => ⟨.error e, s, car⟩
  | .ok uploadStream =>
    -- from here on `uploadStream.Close()` runs when the method returns
    match uploadStream.Write env fileData with
    | .error e => ⟨.error e, { s with files := uploadStream.Close env s.files }, car⟩
    | .ok uploadStream =>
      let car := { car with Picture := uploadStream.FileID.Hex }
      -- Insert the car document into the collection
      match InsertOne env s.cars car with
      | .error e => ⟨.error e, { s with files := uploadStream.Close env s.files }, car⟩
      | .ok (result, cars) =>
        ⟨.ok result, { cars := cars, files := uploadStream.Close env s.files }, car⟩

/-- The last part of `UpdateCar`, shared by both branches: force the status and write the
document.  `pending` is the upload stream whose deferred `Close` is still to run, if any. -/
def UpdateCar.write (env : Env) (s : Store) (id : ObjectID) (car : Car)
    (pending : Option UploadStream) : CarOutcome UpdateResult :=
  let files := match pending with
    | none => s.files
    | some uploadStream => uploadStream.Close env s.files
  -- Ensure that the updated car status remains "available"
  let car := { car with Status := CarStatusAvailable }
  match UpdateOne env s.cars ⟨id, none⟩ (.setCar car) with
  | .error e => ⟨.error e, { s with files := files }, car⟩
  | .ok (result, cars) => ⟨.ok result, { cars := cars, files := files }, car⟩

/-- Deleting the blob a picture id names, as `UpdateCar` and `DeleteCar` do it: nothing for an
empty picture, otherwise parse the id and delete the file.  The result is the error that makes
the method return, if any, and the bucket at that point. -/
def deletePicture (env : Env) (files : List GridFile) (picture : String) :
    Option Error × List GridFile :=
  if picture ≠ "" then
    match ObjectIDFromHex picture with
    | .error e => (some e, files)
    | .ok pictureID => BucketDelete env files pictureID
  else (none, files)

/-- Method `UpdateCar`. -/
def UpdateCar (env : Env) (s : Store) (id : ObjectID) (car : Car) (fileData : Slice)
    (fileName : String) : CarOutcome UpdateResult :=
  match fileData with
  | some _ =>
    -- Find the existing available car to get the current picture ID
    match FindOne env s.cars ⟨id, some CarStatusAvailable⟩ with
    | .error e => ⟨.error e, s, car⟩
    | .ok existingCar =>
      -- Delete the old photo from GridFS if it exists
      match deletePicture env s.files existingCar.Picture with
      | (some e, files) => ⟨.error e, { s with files := files }, car⟩
      | (none, files) =>
        -- Upload the new photo to GridFS
        match OpenUploadStream env fileName with
        | .error e => ⟨.error e, { s with files := files }, car⟩
        | .ok uploadStream =>
          match uploadStream.Write env fileData with
          | .error e => ⟨.error e, { s with files := uploadStream.Close env files }, car⟩
          | .ok uploadStream =>
            UpdateCar.write env { s with files := files } id
              { car with Picture := uploadStream.FileID.Hex } (some uploadStream)
  | none => UpdateCar.write env s id car none

/-- Method `DeleteCar`. -/
def DeleteCar (env : Env) (s : Store) (id : ObjectID) : Outcome DeleteResult :=
  match FindOne env s.cars ⟨id, some CarStatusAvailable⟩ with
  | .error e => ⟨.error e, s⟩
  | .ok car =>
    -- Delete the associated image from GridFS if it exists
    match deletePicture env s.files car.Picture with
    | (some e, files) => ⟨.error e, { s with files := files }⟩
    | (none, files) =>
      -- Delete the car document from the collection
      match DeleteOne env s.cars ⟨id, none⟩ with
      | .error e => ⟨.error e, { s with files := files }⟩
      | .ok (result, cars) => ⟨.ok result, { cars := cars, files := files }⟩

/-- Method `ReserveCar`. -/
def ReserveCar (env : Env) (s : Store) (id : ObjectID) (customer : Customer) :
    Outcome UpdateResult :=
  match UpdateOne env s.cars ⟨id, some CarStatusAvailable⟩
      (.setStatusCustomer CarStatusReserved (.doc customer)) with
  | .error e => ⟨.error e, s⟩
  | .ok (result, cars) => ⟨.ok result, { s with cars := cars }⟩

/-- Method `CancelReservation`. -/
def CancelReservation (env : Env) (s : Store) (id : ObjectID) : Outcome UpdateResult :=
  match UpdateOne env s.cars ⟨id, some CarStatusReserved⟩
      (.setStatusCustomer CarStatusAvailable .null) with
  | .error e => ⟨.error e, s⟩
  | .ok (result, cars) => ⟨.ok result, { s with cars := cars }⟩

/-- Method `SellCar`. -/
def SellCar (env : Env) (s : Store) (id : ObjectID) (customer : Customer) :
    Outcome UpdateResult :=
  match UpdateOne env s.cars ⟨id, some CarStatusAvailable⟩
      (.setStatusCustomer CarStatusSold (.doc customer)) with
  | .error e => ⟨.error e, s⟩
  | .ok (result, cars) => ⟨.ok result, { s with cars := cars }⟩

/-! ## Calls that run concurrently -/

/-- A call of a service method in progress, seen from the store: it has returned, or its next
store operation is pending.  A pending operation, when it runs, changes the store (`effect`)
and leaves the rest of the call (`next`), both determined by the store it runs on.  One store
operation is one call on the collection or the bucket; the server runs an `UpdateOne` on one
document as a unit, so nothing runs in the middle of it, while between two operations of one
call the operations of other calls can run. -/
inductive Call (α : Type) where
  | returned (result : α)
  | op (next : Store → Call α) (effect : Store → Store)

/-- The pending store operation of a call runs on the store.  A call that has returned does
nothing. -/
def Call.step {α : Type} : Call α → Store → Call α × Store
  | .returned result, s => (.returned result, s)
  | .op next effect, s => (next s, effect s)

/-- Two calls running concurrently on one store.  The schedule says whose store operation runs
next: `true` the first call's, `false` the second's.  The outcome is the two returned values
and the store; there is none when the schedule ends before both calls have returned. -/
def interleave {α β : Type} : List Bool → Call α → Call β → Store → Option (α × β × Store)
  | [], .returned x, .returned y, s => some (x, y, s)
  | [], _, _, _ => none
  | true :: schedule, a, b, s => interleave schedule (a.step s).1 b (a.step s).2
  | false :: schedule, a, b, s => interleave schedule a (b.step s).1 (b.step s).2

/-- A call whose only store operation is one `UpdateOne` on the collection of cars, and which
returns what that operation returns. -/
def Call.updateOne (env : Env) (f : Filter) (u : Update) : Call (Except Error UpdateResult) :=
  .op
    (fun s =>
      match UpdateOne env s.cars f u with
      | .error e => .returned (.error e)
      | .ok (result, _) => .returned (.ok result))
    (fun s =>
      match UpdateOne env s.cars f u with
      | .error _ => s
      | .ok (_, cars) => { s with cars := cars })

/-- Method `ReserveCar` as a call in progress: it makes one store operation, the `UpdateOne`
with the filter on `_id` and status `available`. -/
def ReserveCar.call (env : Env) (id : ObjectID) (customer : Customer) :
    Call (Except Error UpdateResult) :=
  Call.updateOne env ⟨id, some CarStatusAvailable⟩
    (.setStatusCustomer CarStatusReserved (.doc customer))

/-! ## handlers -/

/-- Outcome of `strconv.ParseUint(s, 10, 64)` on the digits after the sign. -/
inductive ParseUintResult where
  | syntaxError
  | rangeError
  | value (n : Nat)
deriving DecidableEq, Repr

/-- The digit loop of `strconv.ParseUint` in base ten: it stops at the first character that is
not a digit, and at the first digit that takes the number to `2 ^ 64` or beyond. -/
def parseUint10 : List Char → Nat → ParseUintResult
  | [], acc => .value acc
  | c :: cs, acc =>
    if 48 ≤ c.toNat ∧ c.toNat ≤ 57 then
      if acc * 10 + (c.toNat - 48) ≥ 2 ^ 64 then .rangeError
      else parseUint10 cs (acc * 10 + (c.toNat - 48))
    else .syntaxError

/-- The number `strconv.Atoi` returns; the handlers drop its error.  A string that is not an
optional sign followed by digits gives 0, a number outside the 64-bit range is clamped. -/
def Atoi (s : String) : Int :=
  let neg := s.data.head? = some '-'
  let digits := if s.data.head? = some '-' ∨ s.data.head? = some '+' then s.data.tail else s.data
  if digits = [] then 0
  else
    match parseUint10 digits 0 with
    | .syntaxError => 0
    | .rangeError => if neg then -(2 ^ 63 : Int) else 2 ^ 63 - 1
    | .value n =>
      if ¬ neg ∧ n ≥ 2 ^ 63 then 2 ^ 63 - 1
      else if neg ∧ n > 2 ^ 63 then -(2 ^ 63 : Int)
      else if neg then -(n : Int) else (n : Int)

/-- Whether a `float64` is zero (either sign), from its bit pattern. -/
def Float64.isZero (x : Float64) : Bool := x.bits % 2 ^ 63 == 0

/-- Whether `x >= 1` holds for a `float64`, from its bit pattern: the sign bit is clear and the
pattern lies between that of 1.0 and that of positive infinity (a NaN compares false). -/
def Float64.geOne (x : Float64) : Bool :=
  0x3FF0000000000000 ≤ x.bits && x.bits ≤ 0x7FF0000000000000

/-- Conversion `string(fileData)`; only whether the result is empty is ever looked at. -/
def bytesToString (b : List Byte) : String := ⟨b.map (fun x => Char.ofNat x.val)⟩

/-- One `validator.FieldError`: the struct field, the tag that failed and the tag's parameter. -/
structure FieldError where
  Field : String
  Tag : String
  Param : String
deriving DecidableEq, Repr

/-- Method `validate.Struct` on a `models.Car` whose `Customer` is nil, following the `validate`
tags of the struct field by field; each field reports the first of its tags that fails. -/
def validateCar (car : Car) : List FieldError :=
  (if car.Make = "" then [⟨"Make", "required", ""⟩] else []) ++
  (if car.Model = "" then [⟨"Model", "required", ""⟩] else []) ++
  (if car.Year = 0 then [⟨"Year", "required", ""⟩]
   else if car.Year < 1900 then [⟨"Year", "min", "1900"⟩] else []) ++
  (if car.Price.isZero then [⟨"Price", "required", ""⟩]
   else if ¬ car.Price.geOne then [⟨"Price", "min", "1"⟩] else []) ++
  (if car.Status = "" then [⟨"Status", "required", ""⟩]
   else if car.Status ≠ CarStatusAvailable ∧ car.Status ≠ CarStatusReserved
      ∧ car.Status ≠ CarStatusSold
     then [⟨"Status", "oneof", "available reserved sold"⟩] else []) ++
  (if car.Picture = "" then [⟨"Picture", "required", ""⟩] else [])

/-- The message `handleValidationErrors` writes for one field error. -/
def validationMessage (e : FieldError) : String :=
  if e.Tag = "required" then e.Field ++ " is required"
  else if e.Tag = "email" then e.Field ++ " is not a valid email address"
  else if e.Tag = "min" then e.Field ++ " must be at least " ++ e.Param
  else if e.Tag = "gt" then e.Field ++ " must be greater than " ++ e.Param
  else if e.Tag = "oneof" then e.Field ++ " must be one of " ++ e.Param
  else e.Field ++ " validation failed"

/-- What a handler writes as the response body. -/
inductive Body where
  /-- Plain text written by `http.Error`. -/
  | text (msg : String)
  /-- The text `err.Error()` of an error the service returned, written by `http.Error`. -/
  | errorText (err : Error)
  /-- The JSON map from field name to message written by `handleValidationErrors`. -/
  | fieldErrors (m : List (String × String))
  | insertOneResult (r : InsertOneResult)
  | updateResult (r : UpdateResult)
  | deleteResult (r : DeleteResult)
  | cars (cs : List Car)
  | image (data : List Byte)
deriving DecidableEq, Repr

/-- An HTTP response: status code and body. -/
structure Response where
  status : Nat
  body : Body
deriving DecidableEq, Repr

/-- Function `handleValidationErrors`. -/
def handleValidationErrors (errs : List FieldError) : Response :=
  ⟨400, .fieldErrors (errs.map (fun e => (e.Field, validationMessage e)))⟩

/-- Interface `IcarService`, over the state `σ` of whatever implements it. -/
structure IcarService (σ : Type) where
  GetCarsByStatus : String → σ → Except Error (List Car) × σ
  GetCarImage : String → σ → Except Error (List Byte) × σ
  CreateCar : Car → Slice → String → σ → Except Error InsertOneResult × σ
  UpdateCar : ObjectID → Car → Slice → String → σ → Except Error UpdateResult × σ
  DeleteCar : ObjectID → σ → Except Error DeleteResult × σ
  ReserveCar : ObjectID → Customer → σ → Except Error UpdateResult × σ
  CancelReservation : ObjectID → σ → Except Error UpdateResult × σ
  SellCar : ObjectID → Customer → σ → Except Error UpdateResult × σ

/-- Function `NewCarServiceInterface`: `carService` as an implementation of the interface. -/
def NewCarServiceInterface (env : Env) : IcarService Store :=
  { GetCarsByStatus := fun status s =>
      ((GetCarsByStatus env s status).result, (GetCarsByStatus env s status).store),
    GetCarImage := fun pictureID s =>
      ((GetCarImage env s pictureID).result, (GetCarImage env s pictureID).store),
    CreateCar := fun car fileData fileName s =>
      ((CreateCar env s car fileData fileName).result,
       (CreateCar env s car fileData fileName).store),
    UpdateCar := fun id car fileData fileName s =>
      ((UpdateCar env s id car fileData fileName).result,
       (UpdateCar env s id car fileData fileName).store),
    DeleteCar := fun id s => ((DeleteCar env s id).result, (DeleteCar env s id).store),
    ReserveCar := fun id customer s =>
      ((ReserveCar env s id customer).result, (ReserveCar env s id customer).store),
    CancelReservation := fun id s =>
      ((CancelReservation env s id).result, (CancelReservation env s id).store),
    SellCar := fun id customer s =>
      ((SellCar env s id customer).result, (SellCar env s id customer).store) }

/-- A file part of a multipart form, with whether reading it (`io.ReadAll`) fails. -/
structure FormFile where
  Filename : String
  content : List Byte
  readFails : Bool

/-- What the car handlers read of an `http.Request` with a multipart form. -/
structure Request where
  /-- Function `mux.Vars`: the route variables. -/
  vars : String → String
  /-- Whether `ParseMultipartForm` fails. -/
  parseFormFails : Bool
  /-- Method `FormValue`: the empty string for a key that is not in the form. -/
  FormValue : String → String
  /-- Method `FormFile`: `none` when it returns an error (no such file part). -/
  FormFile : String → Option FormFile
  /-- What `json.NewDecoder(r.Body).Decode(&customer)` leaves in a zero `models.Customer`:
  `none` when it returns an error. -/
  jsonCustomer : Option Customer

/-- Handler `CreateCar`.  `ParseFloat` is the number `strconv.ParseFloat(_, 64)` returns (its
error is dropped); `carService` is the package variable holding the service. -/
def handlers.CreateCar {σ : Type} (ParseFloat : String → Float64) (carService : IcarService σ)
    (r : Request) (st : σ) : Response × σ :=
  -- Parse the multipart form data
  if r.parseFormFails then (⟨500, .text "Error parsing form data"⟩, st)
  else
    -- Extract form values
    let car : Car :=
      { Car.zero with
        Make := r.FormValue "make", Model := r.FormValue "model",
        Year := Atoi (r.FormValue "year"), Price := ParseFloat (r.FormValue "price"),
        Status := CarStatusAvailable }
    -- Retrieve the file from the form
    match r.FormFile "picture" with
    | none => (⟨500, .text "Error uploading file"⟩, st)
    | some file =>
      -- Read the file into a byte slice
      if file.readFails then (⟨500, .text "Error reading file"⟩, st)
      else
        let fileData : Slice := some file.content
        let car := { car with Picture := bytesToString file.content }
        -- Validate the car struct
        match validateCar car with
        | e :: errs => (handleValidationErrors (e :: errs), st)
        | [] =>
          -- Save the car in the database
          match carService.CreateCar car fileData file.Filename st with
          | (.error err, st') => (⟨500, .errorText err⟩, st')
          | (.ok result, st') => (⟨200, .insertOneResult result⟩, st')

/-- Handler `GetCarsByStatus`. -/
def handlers.GetCarsByStatus {σ : Type} (carService : IcarService σ) (r : Request) (st : σ) :
    Response × σ :=
  let status := r.vars "status"
  -- Check if the status is one of the valid constants
  if status = CarStatusAvailable ∨ status = CarStatusReserved ∨ status = CarStatusSold then
    match carService.GetCarsByStatus status st with
    | (.error err, st') => (⟨500, .errorText err⟩, st')
    | (.ok cars, st') => (⟨200, .cars cars⟩, st')
  else (⟨400, .text "Invalid status provided"⟩, st)

/-- Method `validate.Struct` on a `models.Customer`, following its `validate` tags.  `isEmail`
is the validator library's `email` check; `number` accepts a non-empty string of digits. -/
def validateCustomer (isEmail : String → Bool) (c : Customer) : List FieldError :=
  (if c.FullName = "" then [⟨"FullName", "required", ""⟩] else []) ++
  (if c.Email = "" then [⟨"Email", "required", ""⟩]
   else if ¬ isEmail c.Email then [⟨"Email", "email", ""⟩] else []) ++
  (if c.PhoneNumber = "" then [⟨"PhoneNumber", "required", ""⟩]
   else if ¬ c.PhoneNumber.data.all (fun ch => 48 ≤ ch.toNat ∧ ch.toNat ≤ 57)
     then [⟨"PhoneNumber", "number", ""⟩] else [])

/-- Handler `ReserveCar`. -/
def handlers.ReserveCar {σ : Type} (isEmail : String → Bool) (carService : IcarService σ)
    (r : Request) (st : σ) : Response × σ :=
  match ObjectIDFromHex (r.vars "id") with
  | .error _ => (⟨400, .text "Invalid car ID"⟩, st)
  | .ok id =>
    match r.jsonCustomer with
    | none => (⟨400, .text "Invalid customer data"⟩, st)
    | some customer =>
      -- Validate the customer struct
      match validateCustomer isEmail customer with
      | e :: errs => (handleValidationErrors (e :: errs), st)
      | [] =>
        -- Reserve the car for the customer
        match carService.ReserveCar id customer st with
        | (.error err, st') => (⟨500, .errorText err⟩, st')
        | (.ok result, st') => (⟨200, .updateResult result⟩, st')

/-- Handler `SellCar`. -/
def handlers.SellCar {σ : Type} (isEmail : String → Bool) (carService : IcarService σ)
    (r : Request) (st : σ) : Response × σ :=
  match ObjectIDFromHex (r.vars "id") with
  | .error _ => (⟨400, .text "Invalid car ID"⟩, st)
  | .ok id =>
    match r.jsonCustomer with
    | none => (⟨400, .text "Invalid customer data"⟩, st)
    | some customer =>
      -- Validate the customer struct
      match validateCustomer isEmail customer with
      | e :: errs => (handleValidationErrors (e :: errs), st)
      | [] =>
        -- Sell the car to the customer
        match carService.SellCar id customer st with
        | (.error err, st') => (⟨500, .errorText err⟩, st')
        | (.ok result, st') => (⟨200, .updateResult result⟩, st')

/-- Handler `UpdateCar`.  The result is `none` when the handler panics: it reads
`handler.Filename` for the call of the service, and `handler` is nil when the form has no
picture file part. -/
def handlers.UpdateCar {σ : Type} (ParseFloat : String → Float64) (carService : IcarService σ)
    (r : Request) (st : σ) : Option (Response × σ) :=
  match ObjectIDFromHex (r.vars "id") with
  | .error _ => some (⟨400, .text "Invalid car ID"⟩, st)
  | .ok id =>
    -- Parse the multipart form data
    if r.parseFormFails then some (⟨500, .text "Error parsing form data"⟩, st)
    else
      -- Extract form values
      let car : Car :=
        { Car.zero with
          Make := r.FormValue "make", Model := r.FormValue "model",
          Year := Atoi (r.FormValue "year"), Price := ParseFloat (r.FormValue "price"),
          Status := CarStatusAvailable }
      -- Retrieve the file from the form, if present
      let handler := r.FormFile "picture"
      if (match handler with
          | some file => file.readFails
          | none => false) then some (⟨500, .text "Error reading file"⟩, st)
      else
        let fileData : Slice := handler.map (fun file => file.content)
        let car := match handler with
          | some file => { car with Picture := bytesToString file.content }
          | none => car
        -- Validate the car struct
        match validateCar car with
        | e :: errs => some (handleValidationErrors (e :: errs), st)
        | [] =>
          -- Update the car in the database
          match handler with
          | none => none
          | some file =>
            match carService.UpdateCar id car fileData file.Filename st with
            | (.error err, st') => some (⟨500, .errorText err⟩, st')
            | (.ok result, st') => some (⟨200, .updateResult result⟩, st')

/-- The car the `CreateCar` and `UpdateCar` handlers build from the form values, with the given
picture field. -/
def formCar (ParseFloat : String → Float64) (r : Request) (picture : String) : Car :=
  { ID := NilObjectID
    Make := r.FormValue "make"
    Model := r.FormValue "model"
    Year := Atoi (r.FormValue "year")
    Price := ParseFloat (r.FormValue "price")
    Status := CarStatusAvailable
    Customer := none
    Picture := picture }

/-- Handler `DeleteCar`. -/
def handlers.DeleteCar {σ : Type} (carService : IcarService σ) (r : Request) (st : σ) :
    Response × σ :=
  match ObjectIDFromHex (r.vars "id") with
  | .error _ => (⟨400, .text "Invalid car ID"⟩, st)
  | .ok id =>
    -- Delete the car from the database
    match carService.DeleteCar id st with
    | (.error err, st') => (⟨500, .errorText err⟩, st')
    | (.ok result, st') => (⟨200, .deleteResult result⟩, st')

/-- Handler `CancelReservation`. -/
def handlers.CancelReservation {σ : Type} (carService : IcarService σ) (r : Request) (st : σ) :
    Response × σ :=
  match ObjectIDFromHex (r.vars "id") with
  | .error _ => (⟨400, .text "Invalid car ID"⟩, st)
  | .ok id =>
    -- Cancel the car reservation
    match carService.CancelReservation id st with
    | (.error err, st') => (⟨500, .errorText err⟩, st')
    | (.ok result, st') => (⟨200, .updateResult result⟩, st')

/-! ## Reading the store -/

/-- The document with the given `_id`, as `FindOne(bson.M{"_id": id})` returns it. -/
def getCar (s : Store) (id : ObjectID) : Option CarDoc :=
  s.cars.find? (fun d => d.id == id)

/-- The customer/status predicate of one document: the car reads back with a customer exactly
when its status is not `available`. -/
def CarDoc.customerIffNotAvailable (d : CarDoc) : Prop :=
  (decodeCar d).Customer ≠ none ↔ d.status ≠ CarStatusAvailable

instance (d : CarDoc) : Decidable d.customerIffNotAvailable := by
  unfold CarDoc.customerIffNotAvailable
  exact inferInstance

/-- The customer/status predicate of a store: it holds of every car document. -/
def CustomerInvariant (s : Store) : Prop :=
  ∀ d ∈ s.cars, d.customerIffNotAvailable

instance (s : Store) : Decidable (CustomerInvariant s) := by
  unfold CustomerInvariant
  exact inferInstance

/-- The collection's `_id` index: no two documents share an `_id`. -/
def UniqueIds (s : Store) : Prop :=
  (s.cars.map CarDoc.id).Nodup

instance (s : Store) : Decidable (UniqueIds s) := by
  unfold UniqueIds
  exact inferInstance

/-- The status changes the lifecycle permits for a car that exists before and after an
operation: none, `available → reserved`, `available → sold`, `reserved → available`. -/
def PermittedStep (before after : String) : Prop :=
  before = after ∨
  (before = CarStatusAvailable ∧ after = CarStatusReserved) ∨
  (before = CarStatusAvailable ∧ after = CarStatusSold) ∨
  (before = CarStatusReserved ∧ after = CarStatusAvailable)

/-- Every car present before and after has made a permitted step. -/
def PermittedSteps (s s' : Store) : Prop :=
  ∀ id d d', s.cars.find? (fun x => x.id == id) = some d →
    s'.cars.find? (fun x => x.id == id) = some d' → PermittedStep d.status d'.status

/-- No storage call fails for a reason outside the program. -/
def NoFault (env : Env) : Prop :=
  ∀ call, env.fails call = false

/-- The id the driver generates for a new file is not the id of a stored file. -/
def FreshFileID (env : Env) (s : Store) : Prop :=
  ∀ f ∈ s.files, f.id ≠ env.newFileID

/-- The bucket's `_id` index: no two files share an id. -/
def UniqueFileIds (s : Store) : Prop :=
  (s.files.map GridFile.id).Nodup

instance (s : Store) : Decidable (UniqueFileIds s) := by
  unfold UniqueFileIds
  exact inferInstance

/-- Whether a picture string is the hexadecimal id of a file in the bucket. -/
def referencesLiveBlob (files : List GridFile) (picture : String) : Bool :=
  match ObjectIDFromHex picture with
  | .ok id => files.any (fun f => f.id == id)
  | .error _ => false

/-- The picture predicate of a store: every car's picture references a live blob, and no blob
is referenced by two cars. -/
def PictureInvariant (s : Store) : Prop :=
  (∀ d ∈ s.cars, referencesLiveBlob s.files d.picture = true) ∧
  (s.cars.map (fun d => ObjectIDFromHex d.picture)).Nodup

instance (s : Store) : Decidable (PictureInvariant s) := by
  unfold PictureInvariant
  exact inferInstance

/-- Whether a string is the hexadecimal form of an object id: 24 bytes, each a hexadecimal
digit of either case. -/
def isObjectIDHex (s : String) : Prop :=
  s.utf8ByteSize = 24 ∧ ∀ c ∈ s.data, (fromHexChar c).isSome = true

instance (s : String) : Decidable (isObjectIDHex s) := by
  unfold isObjectIDHex
  exact inferInstance

/-- Whether `x > 0` holds for a `float64`, from its bit pattern: the sign bit is clear, the
number is not zero and not a NaN. -/
def Float64.gtZero (x : Float64) : Bool :=
  0 < x.bits && x.bits ≤ 0x7FF0000000000000

/-- Two documents that differ at most in status and customer. -/
def CarDoc.sameButStatusCustomer (d d' : CarDoc) : Prop :=
  d'.id = d.id ∧ d'.make = d.make ∧ d'.model = d.model ∧ d'.year = d.year ∧
  d'.price = d.price ∧ d'.picture = d.picture

/-! ## Example data -/

/-- Object ids for examples. -/
def oid (n : Nat) : ObjectID := Fin.ofNat n

/-- The customer of the service tests. -/
def johnDoe : Customer := ⟨"John Doe", "john.doe@example.com", "1234567890"⟩

/-- A stored car (price 20000.0) with the given id, status and customer field. -/
def toyota (id : ObjectID) (status : String) (customer : BsonCustomer) : CarDoc :=
  { id := id, make := "Toyota", model := "Corolla", year := 2020, price := ⟨0x40D3880000000000⟩,
    status := status, customer := customer, picture := (oid 10).Hex }

/-- A store holding one car and the blob of its picture. -/
def storeWith (d : CarDoc) : Store :=
  { cars := [d], files := [⟨oid 10, "corolla.jpg", [1, 2, 3]⟩] }

/-- Attributes a caller passes to `CreateCar` or `UpdateCar` (price 22000.0). -/
def civic : Car :=
  { Car.zero with
    Make := "Honda", Model := "Civic", Year := 2023, Price := ⟨0x40D57C0000000000⟩ }

/-- An environment in which no storage call fails. -/
def Env.ok (newFileID newDocID : ObjectID) : Env :=
  { fails := fun _ => false, failedDeleteRemovesFile := false, newFileID := newFileID,
    newDocID := newDocID }

/-- An environment for the examples. -/
def env0 : Env := Env.ok (oid 20) (oid 30)

/-- As `env0`, but the given storage call fails. -/
def envFailing (call : StoreCall) : Env :=
  { fails := fun c => c == call, failedDeleteRemovesFile := false, newFileID := oid 20,
    newDocID := oid 30 }

/-- As `env0`, but `Bucket.Delete` fails on the chunks, after the file document is gone. -/
def envDeleteFailingLate : Env :=
  { fails := fun c => c == .bucketDelete, failedDeleteRemovesFile := true,
    newFileID := oid 20, newDocID := oid 30 }

/-- A request for `POST /cars/{id}/reserve` or `/sell` with John Doe as the customer. -/
def customerRequest (id : String) : Request :=
  { vars := fun k => if k = "id" then id else "", parseFormFails := false,
    FormValue := fun _ => "", FormFile := fun _ => none, jsonCustomer := some johnDoe }

/-- A multipart request for `POST /cars` or `PUT /cars/{id}` with the given form values and
picture file part. -/
def carRequest (id make model year price : String) (picture : Option FormFile) : Request :=
  { vars := fun k => if k = "id" then id else "", parseFormFails := false,
    FormValue := fun k =>
      if k = "make" then make else if k = "model" then model
      else if k = "year" then year else if k = "price" then price else "",
    FormFile := fun k => if k = "picture" then picture else none, jsonCustomer := none }

/-- A stand-in for `strconv.ParseFloat` on the price strings of the examples. -/
def parseFloatExamples (s : String) : Float64 :=
  if s = "20000" then ⟨0x40D3880000000000⟩
  else if s = "0.5" then ⟨0x3FE0000000000000⟩
  else ⟨0⟩

/-- A request for `GET /cars/{status}`. -/
def statusRequest (status : String) : Request :=
  { vars := fun k => if k = "status" then status else "", parseFormFails := false,
    FormValue := fun _ => "", FormFile := fun _ => none, jsonCustomer := none }

/-- The car of the scenario: Toyota Corolla, 2020, price 20000.0. -/
def corolla : Car :=
  { Car.zero with
    Make := "Toyota", Model := "Corolla", Year := 2020, Price := ⟨0x40D3880000000000⟩ }

/-- The car the handlers build from the example form: the Corolla with status `available` and
the picture field holding the file content as a string. -/
def corolla.withFormFields : Car :=
  { corolla with Status := CarStatusAvailable, Picture := bytesToString [1, 2] }

/-- The document of the scenario's car with the given status and customer field. -/
def corollaDoc (status : String) (customer : BsonCustomer) : CarDoc :=
  { id := oid 30, make := "Toyota", model := "Corolla", year := 2020,
    price := ⟨0x40D3880000000000⟩, status := status, customer := customer,
    picture := (oid 20).Hex }

/-- Scenario, step 1: `CreateCar` on the empty store with image bytes `X`. -/
def scenario1 (X : List Byte) : CarOutcome InsertOneResult :=
  CreateCar env0 ⟨[], []⟩ corolla (some X) "corolla.jpg"

/-- Scenario, step 2: `ReserveCar` for John Doe on the created car. -/
def scenario2 (X : List Byte) : Outcome UpdateResult :=
  ReserveCar env0 (scenario1 X).store (oid 30) johnDoe

/-- Scenario, step 3: `SellCar` on the reserved car. -/
def scenario3 (X : List Byte) : Outcome UpdateResult :=
  SellCar env0 (scenario2 X).store (oid 30) johnDoe

/-- Scenario, step 4: `CancelReservation`. -/
def scenario4 (X : List Byte) : Outcome UpdateResult :=
  CancelReservation env0 (scenario3 X).store (oid 30)

/-- Scenario, step 5: `SellCar` to the same customer. -/
def scenario5 (X : List Byte) : Outcome UpdateResult :=
  SellCar env0 (scenario4 X).store (oid 30) johnDoe

/-- Scenario, step 6: `DeleteCar` on the sold car. -/
def scenario6 (X : List Byte) : Outcome DeleteResult :=
  DeleteCar env0 (scenario5 X).store (oid 30)

end CarDealership

/-! # Theorems -/

namespace CarDealership

/-! ## Lemmas on the collection primitives -/

theorem find?_matches_none (cars : List CarDoc) (id : ObjectID) (st : String)
    (h : ∀ d ∈ cars, d.id = id → d.status ≠ st) :
    cars.find? (Filter.matches ⟨id, some st⟩) = none := by
  rw [List.find?_eq_none]
  intro d hd hm
  simp only [Filter.matches, Bool.and_eq_true, beq_iff_eq] at hm
  exact h d hd hm.1 hm.2

theorem find?_matches_of_find?_id (cars : List CarDoc) (id : ObjectID) (st : String) (d : CarDoc)
    (hd : cars.find? (fun x => x.id == id) = some d) (hst : d.status = st) :
    cars.find? (Filter.matches ⟨id, some st⟩) = some d := by
  induction cars with
  | nil => simp at hd
  | cons x xs ih =>
    rw [List.find?_cons] at hd ⊢
    by_cases hx : x.id = id
    · have hxd : x = d := by simpa [hx] using hd
      subst hxd
      simp [Filter.matches, hx, hst]
    · have hx1 : (x.id == id) = false := by simpa using hx
      have hx2 : Filter.matches ⟨id, some st⟩ x = false := by simp [Filter.matches, hx]
      rw [hx1] at hd
      rw [hx2]
      exact ih hd

theorem find?_id_replaceFirst (cars : List CarDoc) (id : ObjectID) (st : String)
    (d d' : CarDoc) (hd : cars.find? (fun x => x.id == id) = some d) (hst : d.status = st)
    (hid : d'.id = id) :
    (replaceFirst (Filter.matches ⟨id, some st⟩) d' cars).find? (fun x => x.id == id)
      = some d' := by
  induction cars with
  | nil => simp at hd
  | cons x xs ih =>
    rw [List.find?_cons] at hd
    by_cases hx : x.id = id
    · have hxd : x = d := by simpa [hx] using hd
      subst hxd
      simp [replaceFirst, Filter.matches, hx, hst, hid]
    · have hx1 : (x.id == id) = false := by simpa using hx
      have hx2 : Filter.matches ⟨id, some st⟩ x = false := by simp [Filter.matches, hx]
      rw [hx1] at hd
      simp only [replaceFirst, hx2, Bool.false_eq_true, if_false, List.find?_cons, hx1]
      exact ih hd

/-- A conditional status update on a car that is not in the required status matches nothing
and leaves the collection as it is. -/
theorem UpdateOne_no_match (env : Env) (cars : List CarDoc) (id : ObjectID) (st : String)
    (u : Update) (h : ∀ d ∈ cars, d.id = id → d.status ≠ st) :
    UpdateOne env cars ⟨id, some st⟩ u =
      if env.fails .updateOne then .error (.Storage .updateOne) else .ok (⟨0, 0, 0⟩, cars) := by
  simp only [UpdateOne, find?_matches_none cars id st h]

/-- A conditional status update on a car in the required status rewrites exactly that car. -/
theorem UpdateOne_match (env : Env) (cars : List CarDoc) (id : ObjectID) (st st' : String)
    (c : BsonCustomer) (d : CarDoc) (hok : env.fails .updateOne = false)
    (hd : cars.find? (fun x => x.id == id) = some d) (hst : d.status = st) (hne : st' ≠ st) :
    UpdateOne env cars ⟨id, some st⟩ (.setStatusCustomer st' c) =
      .ok (⟨1, 1, 0⟩, replaceFirst (Filter.matches ⟨id, some st⟩)
        { d with status := st', customer := c } cars) := by
  have hne' : ({ d with status := st', customer := c } : CarDoc) ≠ d := by
    intro h
    have := congrArg CarDoc.status h
    simp only [hst] at this
    exact hne this
  simp [UpdateOne, hok, find?_matches_of_find?_id cars id st d hd hst, Update.apply, hne']

/-! ## UpdateCar and DeleteCar on a car that is not available -/

/-- C1: `UpdateCar` on a car that is not available.  Called without image bytes on a reserved car
the method does not fail: it reports one matched and modified record, overwrites the attributes
and puts the status back to `available`, while the customer stays in the document.  Called with
image bytes on the same car it fails with `ErrNoDocuments` and changes nothing. -/
theorem UpdateCar_reserved_without_image :
    (UpdateCar env0 (storeWith (toyota (oid 1) CarStatusReserved (.doc johnDoe))) (oid 1) civic
        none "").result = .ok ⟨1, 1, 0⟩ ∧
    getCar (UpdateCar env0 (storeWith (toyota (oid 1) CarStatusReserved (.doc johnDoe))) (oid 1)
        civic none "").store (oid 1)
      = some { id := oid 1, make := "Honda", model := "Civic", year := 2023,
               price := ⟨0x40D57C0000000000⟩, status := CarStatusAvailable,
               customer := .doc johnDoe, picture := "" } ∧
    (UpdateCar env0 ⟨[], []⟩ (oid 1) civic none "").result = .ok ⟨0, 0, 0⟩ ∧
    (UpdateCar env0 (storeWith (toyota (oid 1) CarStatusReserved (.doc johnDoe))) (oid 1) civic
        (some [7]) "new.jpg").result = .error .ErrNoDocuments ∧
    (UpdateCar env0 (storeWith (toyota (oid 1) CarStatusReserved (.doc johnDoe))) (oid 1) civic
        (some [7]) "new.jpg").store = storeWith (toyota (oid 1) CarStatusReserved (.doc johnDoe)) := by
  decide

/-- C2: `DeleteCar` on an id whose car is missing or not available (reserved, sold) returns an
error, `ErrNoDocuments` unless the lookup itself failed, and leaves the car documents and the
blob store as they were. -/
theorem DeleteCar_not_available (env : Env) (s : Store) (id : ObjectID)
    (h : ∀ d ∈ s.cars, d.id = id → d.status ≠ CarStatusAvailable) :
    (DeleteCar env s id).result
        = .error (if env.fails .findOne then .Storage .findOne else .ErrNoDocuments) ∧
    (DeleteCar env s id).store = s := by
  have hf := find?_matches_none s.cars id CarStatusAvailable h
  unfold DeleteCar FindOne
  by_cases hfail : env.fails .findOne = true
  · simp [hfail]
  · simp [hfail, hf]

theorem DeleteCar_not_available_witness :
    (∀ d ∈ (storeWith (toyota (oid 1) CarStatusSold (.doc johnDoe))).cars,
        d.id = oid 1 → d.status ≠ CarStatusAvailable) ∧
    (DeleteCar env0 (storeWith (toyota (oid 1) CarStatusSold (.doc johnDoe))) (oid 1)).result
        = .error (if env0.fails .findOne then .Storage .findOne else .ErrNoDocuments) ∧
    (DeleteCar env0 (storeWith (toyota (oid 1) CarStatusSold (.doc johnDoe))) (oid 1)).store
        = storeWith (toyota (oid 1) CarStatusSold (.doc johnDoe)) :=
  ⟨by decide, DeleteCar_not_available env0 _ (oid 1) (by decide)⟩

/-! ## The three status transitions -/

/-- C6: `ReserveCar` on an available car (the update call not failing) reports one matched and
one modified record; afterwards the car has status `reserved` and reads back with a customer
equal to the input, all other fields of the document being as before. -/
theorem ReserveCar_available (env : Env) (s : Store) (id : ObjectID) (customer : Customer)
    (d : CarDoc) (hok : env.fails .updateOne = false) (hd : getCar s id = some d)
    (hst : d.status = CarStatusAvailable) :
    (ReserveCar env s id customer).result = .ok ⟨1, 1, 0⟩ ∧
    getCar (ReserveCar env s id customer).store id
      = some { d with status := CarStatusReserved, customer := .doc customer } ∧
    ∀ d', getCar (ReserveCar env s id customer).store id = some d' →
      (decodeCar d').Status = CarStatusReserved ∧ (decodeCar d').Customer = some customer := by
  have hu := UpdateOne_match env s.cars id CarStatusAvailable CarStatusReserved (.doc customer) d
    hok hd hst (by decide)
  have hid : d.id = id := by
    have := List.find?_some hd
    simpa using this
  have hg : getCar (ReserveCar env s id customer).store id
      = some { d with status := CarStatusReserved, customer := .doc customer } := by
    simp only [ReserveCar, hu, getCar]
    exact find?_id_replaceFirst s.cars id CarStatusAvailable d _ hd hst hid
  refine ⟨by simp only [ReserveCar, hu], hg, ?_⟩
  intro d' hd'
  rw [hg] at hd'
  cases hd'
  exact ⟨rfl, rfl⟩

theorem ReserveCar_available_witness :
    env0.fails .updateOne = false ∧
    getCar (storeWith (toyota (oid 1) CarStatusAvailable .absent)) (oid 1)
      = some (toyota (oid 1) CarStatusAvailable .absent) ∧
    (ReserveCar env0 (storeWith (toyota (oid 1) CarStatusAvailable .absent)) (oid 1)
      johnDoe).result = .ok ⟨1, 1, 0⟩ ∧
    getCar (ReserveCar env0 (storeWith (toyota (oid 1) CarStatusAvailable .absent)) (oid 1)
      johnDoe).store (oid 1) = some (toyota (oid 1) CarStatusReserved (.doc johnDoe)) :=
  ⟨rfl, by decide,
    (ReserveCar_available env0 _ (oid 1) johnDoe (toyota (oid 1) CarStatusAvailable .absent)
      rfl (by decide) rfl).1,
    (ReserveCar_available env0 _ (oid 1) johnDoe (toyota (oid 1) CarStatusAvailable .absent)
      rfl (by decide) rfl).2.1⟩

/-- C7: `SellCar` on an available car (the update call not failing) reports one matched and one
modified record; afterwards the car has status `sold` and reads back with a customer equal to
the input, all other fields of the document being as before. -/
theorem SellCar_available (env : Env) (s : Store) (id : ObjectID) (customer : Customer)
    (d : CarDoc) (hok : env.fails .updateOne = false) (hd : getCar s id = some d)
    (hst : d.status = CarStatusAvailable) :
    (SellCar env s id customer).result = .ok ⟨1, 1, 0⟩ ∧
    getCar (SellCar env s id customer).store id
      = some { d with status := CarStatusSold, customer := .doc customer } ∧
    ∀ d', getCar (SellCar env s id customer).store id = some d' →
      (decodeCar d').Status = CarStatusSold ∧ (decodeCar d').Customer = some customer := by
  have hu := UpdateOne_match env s.cars id CarStatusAvailable CarStatusSold (.doc customer) d
    hok hd hst (by decide)
  have hid : d.id = id := by
    have := List.find?_some hd
    simpa using this
  have hg : getCar (SellCar env s id customer).store id
      = some { d with status := CarStatusSold, customer := .doc customer } := by
    simp only [SellCar, hu, getCar]
    exact find?_id_replaceFirst s.cars id CarStatusAvailable d _ hd hst hid
  refine ⟨by simp only [SellCar, hu], hg, ?_⟩
  intro d' hd'
  rw [hg] at hd'
  cases hd'
  exact ⟨rfl, rfl⟩

theorem SellCar_available_witness :
    env0.fails .updateOne = false ∧
    getCar (storeWith (toyota (oid 2) CarStatusAvailable .absent)) (oid 2)
      = some (toyota (oid 2) CarStatusAvailable .absent) ∧
    (SellCar env0 (storeWith (toyota (oid 2) CarStatusAvailable .absent)) (oid 2)
      johnDoe).result = .ok ⟨1, 1, 0⟩ ∧
    getCar (SellCar env0 (storeWith (toyota (oid 2) CarStatusAvailable .absent)) (oid 2)
      johnDoe).store (oid 2) = some (toyota (oid 2) CarStatusSold (.doc johnDoe)) :=
  ⟨rfl, by decide,
    (SellCar_available env0 _ (oid 2) johnDoe (toyota (oid 2) CarStatusAvailable .absent)
      rfl (by decide) rfl).1,
    (SellCar_available env0 _ (oid 2) johnDoe (toyota (oid 2) CarStatusAvailable .absent)
      rfl (by decide) rfl).2.1⟩

/-- C8: `CancelReservation` on a reserved car (the update call not failing) reports one matched
and one modified record; afterwards the car has status `available`, its `customer` field is
null and it reads back with a nil customer, all other fields being as before. -/
theorem CancelReservation_reserved (env : Env) (s : Store) (id : ObjectID) (d : CarDoc)
    (hok : env.fails .updateOne = false) (hd : getCar s id = some d)
    (hst : d.status = CarStatusReserved) :
    (CancelReservation env s id).result = .ok ⟨1, 1, 0⟩ ∧
    getCar (CancelReservation env s id).store id
      = some { d with status := CarStatusAvailable, customer := .null } ∧
    ∀ d', getCar (CancelReservation env s id).store id = some d' →
      (decodeCar d').Status = CarStatusAvailable ∧ (decodeCar d').Customer = none := by
  have hu := UpdateOne_match env s.cars id CarStatusReserved CarStatusAvailable .null d
    hok hd hst (by decide)
  have hid : d.id = id := by
    have := List.find?_some hd
    simpa using this
  have hg : getCar (CancelReservation env s id).store id
      = some { d with status := CarStatusAvailable, customer := .null } := by
    simp only [CancelReservation, hu, getCar]
    exact find?_id_replaceFirst s.cars id CarStatusReserved d _ hd hst hid
  refine ⟨by simp only [CancelReservation, hu], hg, ?_⟩
  intro d' hd'
  rw [hg] at hd'
  cases hd'
  exact ⟨rfl, rfl⟩

theorem CancelReservation_reserved_witness :
    env0.fails .updateOne = false ∧
    getCar (storeWith (toyota (oid 3) CarStatusReserved (.doc johnDoe))) (oid 3)
      = some (toyota (oid 3) CarStatusReserved (.doc johnDoe)) ∧
    (CancelReservation env0 (storeWith (toyota (oid 3) CarStatusReserved (.doc johnDoe)))
      (oid 3)).result = .ok ⟨1, 1, 0⟩ ∧
    getCar (CancelReservation env0 (storeWith (toyota (oid 3) CarStatusReserved (.doc johnDoe)))
      (oid 3)).store (oid 3) = some (toyota (oid 3) CarStatusAvailable .null) :=
  ⟨rfl, by decide,
    (CancelReservation_reserved env0 _ (oid 3) (toyota (oid 3) CarStatusReserved (.doc johnDoe))
      rfl (by decide) rfl).1,
    (CancelReservation_reserved env0 _ (oid 3) (toyota (oid 3) CarStatusReserved (.doc johnDoe))
      rfl (by decide) rfl).2.1⟩

/-- C9: on an id whose car is missing or has a status other than `available`, `ReserveCar` and
`SellCar` leave the whole store (car documents and blobs) unchanged, and, the update call not
failing, both report zero matched (and zero modified) records. -/
theorem ReserveCar_SellCar_not_available (env : Env) (s : Store) (id : ObjectID)
    (customer : Customer) (h : ∀ d ∈ s.cars, d.id = id → d.status ≠ CarStatusAvailable) :
    (ReserveCar env s id customer).store = s ∧
    (SellCar env s id customer).store = s ∧
    (env.fails .updateOne = false →
      (ReserveCar env s id customer).result = .ok ⟨0, 0, 0⟩ ∧
      (SellCar env s id customer).result = .ok ⟨0, 0, 0⟩) := by
  simp only [ReserveCar, SellCar, UpdateOne_no_match env s.cars id CarStatusAvailable _ h]
  by_cases hfail : env.fails .updateOne = true
  · simp [hfail]
  · simp [hfail]

theorem ReserveCar_SellCar_not_available_witness :
    (∀ d ∈ (storeWith (toyota (oid 4) CarStatusReserved (.doc johnDoe))).cars,
        d.id = oid 4 → d.status ≠ CarStatusAvailable) ∧
    (ReserveCar env0 (storeWith (toyota (oid 4) CarStatusReserved (.doc johnDoe))) (oid 4)
      ⟨"Jane Roe", "jane@example.com", "555"⟩).store
      = storeWith (toyota (oid 4) CarStatusReserved (.doc johnDoe)) ∧
    (SellCar env0 (storeWith (toyota (oid 4) CarStatusReserved (.doc johnDoe))) (oid 4)
      ⟨"Jane Roe", "jane@example.com", "555"⟩).result = .ok ⟨0, 0, 0⟩ :=
  ⟨by decide,
    (ReserveCar_SellCar_not_available env0 _ (oid 4) ⟨"Jane Roe", "jane@example.com", "555"⟩
      (by decide)).1,
    ((ReserveCar_SellCar_not_available env0 _ (oid 4) ⟨"Jane Roe", "jane@example.com", "555"⟩
      (by decide)).2.2 rfl).2⟩

/-- C10: on an id whose car is missing or has a status other than `reserved`,
`CancelReservation` leaves the whole store unchanged, so a sold car still reads back with its
customer, and, the update call not failing, it reports zero matched (and zero modified)
records. -/
theorem CancelReservation_not_reserved (env : Env) (s : Store) (id : ObjectID)
    (h : ∀ d ∈ s.cars, d.id = id → d.status ≠ CarStatusReserved) :
    (CancelReservation env s id).store = s ∧
    (∀ d, getCar s id = some d → d.status = CarStatusSold →
      getCar (CancelReservation env s id).store id = some d) ∧
    (env.fails .updateOne = false → (CancelReservation env s id).result = .ok ⟨0, 0, 0⟩) := by
  have hs : (CancelReservation env s id).store = s := by
    simp only [CancelReservation, UpdateOne_no_match env s.cars id CarStatusReserved _ h]
    by_cases hfail : env.fails .updateOne = true
    · simp [hfail]
    · simp [hfail]
  refine ⟨hs, ?_, ?_⟩
  · intro d hd _
    rw [hs]
    exact hd
  · intro hok
    simp [CancelReservation, UpdateOne_no_match env s.cars id CarStatusReserved _ h, hok]

theorem CancelReservation_not_reserved_witness :
    (∀ d ∈ (storeWith (toyota (oid 5) CarStatusSold (.doc johnDoe))).cars,
        d.id = oid 5 → d.status ≠ CarStatusReserved) ∧
    (CancelReservation env0 (storeWith (toyota (oid 5) CarStatusSold (.doc johnDoe)))
      (oid 5)).store = storeWith (toyota (oid 5) CarStatusSold (.doc johnDoe)) ∧
    (CancelReservation env0 (storeWith (toyota (oid 5) CarStatusSold (.doc johnDoe)))
      (oid 5)).result = .ok ⟨0, 0, 0⟩ :=
  ⟨by decide,
    (CancelReservation_not_reserved env0 _ (oid 5) (by decide)).1,
    (CancelReservation_not_reserved env0 _ (oid 5) (by decide)).2.2 rfl⟩

/-! ## Status after an update without image -/

/-- C3: a sold car does not stay sold under `UpdateCar`.  Called without image bytes on a sold
car the method reports one matched and modified record and the car's status goes from `sold`
to `available`, a transition that is not among the permitted ones. -/
theorem UpdateCar_sold_becomes_available :
    (getCar (storeWith (toyota (oid 1) CarStatusSold (.doc johnDoe))) (oid 1)).map CarDoc.status
      = some CarStatusSold ∧
    (UpdateCar env0 (storeWith (toyota (oid 1) CarStatusSold (.doc johnDoe))) (oid 1) civic
        none "").result = .ok ⟨1, 1, 0⟩ ∧
    (getCar (UpdateCar env0 (storeWith (toyota (oid 1) CarStatusSold (.doc johnDoe))) (oid 1)
        civic none "").store (oid 1)).map CarDoc.status = some CarStatusAvailable := by
  decide

/-! ## The customer/status invariant -/

theorem mem_replaceFirst (p : CarDoc → Bool) (d' : CarDoc) (cars : List CarDoc) (x : CarDoc)
    (hx : x ∈ replaceFirst p d' cars) : x = d' ∨ x ∈ cars := by
  induction cars with
  | nil => simp [replaceFirst] at hx
  | cons y ys ih =>
    simp only [replaceFirst] at hx
    split at hx
    · rcases List.mem_cons.1 hx with h | h
      · exact .inl h
      · exact .inr (List.mem_cons_of_mem _ h)
    · rcases List.mem_cons.1 hx with h | h
      · exact .inr (h ▸ List.mem_cons_self _ _)
      · rcases ih h with h | h
        · exact .inl h
        · exact .inr (List.mem_cons_of_mem _ h)

theorem mem_removeFirst {α : Type} (p : α → Bool) (l : List α) (x : α)
    (hx : x ∈ removeFirst p l) : x ∈ l := by
  induction l with
  | nil => simp [removeFirst] at hx
  | cons y ys ih =>
    simp only [removeFirst] at hx
    split at hx
    · exact List.mem_cons_of_mem _ hx
    · rcases List.mem_cons.1 hx with h | h
      · exact h ▸ List.mem_cons_self _ _
      · exact List.mem_cons_of_mem _ (ih h)

/-- What `UpdateOne` can do to the collection: nothing, or rewrite the first match. -/
theorem UpdateOne_cars (env : Env) (cars cars' : List CarDoc) (f : Filter) (u : Update)
    (r : UpdateResult) (h : UpdateOne env cars f u = .ok (r, cars')) :
    cars' = cars ∨ ∃ d d', cars.find? f.matches = some d ∧ u.apply d = .ok d' ∧
      cars' = replaceFirst f.matches d' cars := by
  unfold UpdateOne at h
  split at h
  · cases h
  · split at h
    · cases h
      exact .inl rfl
    · rename_i d hd
      split at h
      · cases h
      · rename_i d' hd'
        cases h
        exact .inr ⟨d, d', hd, hd', rfl⟩

/-- A property of all documents survives `UpdateOne` when the rewritten document has it. -/
theorem UpdateOne_forall (P : CarDoc → Prop) (env : Env) (cars cars' : List CarDoc) (f : Filter)
    (u : Update) (r : UpdateResult) (h : UpdateOne env cars f u = .ok (r, cars'))
    (hall : ∀ d ∈ cars, P d)
    (hnew : ∀ d d', d ∈ cars → f.matches d = true → u.apply d = .ok d' → P d') :
    ∀ d ∈ cars', P d := by
  rcases UpdateOne_cars env cars cars' f u r h with rfl | ⟨d, d', hd, hd', rfl⟩
  · exact hall
  · intro x hx
    rcases mem_replaceFirst _ _ _ _ hx with rfl | hx
    · exact hnew d x (List.mem_of_find?_eq_some hd) (List.find?_some hd) hd'
    · exact hall x hx

theorem matches_status (id : ObjectID) (st : String) (d : CarDoc)
    (h : Filter.matches ⟨id, some st⟩ d = true) : d.id = id ∧ d.status = st := by
  simpa [Filter.matches] using h

theorem matches_id (id : ObjectID) (d : CarDoc)
    (h : Filter.matches ⟨id, none⟩ d = true) : d.id = id := by
  simpa [Filter.matches] using h

/-- The three conditional status updates keep the invariant when the new status and customer
fit together. -/
theorem setStatusCustomer_invariant (env : Env) (s : Store) (id : ObjectID) (st st' : String)
    (c : BsonCustomer) (hinv : CustomerInvariant s)
    (hfit : ∀ d : CarDoc,
      ({ d with status := st', customer := c } : CarDoc).customerIffNotAvailable) :
    ∀ r cars', UpdateOne env s.cars ⟨id, some st⟩ (.setStatusCustomer st' c) = .ok (r, cars') →
      CustomerInvariant { s with cars := cars' } := by
  intro r cars' h
  refine UpdateOne_forall _ env s.cars cars' _ _ r h hinv ?_
  intro d d' _ _ hd'
  simp only [Update.apply, Except.ok.injEq] at hd'
  subst hd'
  exact hfit d

theorem ReserveCar_invariant (env : Env) (s : Store) (id : ObjectID) (customer : Customer)
    (hinv : CustomerInvariant s) : CustomerInvariant (ReserveCar env s id customer).store := by
  unfold ReserveCar
  split
  · exact hinv
  · rename_i r cars' h
    exact setStatusCustomer_invariant env s id _ _ _ hinv
      (fun d => by simp [CarDoc.customerIffNotAvailable, decodeCar]; decide) r cars' h

theorem SellCar_invariant (env : Env) (s : Store) (id : ObjectID) (customer : Customer)
    (hinv : CustomerInvariant s) : CustomerInvariant (SellCar env s id customer).store := by
  unfold SellCar
  split
  · exact hinv
  · rename_i r cars' h
    exact setStatusCustomer_invariant env s id _ _ _ hinv
      (fun d => by simp [CarDoc.customerIffNotAvailable, decodeCar]; decide) r cars' h

theorem CancelReservation_invariant (env : Env) (s : Store) (id : ObjectID)
    (hinv : CustomerInvariant s) : CustomerInvariant (CancelReservation env s id).store := by
  unfold CancelReservation
  split
  · exact hinv
  · rename_i r cars' h
    exact setStatusCustomer_invariant env s id _ _ _ hinv
      (fun d => by simp [CarDoc.customerIffNotAvailable, decodeCar]) r cars' h

theorem DeleteCar_invariant (env : Env) (s : Store) (id : ObjectID)
    (hinv : CustomerInvariant s) : CustomerInvariant (DeleteCar env s id).store := by
  unfold DeleteCar
  split
  · exact hinv
  · split
    · exact hinv
    · split
      · exact hinv
      · rename_i r cars' h
        unfold DeleteOne at h
        split at h
        · cases h
        · split at h
          · cases h
            exact hinv
          · cases h
            intro d hd
            exact hinv d (mem_removeFirst _ _ _ hd)

/-- A successful `InsertOne` appends the marshalled car under an id no document had. -/
theorem InsertOne_ok (env : Env) (cars cars' : List CarDoc) (car : Car) (r : InsertOneResult)
    (h : InsertOne env cars car = .ok (r, cars')) :
    cars' = cars ++ [marshalCar r.InsertedID car] ∧ ∀ d ∈ cars, d.id ≠ r.InsertedID := by
  unfold InsertOne at h
  by_cases hf : env.fails .insertOne = true
  · simp [hf] at h
  · by_cases hdup : (cars.any fun d =>
        d.id == (if car.ID = NilObjectID then env.newDocID else car.ID)) = true
    · simp [hf, hdup] at h
    · simp only [hf, hdup, Bool.false_eq_true, if_false, Except.ok.injEq, Prod.mk.injEq] at h
      obtain ⟨hr, hc⟩ := h
      subst hr
      refine ⟨hc.symm, ?_⟩
      intro d hd hid
      apply hdup
      rw [List.any_eq_true]
      exact ⟨d, hd, by simpa using hid⟩

theorem CreateCar_invariant (env : Env) (s : Store) (car : Car) (fileData : Slice)
    (fileName : String) (hinv : CustomerInvariant s) (hc : car.Customer = none) :
    CustomerInvariant (CreateCar env s car fileData fileName).store := by
  unfold CreateCar
  split
  · exact hinv
  · split
    · exact hinv
    · dsimp only
      split
      · exact hinv
      · rename_i r cars' h
        obtain ⟨hcars, _⟩ := InsertOne_ok env _ _ _ _ h
        subst hcars
        intro d hd
        rcases List.mem_append.1 hd with hd | hd
        · exact hinv d hd
        · rw [List.mem_singleton] at hd
          subst hd
          simp [CarDoc.customerIffNotAvailable, decodeCar, marshalCar, hc]

theorem UpdateCar_write_invariant (env : Env) (s : Store) (id : ObjectID) (car : Car)
    (pending : Option UploadStream) (hinv : CustomerInvariant s) (hc : car.Customer = none)
    (hav : ∀ d ∈ s.cars, d.id = id → d.status = CarStatusAvailable) :
    CustomerInvariant (UpdateCar.write env s id car pending).store := by
  unfold UpdateCar.write
  dsimp only
  split
  · exact hinv
  · rename_i r cars' h
    refine UpdateOne_forall _ env s.cars cars' _ _ r h hinv ?_
    intro d d' hd hm hd'
    have hst := hav d hd (matches_id id d hm)
    have hd0 := hinv d hd
    simp only [Update.apply, hc] at hd'
    split at hd'
    · cases hd'
    · cases hd'
      simp only [CarDoc.customerIffNotAvailable, decodeCar, hst] at hd0 ⊢
      simpa using hd0

/-- With unique ids, a successful lookup of the available car with an id shows that every
document with that id is available. -/
theorem FindOne_available_all (env : Env) (s : Store) (id : ObjectID) (car : Car)
    (hu : UniqueIds s) (h : FindOne env s.cars ⟨id, some CarStatusAvailable⟩ = .ok car) :
    ∀ d ∈ s.cars, d.id = id → d.status = CarStatusAvailable := by
  unfold FindOne at h
  split at h
  · cases h
  · split at h
    · cases h
    · rename_i d0 hd0
      have hm := matches_status id _ d0 (List.find?_some hd0)
      intro d hd hid
      have : d = d0 := List.inj_on_of_nodup_map hu hd (List.mem_of_find?_eq_some hd0)
        (hid.trans hm.1.symm)
      rw [this]
      exact hm.2

theorem UpdateCar_invariant (env : Env) (s : Store) (id : ObjectID) (car : Car)
    (fileData : Slice) (fileName : String) (hinv : CustomerInvariant s) (hu : UniqueIds s)
    (hc : car.Customer = none)
    (hav : fileData = none → ∀ d ∈ s.cars, d.id = id → d.status = CarStatusAvailable) :
    CustomerInvariant (UpdateCar env s id car fileData fileName).store := by
  unfold UpdateCar
  split
  · split
    · exact hinv
    · rename_i existingCar hfind
      have hav' := FindOne_available_all env s id existingCar hu hfind
      split
      · exact hinv
      · split
        · exact hinv
        · split
          · exact hinv
          · exact UpdateCar_write_invariant env _ id _ _ hinv hc hav'
  · exact UpdateCar_write_invariant env s id car none hinv hc (hav rfl)

/-- C4, as the code has it: `CreateCar` stores a caller-supplied customer as given.  On the empty
store, where the predicate holds, creating a car whose struct carries a customer succeeds and
leaves an `available` car with a customer, so the predicate no longer holds. -/
theorem CreateCar_with_customer_breaks_invariant :
    CustomerInvariant ⟨[], []⟩ ∧
    (CreateCar env0 ⟨[], []⟩ { civic with Customer := some johnDoe } (some [1])
      "civic.jpg").result = .ok ⟨oid 30⟩ ∧
    ¬ CustomerInvariant (CreateCar env0 ⟨[], []⟩ { civic with Customer := some johnDoe }
      (some [1]) "civic.jpg").store := by
  decide

/-- C4, amended: in a collection with unique ids, the predicate "a car reads back with a
customer exactly when its status is not `available`" is preserved by `DeleteCar`, `ReserveCar`,
`CancelReservation` and `SellCar` with any arguments, by `CreateCar` when the supplied car carries
no customer, and by `UpdateCar` when the supplied car carries no customer and, if no image bytes
are passed, the car with that id is missing or available. -/
theorem CustomerInvariant_preserved (env : Env) (s : Store) (hinv : CustomerInvariant s)
    (hu : UniqueIds s) :
    (∀ id, CustomerInvariant (DeleteCar env s id).store) ∧
    (∀ id customer, CustomerInvariant (ReserveCar env s id customer).store) ∧
    (∀ id, CustomerInvariant (CancelReservation env s id).store) ∧
    (∀ id customer, CustomerInvariant (SellCar env s id customer).store) ∧
    (∀ car fileData fileName, car.Customer = none →
      CustomerInvariant (CreateCar env s car fileData fileName).store) ∧
    (∀ id car fileData fileName, car.Customer = none →
      (fileData = none → ∀ d ∈ s.cars, d.id = id → d.status = CarStatusAvailable) →
      CustomerInvariant (UpdateCar env s id car fileData fileName).store) :=
  ⟨fun id => DeleteCar_invariant env s id hinv,
   fun id customer => ReserveCar_invariant env s id customer hinv,
   fun id => CancelReservation_invariant env s id hinv,
   fun id customer => SellCar_invariant env s id customer hinv,
   fun car fileData fileName hc => CreateCar_invariant env s car fileData fileName hinv hc,
   fun id car fileData fileName hc hav =>
     UpdateCar_invariant env s id car fileData fileName hinv hu hc hav⟩

theorem CustomerInvariant_preserved_witness :
    CustomerInvariant (storeWith (toyota (oid 1) CarStatusAvailable .absent)) ∧
    UniqueIds (storeWith (toyota (oid 1) CarStatusAvailable .absent)) ∧
    CustomerInvariant
      (ReserveCar env0 (storeWith (toyota (oid 1) CarStatusAvailable .absent)) (oid 1)
        johnDoe).store ∧
    CustomerInvariant
      (UpdateCar env0 (storeWith (toyota (oid 1) CarStatusAvailable .absent)) (oid 1) civic
        (some [9]) "civic.jpg").store :=
  ⟨by decide, by decide,
    (CustomerInvariant_preserved env0 _ (by decide) (by decide)).2.1 (oid 1) johnDoe,
    (CustomerInvariant_preserved env0 _ (by decide) (by decide)).2.2.2.2.2 (oid 1) civic
      (some [9]) "civic.jpg" rfl (fun h => by cases h)⟩

/-! ## CreateCar forces the status -/

/-- The collection after `CreateCar`: unchanged when it fails, one more document when it
succeeds, and that document is the supplied car with status `available` and the new picture. -/
theorem CreateCar_cars (env : Env) (s : Store) (car : Car) (fileData : Slice)
    (fileName : String) :
    ((∃ e, (CreateCar env s car fileData fileName).result = .error e) ∧
      (CreateCar env s car fileData fileName).store.cars = s.cars) ∨
    (∃ r, (CreateCar env s car fileData fileName).result = .ok r ∧
      (CreateCar env s car fileData fileName).store.cars = s.cars ++
        [marshalCar r.InsertedID
          { car with Status := CarStatusAvailable, Picture := env.newFileID.Hex }] ∧
      ∀ d ∈ s.cars, d.id ≠ r.InsertedID) := by
  unfold CreateCar
  split
  · exact .inl ⟨⟨_, rfl⟩, rfl⟩
  · rename_i us hopen
    split
    · exact .inl ⟨⟨_, rfl⟩, rfl⟩
    · rename_i us' hwrite
      dsimp only
      split
      · exact .inl ⟨⟨_, rfl⟩, rfl⟩
      · rename_i r cars' h
        obtain ⟨hcars, hfresh⟩ := InsertOne_ok env _ _ _ _ h
        have hid : us'.FileID = env.newFileID := by
          unfold OpenUploadStream at hopen
          unfold UploadStream.Write at hwrite
          split at hopen
          · cases hopen
          · cases hopen
            split at hwrite
            · cases hwrite
            · cases hwrite
              rfl
        refine .inr ⟨r, rfl, ?_, hfresh⟩
        simp only [hcars, hid]

theorem find?_id_append_fresh (cars : List CarDoc) (d : CarDoc)
    (hfresh : ∀ x ∈ cars, x.id ≠ d.id) :
    (cars ++ [d]).find? (fun x => x.id == d.id) = some d := by
  induction cars with
  | nil => simp
  | cons y ys ih =>
    have hy : (y.id == d.id) = false := by simpa using hfresh y (List.mem_cons_self _ _)
    simp only [List.cons_append, List.find?_cons, hy]
    exact ih (fun x hx => hfresh x (List.mem_cons_of_mem _ hx))

/-- C5: whatever status the caller puts in the car, a successful `CreateCar` persists it with
status `available`: the document found under the returned id has that status, it is the one
document added to the collection, and the caller's struct has been set to `available` too.
The `CreateCar` handler, run on the service, adds no document with another status, and a
`status` value in the form has no effect on what the handler does. -/
theorem CreateCar_status_available :
    (∀ (env : Env) (s : Store) (car : Car) (fileData : Slice) (fileName : String)
        (r : InsertOneResult),
      (CreateCar env s car fileData fileName).result = .ok r →
      ∃ d, getCar (CreateCar env s car fileData fileName).store r.InsertedID = some d ∧
        d.status = CarStatusAvailable ∧
        (CreateCar env s car fileData fileName).store.cars = s.cars ++ [d] ∧
        (CreateCar env s car fileData fileName).car.Status = CarStatusAvailable) ∧
    (∀ (ParseFloat : String → Float64) (env : Env) (req : Request) (s : Store),
      ∀ d ∈ (handlers.CreateCar ParseFloat (NewCarServiceInterface env) req s).2.cars,
        d ∈ s.cars ∨ d.status = CarStatusAvailable) ∧
    (∀ (σ : Type) (ParseFloat : String → Float64) (carService : IcarService σ) (req : Request)
        (st : σ) (status : String),
      handlers.CreateCar ParseFloat carService
        { req with FormValue := fun k => if k = "status" then status else req.FormValue k } st
        = handlers.CreateCar ParseFloat carService req st) := by
  refine ⟨?_, ?_, ?_⟩
  · intro env s car fileData fileName r hr
    have hcar : (CreateCar env s car fileData fileName).car.Status = CarStatusAvailable := by
      unfold CreateCar
      split
      · rfl
      · split
        · rfl
        · dsimp only
          split <;> rfl
    rcases CreateCar_cars env s car fileData fileName with ⟨⟨e, he⟩, _⟩ | ⟨r', hr', hcars, hfresh⟩
    · rw [he] at hr
      cases hr
    · rw [hr'] at hr
      cases hr
      refine ⟨_, ?_, ?_, hcars, hcar⟩
      · unfold getCar
        rw [hcars]
        exact find?_id_append_fresh s.cars (marshalCar _ _) hfresh
      · rfl
  · intro ParseFloat env req s d hd
    unfold handlers.CreateCar at hd
    split at hd
    · exact .inl hd
    · dsimp only at hd
      split at hd
      · exact .inl hd
      · split at hd
        · exact .inl hd
        · split at hd
          · exact .inl hd
          · rename_i hvalid
            have hstore : ∀ (car : Car) (fd : Slice) (fn : String),
                ∀ x ∈ (CreateCar env s car fd fn).store.cars,
                  x ∈ s.cars ∨ x.status = CarStatusAvailable := by
              intro car fd fn x hx
              rcases CreateCar_cars env s car fd fn with ⟨_, hc⟩ | ⟨r, _, hc, _⟩
              · rw [hc] at hx
                exact .inl hx
              · rw [hc] at hx
                rcases List.mem_append.1 hx with hx | hx
                · exact .inl hx
                · rw [List.mem_singleton] at hx
                  subst hx
                  exact .inr rfl
            split at hd
            · rename_i err st' hcall
              simp only [NewCarServiceInterface, Prod.mk.injEq] at hcall
              rw [← hcall.2] at hd
              exact hstore _ _ _ d hd
            · rename_i result st' hcall
              simp only [NewCarServiceInterface, Prod.mk.injEq] at hcall
              rw [← hcall.2] at hd
              exact hstore _ _ _ d hd
  · intro σ ParseFloat carService req st status
    simp [handlers.CreateCar]

theorem CreateCar_status_available_witness :
    (CreateCar env0 ⟨[], []⟩ { civic with Status := CarStatusSold } (some [1, 2, 3])
      "civic.jpg").result = .ok ⟨oid 30⟩ ∧
    ∃ d, getCar (CreateCar env0 ⟨[], []⟩ { civic with Status := CarStatusSold } (some [1, 2, 3])
        "civic.jpg").store (oid 30) = some d ∧
      d.status = CarStatusAvailable ∧
      (CreateCar env0 ⟨[], []⟩ { civic with Status := CarStatusSold } (some [1, 2, 3])
        "civic.jpg").store.cars = [] ++ [d] ∧
      (CreateCar env0 ⟨[], []⟩ { civic with Status := CarStatusSold } (some [1, 2, 3])
        "civic.jpg").car.Status = CarStatusAvailable :=
  ⟨by decide,
    CreateCar_status_available.1 env0 ⟨[], []⟩ { civic with Status := CarStatusSold }
      (some [1, 2, 3]) "civic.jpg" ⟨oid 30⟩ (by decide)⟩

/-! ## The `_id` index is kept by every operation -/

theorem map_id_replaceFirst (p : CarDoc → Bool) (d d' : CarDoc) (cars : List CarDoc)
    (hd : cars.find? p = some d) (hid : d'.id = d.id) :
    (replaceFirst p d' cars).map CarDoc.id = cars.map CarDoc.id := by
  induction cars with
  | nil => simp at hd
  | cons x xs ih =>
    rw [List.find?_cons] at hd
    by_cases hx : p x = true
    · have hxd : x = d := by simpa [hx] using hd
      subst hxd
      simp [replaceFirst, hx, hid]
    · have hx' : p x = false := by simpa using hx
      rw [hx'] at hd
      simp only [replaceFirst, hx', Bool.false_eq_true, if_false, List.map_cons, ih hd]

theorem removeFirst_sublist {α : Type} (p : α → Bool) (l : List α) :
    (removeFirst p l).Sublist l := by
  induction l with
  | nil => exact List.Sublist.refl _
  | cons x xs ih =>
    simp only [removeFirst]
    split
    · exact List.sublist_cons_self x xs
    · exact List.Sublist.cons₂ x ih

theorem Update_apply_id (u : Update) (d d' : CarDoc) (h : u.apply d = .ok d') : d'.id = d.id := by
  cases u with
  | setCar car =>
    simp only [Update.apply] at h
    split at h
    · cases h
    · cases h
      rfl
  | setStatusCustomer st c =>
    simp only [Update.apply, Except.ok.injEq] at h
    subst h
    rfl

theorem UpdateOne_map_id (env : Env) (cars cars' : List CarDoc) (f : Filter) (u : Update)
    (r : UpdateResult) (h : UpdateOne env cars f u = .ok (r, cars')) :
    cars'.map CarDoc.id = cars.map CarDoc.id := by
  rcases UpdateOne_cars env cars cars' f u r h with rfl | ⟨d, d', hd, hd', rfl⟩
  · rfl
  · exact map_id_replaceFirst _ d d' cars hd (Update_apply_id u d d' hd')

theorem UpdateCar_write_map_id (env : Env) (s : Store) (id : ObjectID) (car : Car)
    (pending : Option UploadStream) :
    (UpdateCar.write env s id car pending).store.cars.map CarDoc.id = s.cars.map CarDoc.id := by
  unfold UpdateCar.write
  dsimp only
  split
  · rfl
  · rename_i r cars' h
    exact UpdateOne_map_id env _ _ _ _ r h

/-- Every service operation keeps the ids of the collection free of duplicates. -/
theorem UniqueIds_preserved (env : Env) (s : Store) (hu : UniqueIds s) :
    (∀ car fileData fileName, UniqueIds (CreateCar env s car fileData fileName).store) ∧
    (∀ id car fileData fileName, UniqueIds (UpdateCar env s id car fileData fileName).store) ∧
    (∀ id, UniqueIds (DeleteCar env s id).store) ∧
    (∀ id customer, UniqueIds (ReserveCar env s id customer).store) ∧
    (∀ id, UniqueIds (CancelReservation env s id).store) ∧
    (∀ id customer, UniqueIds (SellCar env s id customer).store) := by
  refine ⟨?_, ?_, ?_, ?_, ?_, ?_⟩
  · intro car fileData fileName
    unfold UniqueIds at hu ⊢
    rcases CreateCar_cars env s car fileData fileName with ⟨_, hc⟩ | ⟨r, _, hc, hfresh⟩
    · rw [hc]
      exact hu
    · rw [hc, List.map_append, List.nodup_append]
      refine ⟨hu, List.nodup_singleton _, ?_⟩
      intro a ha hb
      simp only [List.map_cons, List.map_nil, List.mem_singleton] at hb
      obtain ⟨d, hd, hda⟩ := List.mem_map.1 ha
      exact hfresh d hd (hda.trans hb)
  · intro id car fileData fileName
    unfold UniqueIds at hu ⊢
    unfold UpdateCar
    split
    · split
      · exact hu
      · split
        · exact hu
        · split
          · exact hu
          · split
            · exact hu
            · rw [UpdateCar_write_map_id]
              exact hu
    · rw [UpdateCar_write_map_id]
      exact hu
  · intro id
    unfold UniqueIds at hu ⊢
    unfold DeleteCar
    split
    · exact hu
    · split
      · exact hu
      · split
        · exact hu
        · rename_i r cars' h
          unfold DeleteOne at h
          split at h
          · cases h
          · split at h
            · cases h
              exact hu
            · cases h
              exact List.Nodup.sublist ((removeFirst_sublist _ _).map _) hu
  · intro id customer
    unfold UniqueIds at hu ⊢
    unfold ReserveCar
    split
    · exact hu
    · rename_i r cars' h
      simp only [UpdateOne_map_id env _ _ _ _ r h]
      exact hu
  · intro id
    unfold UniqueIds at hu ⊢
    unfold CancelReservation
    split
    · exact hu
    · rename_i r cars' h
      simp only [UpdateOne_map_id env _ _ _ _ r h]
      exact hu
  · intro id customer
    unfold UniqueIds at hu ⊢
    unfold SellCar
    split
    · exact hu
    · rename_i r cars' h
      simp only [UpdateOne_map_id env _ _ _ _ r h]
      exact hu

/-! ## Where the guards of UpdateCar and the lifecycle do hold -/

/-- With image bytes, `UpdateCar` on an id whose car is missing or not available returns an
error and leaves the store as it was. -/
theorem UpdateCar_with_image_not_available (env : Env) (s : Store) (id : ObjectID) (car : Car)
    (data : List Byte) (fileName : String)
    (h : ∀ d ∈ s.cars, d.id = id → d.status ≠ CarStatusAvailable) :
    (UpdateCar env s id car (some data) fileName).result
        = .error (if env.fails .findOne then .Storage .findOne else .ErrNoDocuments) ∧
    (UpdateCar env s id car (some data) fileName).store = s := by
  have hf := find?_matches_none s.cars id CarStatusAvailable h
  unfold UpdateCar FindOne
  by_cases hfail : env.fails .findOne = true
  · simp [hfail]
  · simp [hfail, hf]

theorem find?_id_replaceFirst_cases (p : CarDoc → Bool) (d0 d1 d : CarDoc) (id : ObjectID)
    (cars : List CarDoc) (h0 : cars.find? p = some d0) (h1 : d1.id = d0.id)
    (hd : cars.find? (fun x => x.id == id) = some d) :
    (replaceFirst p d1 cars).find? (fun x => x.id == id) = some d ∨
    (d = d0 ∧ (replaceFirst p d1 cars).find? (fun x => x.id == id) = some d1) := by
  induction cars with
  | nil => simp at hd
  | cons x xs ih =>
    rw [List.find?_cons] at h0 hd
    by_cases hp : p x = true
    · have hx0 : x = d0 := by simpa [hp] using h0
      subst hx0
      by_cases hx : x.id = id
      · have hxd : x = d := by simpa [hx] using hd
        subst hxd
        exact .inr ⟨rfl, by simp [replaceFirst, hp, h1, hx]⟩
      · have hx1 : (x.id == id) = false := by simpa using hx
        have hx2 : (d1.id == id) = false := by simpa [h1] using hx
        rw [hx1] at hd
        exact .inl (by simp only [replaceFirst, hp, if_true, List.find?_cons, hx2]; exact hd)
    · have hp' : p x = false := by simpa using hp
      rw [hp'] at h0
      by_cases hx : x.id = id
      · have hxd : x = d := by simpa [hx] using hd
        subst hxd
        exact .inl (by simp [replaceFirst, hp', hx])
      · have hx1 : (x.id == id) = false := by simpa using hx
        rw [hx1] at hd
        simp only [replaceFirst, hp', Bool.false_eq_true, if_false, List.find?_cons, hx1]
        exact ih h0 hd

/-- After `UpdateOne`, a car found before is found again, either as it was or as the update
rewrote it. -/
theorem UpdateOne_find?_id (env : Env) (cars cars' : List CarDoc) (f : Filter) (u : Update)
    (r : UpdateResult) (h : UpdateOne env cars f u = .ok (r, cars')) (id : ObjectID)
    (d : CarDoc) (hd : cars.find? (fun x => x.id == id) = some d) :
    cars'.find? (fun x => x.id == id) = some d ∨
    ∃ d', f.matches d = true ∧ u.apply d = .ok d' ∧
      cars'.find? (fun x => x.id == id) = some d' := by
  rcases UpdateOne_cars env cars cars' f u r h with rfl | ⟨d0, d1, h0, h1, rfl⟩
  · exact .inl hd
  · rcases find?_id_replaceFirst_cases f.matches d0 d1 d id cars h0
        (Update_apply_id u d0 d1 h1) hd with hsame | ⟨rfl, hnew⟩
    · exact .inl hsame
    · exact .inr ⟨d1, List.find?_some h0, h1, hnew⟩

/-- A conditional status update from `st` to `st'` makes only the step `st → st'`. -/
theorem setStatusCustomer_steps (env : Env) (s : Store) (id : ObjectID) (st st' : String)
    (c : BsonCustomer) (hstep : PermittedStep st st') (r : UpdateResult) (cars' : List CarDoc)
    (h : UpdateOne env s.cars ⟨id, some st⟩ (.setStatusCustomer st' c) = .ok (r, cars')) :
    PermittedSteps s { s with cars := cars' } := by
  intro id' d d' hd hd'
  rcases UpdateOne_find?_id env s.cars cars' _ _ r h id' d hd with hsame | ⟨d1, hm, hap, hnew⟩
  · rw [hsame] at hd'
    cases hd'
    exact .inl rfl
  · rw [hnew] at hd'
    cases hd'
    simp only [Update.apply, Except.ok.injEq] at hap
    subst hap
    rw [(matches_status id st d hm).2]
    exact hstep

theorem removeFirst_id_ne (p : CarDoc → Bool) (d0 x : CarDoc) (cars : List CarDoc)
    (hu : (cars.map CarDoc.id).Nodup) (h0 : cars.find? p = some d0)
    (hx : x ∈ removeFirst p cars) : x.id ≠ d0.id := by
  induction cars with
  | nil => simp at h0
  | cons y ys ih =>
    rw [List.map_cons, List.nodup_cons] at hu
    rw [List.find?_cons] at h0
    by_cases hp : p y = true
    · have hy0 : y = d0 := by simpa [hp] using h0
      subst hy0
      simp only [removeFirst, hp, if_true] at hx
      intro hid
      exact hu.1 (hid ▸ List.mem_map_of_mem CarDoc.id hx)
    · have hp' : p y = false := by simpa using hp
      rw [hp'] at h0
      simp only [removeFirst, hp', Bool.false_eq_true, if_false] at hx
      rcases List.mem_cons.1 hx with rfl | hx
      · intro hid
        exact hu.1 (hid ▸ List.mem_map_of_mem CarDoc.id (List.mem_of_find?_eq_some h0))
      · exact ih hu.2 h0 hx

theorem find?_removeFirst_other (p q : CarDoc → Bool) (cars : List CarDoc)
    (hpq : ∀ x, p x = true → q x = false) :
    (removeFirst p cars).find? q = cars.find? q := by
  induction cars with
  | nil => rfl
  | cons y ys ih =>
    by_cases hp : p y = true
    · simp [removeFirst, hp, List.find?_cons, hpq y hp]
    · have hp' : p y = false := by simpa using hp
      simp only [removeFirst, hp', Bool.false_eq_true, if_false, List.find?_cons, ih]

/-- The part of the lifecycle rule the code keeps: in a collection with unique ids, every
operation except an `UpdateCar` without image bytes on a car that is not available makes only
permitted status steps. -/
theorem steps_permitted (env : Env) (s : Store) (hu : UniqueIds s) :
    (∀ car fileData fileName, PermittedSteps s (CreateCar env s car fileData fileName).store) ∧
    (∀ id car fileData fileName,
      (fileData = none → ∀ d ∈ s.cars, d.id = id → d.status = CarStatusAvailable) →
      PermittedSteps s (UpdateCar env s id car fileData fileName).store) ∧
    (∀ id, PermittedSteps s (DeleteCar env s id).store) ∧
    (∀ id customer, PermittedSteps s (ReserveCar env s id customer).store) ∧
    (∀ id, PermittedSteps s (CancelReservation env s id).store) ∧
    (∀ id customer, PermittedSteps s (SellCar env s id customer).store) := by
  have hrefl : PermittedSteps s s := by
    intro id d d' hd hd'
    rw [hd] at hd'
    cases hd'
    exact .inl rfl
  have hwrite : ∀ (files : List GridFile) (id : ObjectID) (car : Car)
      (pending : Option UploadStream),
      (∀ d ∈ s.cars, d.id = id → d.status = CarStatusAvailable) →
      PermittedSteps s (UpdateCar.write env { s with files := files } id car pending).store := by
    intro files id car pending hav
    unfold UpdateCar.write
    dsimp only
    split
    · exact hrefl
    · rename_i r cars' h
      intro id' d d' hd hd'
      rcases UpdateOne_find?_id env s.cars cars' _ _ r h id' d hd with
        hsame | ⟨d1, hm, hap, hnew⟩
      · rw [hsame] at hd'
        cases hd'
        exact .inl rfl
      · rw [hnew] at hd'
        cases hd'
        have hst := hav d (List.mem_of_find?_eq_some hd) (matches_id id d hm)
        simp only [Update.apply] at hap
        split at hap
        · cases hap
        · cases hap
          exact .inl hst
  refine ⟨?_, ?_, ?_, ?_, ?_, ?_⟩
  · intro car fileData fileName id d d' hd hd'
    rcases CreateCar_cars env s car fileData fileName with ⟨_, hc⟩ | ⟨r, _, hc, _⟩
    · rw [hc, hd] at hd'
      cases hd'
      exact .inl rfl
    · rw [hc, List.find?_append, hd] at hd'
      cases hd'
      exact .inl rfl
  · intro id car fileData fileName hav
    unfold UpdateCar
    split
    · split
      · exact hrefl
      · rename_i existingCar hfind
        have hav' := FindOne_available_all env s id existingCar hu hfind
        split
        · exact hrefl
        · split
          · exact hrefl
          · split
            · exact hrefl
            · exact hwrite _ id _ _ hav'
    · exact hwrite s.files id car none (hav rfl)
  · intro id
    unfold DeleteCar
    split
    · exact hrefl
    · split
      · exact hrefl
      · split
        · exact hrefl
        · rename_i r cars' h
          unfold DeleteOne at h
          split at h
          · cases h
          · split at h
            · cases h
              exact hrefl
            · rename_i d0 h0
              cases h
              intro id' d d' hd hd'
              by_cases hid : id' = id
              · subst hid
                exfalso
                have hm := matches_id id' d0 (List.find?_some h0)
                have hd'id : d'.id = id' := by simpa using List.find?_some hd'
                exact removeFirst_id_ne _ d0 d' s.cars hu h0 (List.mem_of_find?_eq_some hd')
                  (hd'id.trans hm.symm)
              · have hother : (removeFirst (Filter.matches ⟨id, none⟩) s.cars).find?
                    (fun x => x.id == id') = s.cars.find? (fun x => x.id == id') := by
                  apply find?_removeFirst_other
                  intro x hx
                  have := matches_id id x hx
                  simpa [this] using fun h => hid h.symm
                simp only [hother] at hd'
                rw [hd] at hd'
                cases hd'
                exact .inl rfl
  · intro id customer
    unfold ReserveCar
    split
    · exact hrefl
    · rename_i r cars' h
      exact setStatusCustomer_steps env s id _ _ _ (.inr (.inl ⟨rfl, rfl⟩)) r cars' h
  · intro id
    unfold CancelReservation
    split
    · exact hrefl
    · rename_i r cars' h
      exact setStatusCustomer_steps env s id _ _ _ (.inr (.inr (.inr ⟨rfl, rfl⟩))) r cars' h
  · intro id customer
    unfold SellCar
    split
    · exact hrefl
    · rename_i r cars' h
      exact setStatusCustomer_steps env s id _ _ _ (.inr (.inr (.inl ⟨rfl, rfl⟩))) r cars' h

/-! ## How a conditional update that matches nothing is reported -/

/-- The result of a conditional status update is decided by whether the call fails and whether
a document matches the filter. -/
theorem UpdateOne_setStatus_result (env : Env) (cars : List CarDoc) (id : ObjectID)
    (st st' : String) (c : BsonCustomer) (hne : st' ≠ st) :
    (UpdateOne env cars ⟨id, some st⟩ (.setStatusCustomer st' c)).map Prod.fst =
      if env.fails .updateOne then .error (.Storage .updateOne)
      else if cars.any (Filter.matches ⟨id, some st⟩) then .ok ⟨1, 1, 0⟩ else .ok ⟨0, 0, 0⟩ := by
  unfold UpdateOne
  by_cases hf : env.fails .updateOne = true
  · simp [hf, Except.map]
  · cases hfind : cars.find? (Filter.matches ⟨id, some st⟩) with
    | none =>
      have hany : cars.any (Filter.matches ⟨id, some st⟩) = false := by
        rw [List.find?_eq_none] at hfind
        rw [Bool.eq_false_iff]
        intro h
        obtain ⟨d, hd, hm⟩ := List.any_eq_true.1 h
        exact hfind d hd hm
      simp [hf, hany, Except.map]
    | some d =>
      have hany : cars.any (Filter.matches ⟨id, some st⟩) = true :=
        List.any_eq_true.2 ⟨d, List.mem_of_find?_eq_some hfind, List.find?_some hfind⟩
      have hst := (matches_status id st d (List.find?_some hfind)).2
      have hne' : ({ d with status := st', customer := c } : CarDoc) ≠ d := by
        intro h
        have := congrArg CarDoc.status h
        simp only [hst] at this
        exact hne this
      simp [hf, hany, Except.map, Update.apply, hne']

theorem any_matches_false_iff (cars : List CarDoc) (id : ObjectID) (st : String) :
    cars.any (Filter.matches ⟨id, some st⟩) = false ↔
      ∀ d ∈ cars, d.id = id → d.status ≠ st := by
  constructor
  · intro h d hd hid hst
    have : cars.any (Filter.matches ⟨id, some st⟩) = true :=
      List.any_eq_true.2 ⟨d, hd, by simp [Filter.matches, hid, hst]⟩
    rw [h] at this
    cases this
  · intro h
    rw [Bool.eq_false_iff]
    intro hany
    obtain ⟨d, hd, hm⟩ := List.any_eq_true.1 hany
    have := matches_status id st d hm
    exact h d hd this.1 this.2

theorem ReserveCar_result (env : Env) (s : Store) (id : ObjectID) (customer : Customer) :
    (ReserveCar env s id customer).result =
      if env.fails .updateOne then .error (.Storage .updateOne)
      else if s.cars.any (Filter.matches ⟨id, some CarStatusAvailable⟩) then .ok ⟨1, 1, 0⟩
      else .ok ⟨0, 0, 0⟩ := by
  rw [← UpdateOne_setStatus_result env s.cars id CarStatusAvailable CarStatusReserved
    (.doc customer) (by decide)]
  unfold ReserveCar
  split <;> rename_i h <;> simp [h, Except.map]

theorem SellCar_result (env : Env) (s : Store) (id : ObjectID) (customer : Customer) :
    (SellCar env s id customer).result =
      if env.fails .updateOne then .error (.Storage .updateOne)
      else if s.cars.any (Filter.matches ⟨id, some CarStatusAvailable⟩) then .ok ⟨1, 1, 0⟩
      else .ok ⟨0, 0, 0⟩ := by
  rw [← UpdateOne_setStatus_result env s.cars id CarStatusAvailable CarStatusSold
    (.doc customer) (by decide)]
  unfold SellCar
  split <;> rename_i h <;> simp [h, Except.map]

/-- What the `ReserveCar` handler answers for a request that passes its checks. -/
theorem handlers_ReserveCar_response (isEmail : String → Bool) (env : Env) (s : Store)
    (req : Request) (id : ObjectID) (customer : Customer)
    (hid : ObjectIDFromHex (req.vars "id") = .ok id) (hc : req.jsonCustomer = some customer)
    (hv : validateCustomer isEmail customer = []) :
    (handlers.ReserveCar isEmail (NewCarServiceInterface env) req s).1 =
      match (ReserveCar env s id customer).result with
      | .error err => ⟨500, .errorText err⟩
      | .ok result => ⟨200, .updateResult result⟩ := by
  simp only [handlers.ReserveCar, hid, hc, hv, NewCarServiceInterface]
  cases (ReserveCar env s id customer).result <;> rfl

/-- What the `SellCar` handler answers for a request that passes its checks. -/
theorem handlers_SellCar_response (isEmail : String → Bool) (env : Env) (s : Store)
    (req : Request) (id : ObjectID) (customer : Customer)
    (hid : ObjectIDFromHex (req.vars "id") = .ok id) (hc : req.jsonCustomer = some customer)
    (hv : validateCustomer isEmail customer = []) :
    (handlers.SellCar isEmail (NewCarServiceInterface env) req s).1 =
      match (SellCar env s id customer).result with
      | .error err => ⟨500, .errorText err⟩
      | .ok result => ⟨200, .updateResult result⟩ := by
  simp only [handlers.SellCar, hid, hc, hv, NewCarServiceInterface]
  cases (SellCar env s id customer).result <;> rfl

/-- C11: `ReserveCar` and `SellCar` report a conditional update that matched nothing (car missing
or not available) in a way the caller can tell apart from the other two outcomes.  At the
service the result is the update result with zero matched records exactly when the call did
not fail and no available car has the id; a successful transition gives one matched record and
a failed call gives an error.  At the handlers, for a request that passes the id, body and
validation checks, the response is 200 with the zero-count result exactly in that case; a
successful transition answers 200 with counts of one and a store-level error answers 500. -/
theorem zero_match_reported_distinctly (isEmail : String → Bool) (env : Env) (s : Store)
    (req : Request) (id : ObjectID) (customer : Customer)
    (hid : ObjectIDFromHex (req.vars "id") = .ok id) (hc : req.jsonCustomer = some customer)
    (hv : validateCustomer isEmail customer = []) :
    ((ReserveCar env s id customer).result = .ok ⟨0, 0, 0⟩ ↔
      (env.fails .updateOne = false ∧ ∀ d ∈ s.cars, d.id = id → d.status ≠ CarStatusAvailable)) ∧
    ((SellCar env s id customer).result = .ok ⟨0, 0, 0⟩ ↔
      (env.fails .updateOne = false ∧ ∀ d ∈ s.cars, d.id = id → d.status ≠ CarStatusAvailable)) ∧
    ((handlers.ReserveCar isEmail (NewCarServiceInterface env) req s).1
        = ⟨200, .updateResult ⟨0, 0, 0⟩⟩ ↔
      (env.fails .updateOne = false ∧ ∀ d ∈ s.cars, d.id = id → d.status ≠ CarStatusAvailable)) ∧
    ((handlers.SellCar isEmail (NewCarServiceInterface env) req s).1
        = ⟨200, .updateResult ⟨0, 0, 0⟩⟩ ↔
      (env.fails .updateOne = false ∧ ∀ d ∈ s.cars, d.id = id → d.status ≠ CarStatusAvailable)) ∧
    (env.fails .updateOne = false →
      (∃ d ∈ s.cars, d.id = id ∧ d.status = CarStatusAvailable) →
      (ReserveCar env s id customer).result = .ok ⟨1, 1, 0⟩ ∧
      (SellCar env s id customer).result = .ok ⟨1, 1, 0⟩ ∧
      (handlers.ReserveCar isEmail (NewCarServiceInterface env) req s).1
        = ⟨200, .updateResult ⟨1, 1, 0⟩⟩ ∧
      (handlers.SellCar isEmail (NewCarServiceInterface env) req s).1
        = ⟨200, .updateResult ⟨1, 1, 0⟩⟩) ∧
    (env.fails .updateOne = true →
      (ReserveCar env s id customer).result = .error (.Storage .updateOne) ∧
      (SellCar env s id customer).result = .error (.Storage .updateOne) ∧
      (handlers.ReserveCar isEmail (NewCarServiceInterface env) req s).1
        = ⟨500, .errorText (.Storage .updateOne)⟩ ∧
      (handlers.SellCar isEmail (NewCarServiceInterface env) req s).1
        = ⟨500, .errorText (.Storage .updateOne)⟩) := by
  have hR := ReserveCar_result env s id customer
  have hS := SellCar_result env s id customer
  have hhR := handlers_ReserveCar_response isEmail env s req id customer hid hc hv
  have hhS := handlers_SellCar_response isEmail env s req id customer hid hc hv
  rw [hhR, hhS, hR, hS]
  have hz := any_matches_false_iff s.cars id CarStatusAvailable
  by_cases hf : env.fails .updateOne = true
  · simp [hf]
  · have hf' : env.fails .updateOne = false := by simpa using hf
    by_cases hany : s.cars.any (Filter.matches ⟨id, some CarStatusAvailable⟩) = true
    · have hnz : ¬ ∀ d ∈ s.cars, d.id = id → d.status ≠ CarStatusAvailable := by
        intro h
        rw [hz.2 h] at hany
        cases hany
      simp [hf', hany, hnz]
    · have hany' : s.cars.any (Filter.matches ⟨id, some CarStatusAvailable⟩) = false := by
        simpa using hany
      have hzm := hz.1 hany'
      simp only [hf', hany', Bool.false_eq_true, if_false, true_and, true_implies]
      refine ⟨⟨fun _ => hzm, fun _ => trivial⟩, ⟨fun _ => hzm, fun _ => trivial⟩,
        ⟨fun _ => hzm, fun _ => trivial⟩, ⟨fun _ => hzm, fun _ => trivial⟩, ?_, ?_⟩
      · rintro ⟨d, hd, hdid, hdst⟩
        exact absurd hdst (hzm d hd hdid)
      · intro h
        cases h

theorem zero_match_reported_distinctly_witness :
    ObjectIDFromHex ((customerRequest (oid 4).Hex).vars "id") = .ok (oid 4) ∧
    (customerRequest (oid 4).Hex).jsonCustomer = some johnDoe ∧
    validateCustomer (fun _ => true) johnDoe = [] ∧
    ((handlers.ReserveCar (fun _ => true) (NewCarServiceInterface env0)
        (customerRequest (oid 4).Hex) (storeWith (toyota (oid 4) CarStatusSold (.doc johnDoe)))).1
        = ⟨200, .updateResult ⟨0, 0, 0⟩⟩ ↔
      (env0.fails .updateOne = false ∧
        ∀ d ∈ (storeWith (toyota (oid 4) CarStatusSold (.doc johnDoe))).cars,
          d.id = oid 4 → d.status ≠ CarStatusAvailable)) :=
  ⟨by decide, rfl, by decide,
    (zero_match_reported_distinctly (fun _ => true) env0
      (storeWith (toyota (oid 4) CarStatusSold (.doc johnDoe))) (customerRequest (oid 4).Hex)
      (oid 4) johnDoe (by decide) rfl (by decide)).2.2.1⟩

/-! ## Listing by status -/

/-- C12: `GetCarsByStatus(status)`, the find call not failing, returns the decoded documents
whose stored status equals `status`, one entry per such document and in store order: every
returned car has that status, every stored car with that status is among them, there are as
many entries as such documents, no id is returned twice when ids are unique, and the store is
unchanged. -/
theorem GetCarsByStatus_exact (env : Env) (s : Store) (status : String)
    (hok : env.fails .find = false) :
    (GetCarsByStatus env s status).result
      = .ok ((s.cars.filter (fun d => d.status == status)).map decodeCar) ∧
    (GetCarsByStatus env s status).store = s ∧
    (∀ cars, (GetCarsByStatus env s status).result = .ok cars →
      (∀ c ∈ cars, c.Status = status) ∧
      (∀ d ∈ s.cars, d.status = status → decodeCar d ∈ cars) ∧
      (∀ c ∈ cars, ∃ d ∈ s.cars, d.status = status ∧ decodeCar d = c) ∧
      cars.length = s.cars.countP (fun d => d.status == status) ∧
      (UniqueIds s → (cars.map Car.ID).Nodup)) := by
  have hres : (GetCarsByStatus env s status).result
      = .ok ((s.cars.filter (fun d => d.status == status)).map decodeCar) := by
    simp [GetCarsByStatus, Find, hok]
  have hstore : (GetCarsByStatus env s status).store = s := by
    simp [GetCarsByStatus, Find, hok]
  refine ⟨hres, hstore, ?_⟩
  intro cars hcars
  rw [hres] at hcars
  cases hcars
  refine ⟨?_, ?_, ?_, ?_, ?_⟩
  · intro c hc
    obtain ⟨d, hd, rfl⟩ := List.mem_map.1 hc
    have := (List.mem_filter.1 hd).2
    simpa [decodeCar] using this
  · intro d hd hst
    exact List.mem_map.2 ⟨d, List.mem_filter.2 ⟨hd, by simpa using hst⟩, rfl⟩
  · intro c hc
    obtain ⟨d, hd, rfl⟩ := List.mem_map.1 hc
    have hd' := List.mem_filter.1 hd
    exact ⟨d, hd'.1, by simpa using hd'.2, rfl⟩
  · rw [List.length_map, List.countP_eq_length_filter]
  · intro hu
    unfold UniqueIds at hu
    have hids : ((s.cars.filter (fun d => d.status == status)).map decodeCar).map Car.ID
        = (s.cars.filter (fun d => d.status == status)).map CarDoc.id := by
      rw [List.map_map]
      rfl
    rw [hids]
    exact List.Nodup.sublist (List.Sublist.map _ (List.filter_sublist _)) hu

theorem GetCarsByStatus_exact_witness :
    env0.fails .find = false ∧
    (GetCarsByStatus env0
        ⟨[toyota (oid 1) CarStatusAvailable .absent, toyota (oid 2) CarStatusSold (.doc johnDoe),
          toyota (oid 3) CarStatusAvailable .null], []⟩ CarStatusAvailable).result
      = .ok [decodeCar (toyota (oid 1) CarStatusAvailable .absent),
             decodeCar (toyota (oid 3) CarStatusAvailable .null)] :=
  ⟨rfl, (GetCarsByStatus_exact env0
      ⟨[toyota (oid 1) CarStatusAvailable .absent, toyota (oid 2) CarStatusSold (.doc johnDoe),
        toyota (oid 3) CarStatusAvailable .null], []⟩ CarStatusAvailable rfl).1⟩

/-- C13: the `GetCarsByStatus` handler.  For a status outside `available`, `reserved`, `sold`
it answers 400 with the message "Invalid status provided" whatever the service is, leaving the
service's state untouched (the service is not called); for each of the three recognised values
it calls the service with exactly that value and answers 200 with the cars it returned, or 500
with the text of the error it returned. -/
theorem handlers_GetCarsByStatus (σ : Type) (carService : IcarService σ) (req : Request)
    (st : σ) :
    ((req.vars "status" ≠ CarStatusAvailable ∧ req.vars "status" ≠ CarStatusReserved ∧
        req.vars "status" ≠ CarStatusSold) →
      handlers.GetCarsByStatus carService req st
        = (⟨400, .text "Invalid status provided"⟩, st)) ∧
    (∀ status, (status = CarStatusAvailable ∨ status = CarStatusReserved ∨
        status = CarStatusSold) → req.vars "status" = status →
      handlers.GetCarsByStatus carService req st =
        match carService.GetCarsByStatus status st with
        | (.error err, st') => (⟨500, .errorText err⟩, st')
        | (.ok cars, st') => (⟨200, .cars cars⟩, st')) := by
  constructor
  · intro h
    simp [handlers.GetCarsByStatus, h.1, h.2.1, h.2.2]
  · intro status hst hreq
    subst hreq
    simp only [handlers.GetCarsByStatus, hst, if_true]

theorem handlers_GetCarsByStatus_witness :
    ((statusRequest "invalid").vars "status" ≠ CarStatusAvailable ∧
      (statusRequest "invalid").vars "status" ≠ CarStatusReserved ∧
      (statusRequest "invalid").vars "status" ≠ CarStatusSold) ∧
    handlers.GetCarsByStatus (NewCarServiceInterface env0) (statusRequest "invalid")
        (storeWith (toyota (oid 1) CarStatusAvailable .absent))
      = (⟨400, .text "Invalid status provided"⟩,
          storeWith (toyota (oid 1) CarStatusAvailable .absent)) :=
  ⟨by decide,
    (handlers_GetCarsByStatus Store (NewCarServiceInterface env0) (statusRequest "invalid")
      (storeWith (toyota (oid 1) CarStatusAvailable .absent))).1 (by decide)⟩

/-! ## Object ids and their hexadecimal form -/

theorem hexDigit_spec : ∀ n, n < 16 →
    fromHexChar (hexDigit n) = some n ∧ (hexDigit n).utf8Size = 1 := by
  decide

theorem hexValue_append (l1 l2 : List Char) (acc : Nat) :
    hexValue (l1 ++ l2) acc = (hexValue l1 acc).bind (hexValue l2) := by
  induction l1 generalizing acc with
  | nil => rfl
  | cons c cs ih =>
    simp only [List.cons_append, hexValue]
    cases fromHexChar c with
    | none => rfl
    | some v => exact ih _

theorem hexValue_hexDigits (k n acc : Nat) :
    hexValue (hexDigits k n) acc = some (acc * 16 ^ k + n % 16 ^ k) := by
  induction k generalizing n with
  | zero => simp [hexDigits, hexValue, Nat.mod_one]
  | succ k ih =>
    have hlt : n % 16 < 16 := Nat.mod_lt _ (by decide)
    simp only [hexDigits, hexValue_append, ih, Option.some_bind, hexValue,
      (hexDigit_spec (n % 16) hlt).1]
    congr 1
    rw [Nat.pow_succ, Nat.mul_comm (16 ^ k) 16, Nat.mod_mul]
    ring

theorem hexDigits_length (k n : Nat) : (hexDigits k n).length = k := by
  induction k generalizing n with
  | zero => rfl
  | succ k ih => simp [hexDigits, ih]

theorem hexDigits_utf8Size (k n : Nat) : ∀ c ∈ hexDigits k n, c.utf8Size = 1 := by
  induction k generalizing n with
  | zero => simp [hexDigits]
  | succ k ih =>
    intro c hc
    simp only [hexDigits, List.mem_append, List.mem_singleton] at hc
    rcases hc with hc | rfl
    · exact ih _ c hc
    · exact (hexDigit_spec (n % 16) (Nat.mod_lt _ (by decide))).2

theorem utf8ByteSize_go_ascii (cs : List Char) (h : ∀ c ∈ cs, c.utf8Size = 1) :
    String.utf8ByteSize.go cs = cs.length := by
  induction cs with
  | nil => rfl
  | cons c cs ih =>
    simp only [String.utf8ByteSize.go, List.length_cons,
      ih (fun x hx => h x (List.mem_cons_of_mem _ hx)), h c (List.mem_cons_self _ _)]

/-- Round trip of object ids: parsing the hexadecimal form of an id gives the id back. -/
theorem ObjectIDFromHex_Hex (id : ObjectID) : ObjectIDFromHex id.Hex = .ok id := by
  have hsize : id.Hex.utf8ByteSize = 24 := by
    show String.utf8ByteSize.go (hexDigits 24 id.val) = 24
    rw [utf8ByteSize_go_ascii _ (hexDigits_utf8Size 24 id.val), hexDigits_length]
  have hval : hexValue id.Hex.data 0 = some id.val := by
    show hexValue (hexDigits 24 id.val) 0 = some id.val
    rw [hexValue_hexDigits]
    have : id.val % 16 ^ 24 = id.val := Nat.mod_eq_of_lt (by
      have := id.isLt
      norm_num at this ⊢
      exact this)
    simp [this]
  unfold ObjectIDFromHex
  simp only [hsize, ne_eq, not_true_eq_false, if_false, hval]
  simp [id.isLt]

/-- The empty string is not the hexadecimal form of an id. -/
theorem ObjectIDFromHex_empty : ObjectIDFromHex "" = .error .ErrInvalidHex := by
  decide

/-! ## Image round trip -/

theorem OpenUploadStream_ok (env : Env) (fileName : String) (us : UploadStream)
    (h : OpenUploadStream env fileName = .ok us) :
    env.fails .openUploadStream = false ∧ us = ⟨env.newFileID, fileName, []⟩ := by
  unfold OpenUploadStream at h
  split at h
  · cases h
  · rename_i hf
    cases h
    exact ⟨by simpa using hf, rfl⟩

theorem UploadStream_Write_ok (env : Env) (us us' : UploadStream) (p : Slice)
    (h : us.Write env p = .ok us') :
    env.fails .uploadWrite = false ∧ us' = { us with buffer := us.buffer ++ p.bytes } := by
  unfold UploadStream.Write at h
  split at h
  · cases h
  · rename_i hf
    cases h
    exact ⟨by simpa using hf, rfl⟩

/-- The bucket after a successful `CreateCar`: what the deferred `Close` of the stream holding
the image bytes leaves. -/
theorem CreateCar_ok_files (env : Env) (s : Store) (car : Car) (fileData : Slice)
    (fileName : String) (r : InsertOneResult)
    (h : (CreateCar env s car fileData fileName).result = .ok r) :
    env.fails .openUploadStream = false ∧ env.fails .uploadWrite = false ∧
    env.fails .insertOne = false ∧
    (CreateCar env s car fileData fileName).store.files
      = UploadStream.Close env ⟨env.newFileID, fileName, fileData.bytes⟩ s.files := by
  unfold CreateCar at h ⊢
  split at h
  · cases h
  · rename_i us hopen
    obtain ⟨hf1, rfl⟩ := OpenUploadStream_ok env fileName us hopen
    simp only [hopen]
    split at h
    · cases h
    · rename_i us' hwrite
      obtain ⟨hf2, rfl⟩ := UploadStream_Write_ok env _ us' fileData hwrite
      simp only [hwrite]
      dsimp only at h ⊢
      split at h
      · cases h
      · rename_i r' cars' hins
        simp only [hins]
        refine ⟨hf1, hf2, ?_, by simp⟩
        unfold InsertOne at hins
        by_cases hf3 : env.fails .insertOne = true
        · simp [hf3] at hins
        · simpa using hf3

theorem Close_fresh (env : Env) (us : UploadStream) (files : List GridFile)
    (hclose : env.fails .uploadClose = false) (hfresh : ∀ f ∈ files, f.id ≠ us.FileID) :
    us.Close env files = files ++ [⟨us.FileID, us.filename, us.buffer⟩] := by
  have hany : files.any (fun f => f.id == us.FileID) = false := by
    rw [Bool.eq_false_iff]
    intro h
    obtain ⟨f, hf, hid⟩ := List.any_eq_true.1 h
    exact hfresh f hf (by simpa using hid)
  simp [UploadStream.Close, hclose, hany]

theorem Download_appended (env : Env) (files : List GridFile) (f : GridFile)
    (hread : env.fails .openDownloadStream = false ∧ env.fails .downloadRead = false)
    (hfresh : ∀ g ∈ files, g.id ≠ f.id) :
    Download env (files ++ [f]) f.id = .ok f.data := by
  have hfind : (files ++ [f]).find? (fun g => g.id == f.id) = some f := by
    induction files with
    | nil => simp
    | cons y ys ih =>
      have hy : (y.id == f.id) = false := by simpa using hfresh y (List.mem_cons_self _ _)
      simp only [List.cons_append, List.find?_cons, hy]
      exact ih (fun g hg => hfresh g (List.mem_cons_of_mem _ hg))
  simp [Download, hread.1, hread.2, hfind]

theorem Close_failed (env : Env) (us : UploadStream) (files : List GridFile)
    (hclose : env.fails .uploadClose = true) : us.Close env files = files := by
  simp [UploadStream.Close, hclose]

theorem Download_not_found (env : Env) (files : List GridFile) (id : ObjectID)
    (hopen : env.fails .openDownloadStream = false) (h : ∀ f ∈ files, f.id ≠ id) :
    Download env files id = .error .ErrFileNotFound := by
  have hfind : files.find? (fun f => f.id == id) = none := by
    rw [List.find?_eq_none]
    intro f hf
    simpa using h f hf
  simp [Download, hopen, hfind]

/-- C14: the image round trip of `CreateCar` and `GetCarImage`, which the code has only when
the deferred close of the upload stream does not fail.  Let `CreateCar(car, X, name)` succeed,
the generated file id being new to the bucket.  The car persisted under the returned id has
the hexadecimal form of that file id as its picture.  If the close of the upload stream did
not fail, `GetCarImage` on that picture, its download not failing, returns exactly the bytes
`X`.  If the close failed, which `CreateCar` does not report, the bucket is as before the
call and `GetCarImage` on the picture returns `ErrFileNotFound`. -/
theorem CreateCar_GetCarImage_close (env env' : Env) (s : Store) (car : Car) (X : Slice)
    (fileName : String) (r : InsertOneResult)
    (hsucc : (CreateCar env s car X fileName).result = .ok r)
    (hfresh : FreshFileID env s)
    (hread : env'.fails .openDownloadStream = false ∧ env'.fails .downloadRead = false) :
    ∃ d, getCar (CreateCar env s car X fileName).store r.InsertedID = some d ∧
      d.picture = env.newFileID.Hex ∧
      (GetCarImage env' (CreateCar env s car X fileName).store d.picture).store
        = (CreateCar env s car X fileName).store ∧
      (env.fails .uploadClose = false →
        (GetCarImage env' (CreateCar env s car X fileName).store d.picture).result
          = .ok X.bytes) ∧
      (env.fails .uploadClose = true →
        (CreateCar env s car X fileName).store.files = s.files ∧
        (GetCarImage env' (CreateCar env s car X fileName).store d.picture).result
          = .error .ErrFileNotFound) := by
  obtain ⟨_, _, _, hfiles⟩ := CreateCar_ok_files env s car X fileName r hsucc
  rcases CreateCar_cars env s car X fileName with ⟨⟨e, he⟩, _⟩ | ⟨r', hr', hcars, hfreshid⟩
  · rw [he] at hsucc
    cases hsucc
  · rw [hr'] at hsucc
    cases hsucc
    refine ⟨marshalCar r.InsertedID
      { car with Status := CarStatusAvailable, Picture := env.newFileID.Hex }, ?_, rfl, ?_, ?_,
      ?_⟩
    · unfold getCar
      rw [hcars]
      exact find?_id_append_fresh s.cars (marshalCar _ _) hfreshid
    · simp only [GetCarImage, marshalCar, ObjectIDFromHex_Hex]
      split <;> rfl
    · intro hclose
      rw [Close_fresh env ⟨env.newFileID, fileName, X.bytes⟩ s.files hclose hfresh] at hfiles
      dsimp only at hfiles
      have hdl := Download_appended env' s.files ⟨env.newFileID, fileName, X.bytes⟩ hread hfresh
      simp only [GetCarImage, marshalCar, ObjectIDFromHex_Hex, hfiles, hdl]
    · intro hclose
      rw [Close_failed env ⟨env.newFileID, fileName, X.bytes⟩ s.files hclose] at hfiles
      have hdl := Download_not_found env' s.files env.newFileID hread.1 hfresh
      exact ⟨hfiles, by simp only [GetCarImage, marshalCar, ObjectIDFromHex_Hex, hfiles, hdl]⟩

theorem CreateCar_GetCarImage_close_witness :
    (CreateCar (envFailing .uploadClose) (storeWith (toyota (oid 1) CarStatusAvailable .absent))
      civic (some [4, 5, 6]) "civic.jpg").result = .ok ⟨oid 30⟩ ∧
    ∃ d, getCar (CreateCar (envFailing .uploadClose)
        (storeWith (toyota (oid 1) CarStatusAvailable .absent)) civic (some [4, 5, 6])
        "civic.jpg").store (oid 30) = some d ∧
      (GetCarImage env0 (CreateCar (envFailing .uploadClose)
        (storeWith (toyota (oid 1) CarStatusAvailable .absent)) civic (some [4, 5, 6])
        "civic.jpg").store d.picture).result = .error .ErrFileNotFound :=
  ⟨by decide,
    (CreateCar_GetCarImage_close (envFailing .uploadClose) env0
      (storeWith (toyota (oid 1) CarStatusAvailable .absent)) civic (some [4, 5, 6])
      "civic.jpg" ⟨oid 30⟩ (by decide) (by unfold FreshFileID; decide) ⟨rfl, rfl⟩).imp
      (fun _ h => ⟨h.1, (h.2.2.2.2 rfl).2⟩)⟩

/-! ## UpdateCar: the picture and the blobs -/

theorem matches_none_eq (id : ObjectID) :
    Filter.matches ⟨id, none⟩ = fun d => d.id == id := by
  funext d
  simp [Filter.matches]

theorem find?_replaceFirst_self (p : CarDoc → Bool) (d d' : CarDoc) (cars : List CarDoc)
    (hp : p d' = true) (h : cars.find? p = some d) :
    (replaceFirst p d' cars).find? p = some d' := by
  induction cars with
  | nil => simp at h
  | cons x xs ih =>
    rw [List.find?_cons] at h
    by_cases hx : p x = true
    · simp [replaceFirst, hx, hp]
    · have hx' : p x = false := by simpa using hx
      rw [hx'] at h
      simp only [replaceFirst, hx', Bool.false_eq_true, if_false, List.find?_cons]
      exact ih h

/-- The document `UpdateCar` writes over a matched document `d`. -/
theorem setCar_apply_ok (car : Car) (d d' : CarDoc) (h : (Update.setCar car).apply d = .ok d') :
    d' = { id := d.id, make := car.Make, model := car.Model, year := car.Year,
           price := car.Price, status := car.Status,
           customer := match car.Customer with
             | none => d.customer
             | some c => .doc c,
           picture := car.Picture } := by
  simp only [Update.apply] at h
  split at h
  · cases h
  · cases h
    rfl

/-- A successful final write of `UpdateCar` on an existing car: the document read back under
the id is the old one overwritten with the supplied attributes and status `available`. -/
theorem UpdateCar_write_ok (env : Env) (s : Store) (id : ObjectID) (car : Car)
    (pending : Option UploadStream) (r : UpdateResult) (d : CarDoc)
    (h : (UpdateCar.write env s id car pending).result = .ok r) (hd : getCar s id = some d) :
    getCar (UpdateCar.write env s id car pending).store id
      = some { id := d.id, make := car.Make, model := car.Model, year := car.Year,
               price := car.Price, status := CarStatusAvailable,
               customer := match car.Customer with
                 | none => d.customer
                 | some c => .doc c,
               picture := car.Picture } ∧
    r.MatchedCount = 1 := by
  unfold getCar at hd ⊢
  rw [← matches_none_eq id] at hd ⊢
  unfold UpdateCar.write at h ⊢
  dsimp only at h ⊢
  split at h
  · cases h
  · rename_i r' cars' hupd
    simp only [hupd]
    cases h
    unfold UpdateOne at hupd
    split at hupd
    · cases hupd
    · rw [hd] at hupd
      dsimp only at hupd
      split at hupd
      · cases hupd
      · rename_i d' hd'
        cases hupd
        have hd'eq := setCar_apply_ok _ d d' hd'
        have hid : d.id = id := matches_id id d (List.find?_some hd)
        refine ⟨?_, rfl⟩
        rw [← hd'eq]
        exact find?_replaceFirst_self _ d d' s.cars
          (by rw [hd'eq]; simp [Filter.matches, hid]) hd

theorem UpdateCar_write_files (env : Env) (s : Store) (id : ObjectID) (car : Car) :
    (UpdateCar.write env s id car none).store.files = s.files := by
  unfold UpdateCar.write
  dsimp only
  split <;> rfl

/-- C15, as the code has it: without image bytes `UpdateCar` writes the supplied car's picture
field into the document.  On an available car whose picture names a stored blob, an update
with nil bytes and an empty picture field succeeds and leaves the empty picture in the
document; an update with an empty slice that is not nil takes the image branch, deletes the
old blob and uploads an empty one. -/
theorem UpdateCar_without_image_overwrites_picture :
    (getCar (storeWith (toyota (oid 1) CarStatusAvailable .absent)) (oid 1)).map CarDoc.picture
      = some (oid 10).Hex ∧
    (UpdateCar env0 (storeWith (toyota (oid 1) CarStatusAvailable .absent)) (oid 1) civic
      none "").result = .ok ⟨1, 1, 0⟩ ∧
    (getCar (UpdateCar env0 (storeWith (toyota (oid 1) CarStatusAvailable .absent)) (oid 1)
      civic none "").store (oid 1)).map CarDoc.picture = some "" ∧
    (UpdateCar env0 (storeWith (toyota (oid 1) CarStatusAvailable .absent)) (oid 1) civic
      (some []) "").result = .ok ⟨1, 1, 0⟩ ∧
    (UpdateCar env0 (storeWith (toyota (oid 1) CarStatusAvailable .absent)) (oid 1) civic
      (some []) "").store.files = [⟨oid 20, "", []⟩] ∧
    (getCar (UpdateCar env0 (storeWith (toyota (oid 1) CarStatusAvailable .absent)) (oid 1)
      civic (some []) "").store (oid 1)).map CarDoc.picture = some (oid 20).Hex := by
  decide

/-- C15, amended: for every `UpdateCar` call with nil image bytes, no blob is deleted or
uploaded, and when the call succeeds on an existing car the picture persisted afterwards is
the picture field of the supplied car; it equals the picture persisted before exactly when the
caller passed that value. -/
theorem UpdateCar_nil_image_picture (env : Env) (s : Store) (id : ObjectID) (car : Car)
    (fileName : String) :
    (UpdateCar env s id car none fileName).store.files = s.files ∧
    (∀ r d, (UpdateCar env s id car none fileName).result = .ok r → getCar s id = some d →
      ∃ d', getCar (UpdateCar env s id car none fileName).store id = some d' ∧
        d'.picture = car.Picture ∧ (d'.picture = d.picture ↔ car.Picture = d.picture)) := by
  have hun : UpdateCar env s id car none fileName = UpdateCar.write env s id car none := rfl
  rw [hun]
  refine ⟨UpdateCar_write_files env s id car, ?_⟩
  intro r d hr hd
  obtain ⟨hg, _⟩ := UpdateCar_write_ok env s id car none r d hr hd
  exact ⟨_, hg, rfl, Iff.rfl⟩

theorem UpdateCar_nil_image_picture_witness :
    (UpdateCar env0 (storeWith (toyota (oid 1) CarStatusAvailable .absent)) (oid 1)
      { civic with Picture := (oid 10).Hex } none "").result = .ok ⟨1, 1, 0⟩ ∧
    getCar (storeWith (toyota (oid 1) CarStatusAvailable .absent)) (oid 1)
      = some (toyota (oid 1) CarStatusAvailable .absent) ∧
    ∃ d', getCar (UpdateCar env0 (storeWith (toyota (oid 1) CarStatusAvailable .absent)) (oid 1)
        { civic with Picture := (oid 10).Hex } none "").store (oid 1) = some d' ∧
      d'.picture = (oid 10).Hex ∧
      (d'.picture = (toyota (oid 1) CarStatusAvailable .absent).picture ↔
        (oid 10).Hex = (toyota (oid 1) CarStatusAvailable .absent).picture) :=
  ⟨by decide, by decide,
    (UpdateCar_nil_image_picture env0 (storeWith (toyota (oid 1) CarStatusAvailable .absent))
      (oid 1) { civic with Picture := (oid 10).Hex } "").2 ⟨1, 1, 0⟩
      (toyota (oid 1) CarStatusAvailable .absent) (by decide) (by decide)⟩

theorem removeFirst_key_ne {α κ : Type} (key : α → κ) (p : α → Bool) (k : κ) (l : List α)
    (hu : (l.map key).Nodup) (hp : ∀ x, p x = true ↔ key x = k) :
    ∀ x ∈ removeFirst p l, key x ≠ k := by
  induction l with
  | nil => simp [removeFirst]
  | cons y ys ih =>
    rw [List.map_cons, List.nodup_cons] at hu
    intro x hx
    by_cases hy : p y = true
    · simp only [removeFirst, hy, if_true] at hx
      intro hk
      have hyk := (hp y).1 hy
      exact hu.1 (hyk ▸ hk ▸ List.mem_map_of_mem key hx)
    · have hy' : p y = false := by simpa using hy
      simp only [removeFirst, hy', Bool.false_eq_true, if_false] at hx
      rcases List.mem_cons.1 hx with rfl | hx
      · exact fun hk => hy ((hp x).2 hk)
      · exact ih hu.2 x hx

theorem mem_removeFirst_of_not {α : Type} (p : α → Bool) (l : List α) (x : α) (hx : x ∈ l)
    (hpx : p x = false) : x ∈ removeFirst p l := by
  induction l with
  | nil => cases hx
  | cons y ys ih =>
    by_cases hy : p y = true
    · simp only [removeFirst, hy, if_true]
      rcases List.mem_cons.1 hx with rfl | hx
      · rw [hpx] at hy
        cases hy
      · exact hx
    · have hy' : p y = false := by simpa using hy
      simp only [removeFirst, hy', Bool.false_eq_true, if_false]
      rcases List.mem_cons.1 hx with rfl | hx
      · exact List.mem_cons_self _ _
      · exact List.mem_cons_of_mem _ (ih hx)

/-- What a successful `deletePicture` did: nothing for an empty picture, otherwise it parsed
the picture to the id of a stored file and removed that file. -/
theorem deletePicture_ok (env : Env) (files files' : List GridFile) (picture : String)
    (h : deletePicture env files picture = (none, files')) :
    (picture = "" ∧ files' = files) ∨
    (picture ≠ "" ∧ ∃ id, ObjectIDFromHex picture = .ok id ∧
      env.fails .bucketDelete = false ∧ (∃ f ∈ files, f.id = id) ∧
      files' = removeFirst (fun f => f.id == id) files) := by
  unfold deletePicture at h
  by_cases hp : picture = ""
  · simp only [hp, ne_eq, not_true_eq_false, if_false, Prod.mk.injEq, true_and] at h
    exact .inl ⟨hp, h.symm⟩
  · simp only [ne_eq, hp, not_false_eq_true, if_true] at h
    split at h
    · cases h
    · rename_i id hid
      unfold BucketDelete at h
      split at h
      · cases h
      · rename_i hf
        split at h
        · rename_i hany
          cases h
          obtain ⟨f, hf', hfid⟩ := List.any_eq_true.1 hany
          exact .inr ⟨hp, id, hid, by simpa using hf, ⟨f, hf', by simpa using hfid⟩, rfl⟩
        · cases h

/-- What a failed `deletePicture` left: the bucket as it was, unless `Bucket.Delete` returned a
fault after it had removed the file. -/
theorem deletePicture_error (env : Env) (files files' : List GridFile) (picture : String)
    (e : Error) (h : deletePicture env files picture = (some e, files')) :
    files' = files ∨
    (env.fails .bucketDelete = true ∧ env.failedDeleteRemovesFile = true ∧
      e = .Storage .bucketDelete ∧
      ∃ id, ObjectIDFromHex picture = .ok id ∧
        files' = removeFirst (fun f => f.id == id) files) := by
  unfold deletePicture at h
  by_cases hp : picture = ""
  · simp [hp] at h
  · simp only [ne_eq, hp, not_false_eq_true, if_true] at h
    split at h
    · cases h
      exact .inl rfl
    · rename_i id hid
      unfold BucketDelete at h
      split at h
      · rename_i hf
        by_cases hr : env.failedDeleteRemovesFile = true
        · simp only [hr, if_true, Prod.mk.injEq, Option.some.injEq] at h
          exact .inr ⟨hf, hr, h.1.symm, id, hid, h.2.symm⟩
        · simp only [hr, Bool.false_eq_true, if_false, Prod.mk.injEq] at h
          exact .inl h.2.symm
      · split at h
        · cases h
        · cases h
          exact .inl rfl

theorem deletePicture_error_of_no_fault (env : Env) (files files' : List GridFile)
    (picture : String) (e : Error) (hok : env.fails .bucketDelete = false)
    (h : deletePicture env files picture = (some e, files')) : files' = files := by
  rcases deletePicture_error env files files' picture e h with h1 | ⟨h2, _⟩
  · exact h1
  · rw [hok] at h2
    cases h2

theorem FindOne_of_getCar (env : Env) (s : Store) (id : ObjectID) (st : String) (d : CarDoc)
    (hd : getCar s id = some d) (hst : d.status = st) :
    FindOne env s.cars ⟨id, some st⟩ =
      if env.fails .findOne then .error (.Storage .findOne) else .ok (decodeCar d) := by
  simp only [FindOne, find?_matches_of_find?_id s.cars id st d hd hst]

/-- A successful `UpdateCar` with image bytes on an available car went through every step:
lookup, removal of the old blob, upload, and the final write. -/
theorem UpdateCar_with_image_ok (env : Env) (s : Store) (id : ObjectID) (car : Car)
    (X : List Byte) (fileName : String) (r : UpdateResult) (d : CarDoc)
    (hd : getCar s id = some d) (hst : d.status = CarStatusAvailable)
    (hsucc : (UpdateCar env s id car (some X) fileName).result = .ok r) :
    ∃ files1, deletePicture env s.files d.picture = (none, files1) ∧
      env.fails .findOne = false ∧ env.fails .openUploadStream = false ∧
      env.fails .uploadWrite = false ∧
      UpdateCar env s id car (some X) fileName =
        UpdateCar.write env { s with files := files1 } id
          { car with Picture := env.newFileID.Hex } (some ⟨env.newFileID, fileName, X⟩) := by
  have hfind := FindOne_of_getCar env s id CarStatusAvailable d hd hst
  have hpic : (decodeCar d).Picture = d.picture := rfl
  unfold UpdateCar at hsucc
  simp only [hfind] at hsucc
  by_cases hf1 : env.fails .findOne = true
  · simp [hf1] at hsucc
  · have hf1' : env.fails .findOne = false := by simpa using hf1
    simp only [hf1', Bool.false_eq_true, if_false, hpic] at hsucc
    rcases hdel : deletePicture env s.files d.picture with ⟨_ | e, files1⟩
    · simp only [hdel] at hsucc
      by_cases hf2 : env.fails .openUploadStream = true
      · simp [OpenUploadStream, hf2] at hsucc
      · have hf2' : env.fails .openUploadStream = false := by simpa using hf2
        by_cases hf3 : env.fails .uploadWrite = true
        · simp [OpenUploadStream, hf2', UploadStream.Write, hf3] at hsucc
        · have hf3' : env.fails .uploadWrite = false := by simpa using hf3
          refine ⟨files1, rfl, hf1', hf2', hf3', ?_⟩
          simp [UpdateCar, hfind, hf1', hpic, hdel, OpenUploadStream, hf2', UploadStream.Write,
            hf3', Slice.bytes]
    · simp [hdel] at hsucc

theorem UpdateCar_write_pending_files (env : Env) (s : Store) (id : ObjectID) (car : Car)
    (us : UploadStream) :
    (UpdateCar.write env s id car (some us)).store.files = us.Close env s.files := by
  unfold UpdateCar.write
  dsimp only
  split <;> rfl

theorem Download_missing (env : Env) (files : List GridFile) (id : ObjectID)
    (h : ∀ f ∈ files, f.id ≠ id) : ∃ e, Download env files id = .error e := by
  have hfind : files.find? (fun f => f.id == id) = none := by
    rw [List.find?_eq_none]
    intro f hf
    simpa using h f hf
  unfold Download
  split
  · exact ⟨_, rfl⟩
  · rw [hfind]
    exact ⟨_, rfl⟩

/-- C16: `UpdateCar` with image bytes `X` on an available car, which leaves the car with a
readable new picture only when the deferred close of the upload stream does not fail.  Let the
call succeed, the
generated file id being new to the bucket and file ids unique.  The car read back has the
supplied make, model, year and price and status `available`; its picture is the hexadecimal
form of the new file id and differs from the old picture; the blob the old picture named is
gone, so `GetCarImage` on the old picture fails.  If the close of the upload stream did not
fail, the new blob is in the bucket and `GetCarImage` on the new picture, the download not
failing, returns `X`.  If the close failed, which `UpdateCar` does not report, no file has the
new id and `GetCarImage` on the new picture returns `ErrFileNotFound`: the car is left with a
picture that names no blob, its old blob deleted. -/
theorem UpdateCar_with_image_close (env env' : Env) (s : Store) (id : ObjectID) (car : Car)
    (X : List Byte) (fileName : String) (r : UpdateResult) (d : CarDoc)
    (hd : getCar s id = some d) (hst : d.status = CarStatusAvailable)
    (hsucc : (UpdateCar env s id car (some X) fileName).result = .ok r)
    (hfresh : FreshFileID env s) (huf : UniqueFileIds s)
    (hread : env'.fails .openDownloadStream = false ∧ env'.fails .downloadRead = false) :
    (∃ d', getCar (UpdateCar env s id car (some X) fileName).store id = some d' ∧
      d'.make = car.Make ∧ d'.model = car.Model ∧ d'.year = car.Year ∧ d'.price = car.Price ∧
      d'.status = CarStatusAvailable ∧ d'.picture = env.newFileID.Hex ∧
      d'.picture ≠ d.picture ∧
      (env.fails .uploadClose = false →
        (GetCarImage env' (UpdateCar env s id car (some X) fileName).store d'.picture).result
          = .ok X ∧
        ⟨env.newFileID, fileName, X⟩ ∈ (UpdateCar env s id car (some X) fileName).store.files) ∧
      (env.fails .uploadClose = true →
        (GetCarImage env' (UpdateCar env s id car (some X) fileName).store d'.picture).result
          = .error .ErrFileNotFound ∧
        ∀ f ∈ (UpdateCar env s id car (some X) fileName).store.files,
          f.id ≠ env.newFileID)) ∧
    (∀ f ∈ s.files, f.id ≠ env.newFileID) ∧
    (d.picture = "" ∨ ∃ oldId, ObjectIDFromHex d.picture = .ok oldId ∧
      (∃ f ∈ s.files, f.id = oldId) ∧
      (∀ f ∈ (UpdateCar env s id car (some X) fileName).store.files, f.id ≠ oldId) ∧
      ∃ e, (GetCarImage env' (UpdateCar env s id car (some X) fileName).store d.picture).result
        = .error e) := by
  obtain ⟨files1, hdel, _, _, _, heq⟩ :=
    UpdateCar_with_image_ok env s id car X fileName r d hd hst hsucc
  rw [heq] at hsucc ⊢
  have hdel' := deletePicture_ok env s.files files1 d.picture hdel
  have hsub : ∀ f ∈ files1, f ∈ s.files := by
    rcases hdel' with ⟨_, rfl⟩ | ⟨_, oldId, _, _, _, rfl⟩
    · exact fun f hf => hf
    · exact fun f hf => mem_removeFirst _ _ f hf
  have hfresh1 : ∀ f ∈ files1, f.id ≠ env.newFileID := fun f hf => hfresh f (hsub f hf)
  have hfiles0 : (UpdateCar.write env { s with files := files1 } id
      { car with Picture := env.newFileID.Hex } (some ⟨env.newFileID, fileName, X⟩)).store.files
      = UploadStream.Close env ⟨env.newFileID, fileName, X⟩ files1 := by
    rw [UpdateCar_write_pending_files]
  have hfilesub : ∀ g ∈ (UpdateCar.write env { s with files := files1 } id
      { car with Picture := env.newFileID.Hex } (some ⟨env.newFileID, fileName, X⟩)).store.files,
      g ∈ files1 ++ [(⟨env.newFileID, fileName, X⟩ : GridFile)] := by
    rw [hfiles0]
    intro g hg
    by_cases hclose : env.fails .uploadClose = true
    · rw [Close_failed env _ files1 hclose] at hg
      exact List.mem_append_left _ hg
    · have hclose' : env.fails .uploadClose = false := by simpa using hclose
      rw [Close_fresh env ⟨env.newFileID, fileName, X⟩ files1 hclose' hfresh1] at hg
      exact hg
  have hd1 : getCar ({ s with files := files1 } : Store) id = some d := hd
  obtain ⟨hget, _⟩ := UpdateCar_write_ok env { s with files := files1 } id
    { car with Picture := env.newFileID.Hex } (some ⟨env.newFileID, fileName, X⟩) r d hsucc hd1
  have hne : env.newFileID.Hex ≠ d.picture := by
    intro hpic
    rcases hdel' with ⟨hemp, _⟩ | ⟨_, oldId, hparse, _, ⟨f, hf, hfid⟩, _⟩
    · have := ObjectIDFromHex_Hex env.newFileID
      rw [hpic, hemp, ObjectIDFromHex_empty] at this
      cases this
    · rw [← hpic, ObjectIDFromHex_Hex] at hparse
      cases hparse
      exact hfresh f hf hfid
  refine ⟨⟨_, hget, rfl, rfl, rfl, rfl, rfl, rfl, hne, ?_, ?_⟩, hfresh, ?_⟩
  · intro hclose
    have hfiles := hfiles0
    rw [Close_fresh env ⟨env.newFileID, fileName, X⟩ files1 hclose hfresh1] at hfiles
    have hdl := Download_appended env' files1 ⟨env.newFileID, fileName, X⟩ hread hfresh1
    refine ⟨by simp only [GetCarImage, ObjectIDFromHex_Hex, hfiles, hdl], ?_⟩
    rw [hfiles]
    exact List.mem_append_right _ (List.mem_singleton_self _)
  · intro hclose
    have hfiles := hfiles0
    rw [Close_failed env ⟨env.newFileID, fileName, X⟩ files1 hclose] at hfiles
    have hdl := Download_not_found env' files1 env.newFileID hread.1 hfresh1
    refine ⟨by simp only [GetCarImage, ObjectIDFromHex_Hex, hfiles, hdl], ?_⟩
    rw [hfiles]
    exact hfresh1
  · rcases hdel' with ⟨hemp, _⟩ | ⟨_, oldId, hparse, _, ⟨f, hf, hfid⟩, hrem⟩
    · exact .inl hemp
    · have hgone : ∀ g ∈ files1 ++ [(⟨env.newFileID, fileName, X⟩ : GridFile)],
          g.id ≠ oldId := by
        intro g hg
        rcases List.mem_append.1 hg with hg | hg
        · rw [hrem] at hg
          exact removeFirst_key_ne GridFile.id _ oldId s.files huf (fun x => by simp) g hg
        · rw [List.mem_singleton] at hg
          subst hg
          exact fun h => hfresh f hf (hfid.trans h.symm)
      have hgone' := fun g hg => hgone g (hfilesub g hg)
      refine .inr ⟨oldId, hparse, ⟨f, hf, hfid⟩, hgone', ?_⟩
      obtain ⟨e, he⟩ := Download_missing env' _ oldId hgone'
      exact ⟨e, by simp only [GetCarImage, hparse, he]⟩

theorem UpdateCar_with_image_close_witness :
    getCar (storeWith (toyota (oid 1) CarStatusAvailable .absent)) (oid 1)
      = some (toyota (oid 1) CarStatusAvailable .absent) ∧
    (UpdateCar (envFailing .uploadClose) (storeWith (toyota (oid 1) CarStatusAvailable .absent))
      (oid 1) civic (some [7, 8]) "civic.jpg").result = .ok ⟨1, 1, 0⟩ ∧
    (UpdateCar (envFailing .uploadClose) (storeWith (toyota (oid 1) CarStatusAvailable .absent))
      (oid 1) civic (some [7, 8]) "civic.jpg").store.files = [] ∧
    (∃ d', getCar (UpdateCar (envFailing .uploadClose)
        (storeWith (toyota (oid 1) CarStatusAvailable .absent)) (oid 1) civic (some [7, 8])
        "civic.jpg").store (oid 1) = some d' ∧
      d'.picture = (oid 20).Hex ∧
      (GetCarImage env0 (UpdateCar (envFailing .uploadClose)
        (storeWith (toyota (oid 1) CarStatusAvailable .absent)) (oid 1) civic (some [7, 8])
        "civic.jpg").store d'.picture).result = .error .ErrFileNotFound) :=
  ⟨by decide, by decide, by decide,
    (UpdateCar_with_image_close (envFailing .uploadClose) env0
      (storeWith (toyota (oid 1) CarStatusAvailable .absent)) (oid 1) civic [7, 8] "civic.jpg"
      ⟨1, 1, 0⟩ (toyota (oid 1) CarStatusAvailable .absent) (by decide) rfl (by decide)
      (by unfold FreshFileID; decide) (by decide) ⟨rfl, rfl⟩).1.imp
      (fun _ h => ⟨h.1, h.2.2.2.2.2.2.1, (h.2.2.2.2.2.2.2.2.2 rfl).1⟩)⟩

/-! ## The picture invariant -/

theorem referencesLiveBlob_iff (files : List GridFile) (picture : String) :
    referencesLiveBlob files picture = true ↔
      ∃ id, ObjectIDFromHex picture = .ok id ∧ ∃ f ∈ files, f.id = id := by
  unfold referencesLiveBlob
  cases h : ObjectIDFromHex picture with
  | error e => simp
  | ok id =>
    simp only [List.any_eq_true, beq_iff_eq, Except.ok.injEq, exists_eq_left']

theorem referencesLiveBlob_mono (files files' : List GridFile) (picture : String)
    (hsub : ∀ f ∈ files, f ∈ files') (h : referencesLiveBlob files picture = true) :
    referencesLiveBlob files' picture = true := by
  rw [referencesLiveBlob_iff] at h ⊢
  obtain ⟨id, hid, f, hf, hfid⟩ := h
  exact ⟨id, hid, f, hsub f hf, hfid⟩

theorem map_replaceFirst_of_eq {β : Type} (g : CarDoc → β) (p : CarDoc → Bool)
    (d d' : CarDoc) (cars : List CarDoc) (hd : cars.find? p = some d) (hg : g d' = g d) :
    (replaceFirst p d' cars).map g = cars.map g := by
  induction cars with
  | nil => simp at hd
  | cons x xs ih =>
    rw [List.find?_cons] at hd
    by_cases hx : p x = true
    · have hxd : x = d := by simpa [hx] using hd
      subst hxd
      simp [replaceFirst, hx, hg]
    · have hx' : p x = false := by simpa using hx
      rw [hx'] at hd
      simp only [replaceFirst, hx', Bool.false_eq_true, if_false, List.map_cons, ih hd]

/-- An update that leaves the picture of the matched document alone leaves the list of
pictures alone. -/
theorem UpdateOne_map_picture (env : Env) (cars cars' : List CarDoc) (f : Filter) (u : Update)
    (r : UpdateResult) (h : UpdateOne env cars f u = .ok (r, cars'))
    (hpic : ∀ d d', d ∈ cars → f.matches d = true → u.apply d = .ok d' →
      d'.picture = d.picture) :
    cars'.map CarDoc.picture = cars.map CarDoc.picture := by
  rcases UpdateOne_cars env cars cars' f u r h with rfl | ⟨d, d', hd, hd', rfl⟩
  · rfl
  · exact map_replaceFirst_of_eq CarDoc.picture _ d d' cars hd
      (hpic d d' (List.mem_of_find?_eq_some hd) (List.find?_some hd) hd')

/-- The picture invariant only looks at the list of pictures and at the bucket. -/
theorem PictureInvariant_congr (s s' : Store) (hfiles : s'.files = s.files)
    (hpics : s'.cars.map CarDoc.picture = s.cars.map CarDoc.picture)
    (hinv : PictureInvariant s) : PictureInvariant s' := by
  unfold PictureInvariant at hinv ⊢
  constructor
  · intro d hd
    have hmem : d.picture ∈ s.cars.map CarDoc.picture := by
      rw [← hpics]
      exact List.mem_map_of_mem _ hd
    obtain ⟨d0, hd0, hpic⟩ := List.mem_map.1 hmem
    rw [hfiles, ← hpic]
    exact hinv.1 d0 hd0
  · have h1 : s'.cars.map (fun d => ObjectIDFromHex d.picture)
        = (s'.cars.map CarDoc.picture).map ObjectIDFromHex := by
      rw [List.map_map]
      rfl
    have h2 : s.cars.map (fun d => ObjectIDFromHex d.picture)
        = (s.cars.map CarDoc.picture).map ObjectIDFromHex := by
      rw [List.map_map]
      rfl
    rw [h1, hpics, ← h2]
    exact hinv.2

theorem setStatusCustomer_PictureInvariant (env : Env) (s : Store) (id : ObjectID)
    (st st' : String) (c : BsonCustomer) (hinv : PictureInvariant s) (r : UpdateResult)
    (cars' : List CarDoc)
    (h : UpdateOne env s.cars ⟨id, some st⟩ (.setStatusCustomer st' c) = .ok (r, cars')) :
    PictureInvariant { s with cars := cars' } := by
  refine PictureInvariant_congr s _ rfl ?_ hinv
  refine UpdateOne_map_picture env s.cars cars' _ _ r h ?_
  intro d d' _ _ hd'
  simp only [Update.apply, Except.ok.injEq] at hd'
  subst hd'
  rfl

theorem ReserveCar_PictureInvariant (env : Env) (s : Store) (id : ObjectID)
    (customer : Customer) (hinv : PictureInvariant s) :
    PictureInvariant (ReserveCar env s id customer).store := by
  unfold ReserveCar
  split
  · exact hinv
  · rename_i r cars' h
    exact setStatusCustomer_PictureInvariant env s id _ _ _ hinv r cars' h

theorem SellCar_PictureInvariant (env : Env) (s : Store) (id : ObjectID)
    (customer : Customer) (hinv : PictureInvariant s) :
    PictureInvariant (SellCar env s id customer).store := by
  unfold SellCar
  split
  · exact hinv
  · rename_i r cars' h
    exact setStatusCustomer_PictureInvariant env s id _ _ _ hinv r cars' h

theorem CancelReservation_PictureInvariant (env : Env) (s : Store) (id : ObjectID)
    (hinv : PictureInvariant s) : PictureInvariant (CancelReservation env s id).store := by
  unfold CancelReservation
  split
  · exact hinv
  · rename_i r cars' h
    exact setStatusCustomer_PictureInvariant env s id _ _ _ hinv r cars' h

theorem UpdateCar_nil_PictureInvariant (env : Env) (s : Store) (id : ObjectID) (car : Car)
    (fileName : String) (hinv : PictureInvariant s)
    (hsame : ∀ d ∈ s.cars, d.id = id → car.Picture = d.picture) :
    PictureInvariant (UpdateCar env s id car none fileName).store := by
  have hun : UpdateCar env s id car none fileName = UpdateCar.write env s id car none := rfl
  rw [hun]
  unfold UpdateCar.write
  dsimp only
  split
  · exact hinv
  · rename_i r cars' h
    refine PictureInvariant_congr s _ rfl ?_ hinv
    refine UpdateOne_map_picture env s.cars cars' _ _ r h ?_
    intro d d' hd hm hd'
    rw [setCar_apply_ok _ d d' hd']
    exact hsame d hd (matches_id id d hm)

theorem Close_mono (env : Env) (us : UploadStream) (files : List GridFile) :
    ∀ f ∈ files, f ∈ us.Close env files := by
  intro f hf
  unfold UploadStream.Close
  split
  · exact hf
  · split
    · exact hf
    · exact List.mem_append_left _ hf

theorem CreateCar_files_mono (env : Env) (s : Store) (car : Car) (fileData : Slice)
    (fileName : String) :
    ∀ f ∈ s.files, f ∈ (CreateCar env s car fileData fileName).store.files := by
  intro f hf
  unfold CreateCar
  split
  · exact hf
  · split
    · exact Close_mono env _ s.files f hf
    · dsimp only
      split
      · exact Close_mono env _ s.files f hf
      · exact Close_mono env _ s.files f hf

/-- A parsed picture of a car under the invariant is the id of a stored file, hence not the
freshly generated file id. -/
theorem picture_ne_fresh (env : Env) (s : Store) (hfresh : FreshFileID env s)
    (hinv : PictureInvariant s) (d : CarDoc) (hd : d ∈ s.cars) :
    ObjectIDFromHex d.picture ≠ .ok env.newFileID := by
  intro h
  obtain ⟨id, hid, f, hf, hfid⟩ := (referencesLiveBlob_iff s.files d.picture).1 (hinv.1 d hd)
  rw [h] at hid
  cases hid
  exact hfresh f hf hfid

theorem CreateCar_PictureInvariant (env : Env) (s : Store) (car : Car) (fileData : Slice)
    (fileName : String) (hnf : NoFault env) (hfresh : FreshFileID env s)
    (hinv : PictureInvariant s) :
    PictureInvariant (CreateCar env s car fileData fileName).store := by
  have hmono := CreateCar_files_mono env s car fileData fileName
  rcases CreateCar_cars env s car fileData fileName with ⟨_, hc⟩ | ⟨r, hr, hc, _⟩
  · unfold PictureInvariant
    rw [hc]
    exact ⟨fun d hd => referencesLiveBlob_mono _ _ _ hmono (hinv.1 d hd), hinv.2⟩
  · obtain ⟨_, _, _, hfiles⟩ := CreateCar_ok_files env s car fileData fileName r hr
    rw [Close_fresh env ⟨env.newFileID, fileName, fileData.bytes⟩ s.files
      (hnf .uploadClose) hfresh] at hfiles
    unfold PictureInvariant
    rw [hc]
    constructor
    · intro d hd
      rcases List.mem_append.1 hd with hd | hd
      · exact referencesLiveBlob_mono _ _ _ hmono (hinv.1 d hd)
      · rw [List.mem_singleton] at hd
        subst hd
        rw [referencesLiveBlob_iff, hfiles]
        exact ⟨env.newFileID, ObjectIDFromHex_Hex _, _,
          List.mem_append_right _ (List.mem_singleton_self _), rfl⟩
    · rw [List.map_append, List.nodup_append]
      refine ⟨hinv.2, List.nodup_singleton _, ?_⟩
      intro a ha hb
      simp only [List.map_cons, List.map_nil, List.mem_singleton, marshalCar] at hb
      obtain ⟨d, hd, hda⟩ := List.mem_map.1 ha
      rw [hb, ObjectIDFromHex_Hex] at hda
      exact picture_ne_fresh env s hfresh hinv d hd hda

/-- Under the invariant, the blob of another car survives the removal of a car's blob. -/
theorem live_after_deletePicture (env : Env) (s : Store) (files1 : List GridFile)
    (d1 x : CarDoc) (hinv : PictureInvariant s) (hd1 : d1 ∈ s.cars) (hx : x ∈ s.cars)
    (hne : x ≠ d1) (hdel : deletePicture env s.files d1.picture = (none, files1)) :
    referencesLiveBlob files1 x.picture = true := by
  have hxlive := hinv.1 x hx
  rcases deletePicture_ok env s.files files1 d1.picture hdel with
    ⟨_, rfl⟩ | ⟨_, pid, hparse, _, _, rfl⟩
  · exact hxlive
  · rw [referencesLiveBlob_iff] at hxlive ⊢
    obtain ⟨id, hid, f, hf, hfid⟩ := hxlive
    have hidne : id ≠ pid := by
      rintro rfl
      exact hne (List.inj_on_of_nodup_map hinv.2 hx hd1 (hid.trans hparse.symm))
    refine ⟨id, hid, f, mem_removeFirst_of_not _ _ f hf ?_, hfid⟩
    simpa [hfid] using hidne

theorem FindOne_ok (env : Env) (cars : List CarDoc) (f : Filter) (car : Car)
    (h : FindOne env cars f = .ok car) :
    ∃ d, cars.find? f.matches = some d ∧ car = decodeCar d := by
  unfold FindOne at h
  split at h
  · cases h
  · split at h
    · cases h
    · rename_i d hd
      cases h
      exact ⟨d, hd, rfl⟩

theorem DeleteCar_PictureInvariant (env : Env) (s : Store) (id : ObjectID)
    (hnf : NoFault env) (hu : UniqueIds s) (hinv : PictureInvariant s) :
    PictureInvariant (DeleteCar env s id).store := by
  unfold DeleteCar
  split
  · exact hinv
  · rename_i car hfind
    obtain ⟨d1, hd1, rfl⟩ := FindOne_ok env s.cars _ car hfind
    have hd1mem := List.mem_of_find?_eq_some hd1
    have hd1id := (matches_status id _ d1 (List.find?_some hd1)).1
    split
    · rename_i e files1 hdel
      have hdel' : deletePicture env s.files d1.picture = (some e, files1) := hdel
      rw [deletePicture_error_of_no_fault env s.files files1 d1.picture e (hnf .bucketDelete)
        hdel']
      exact hinv
    · rename_i files1 hdel
      have hdel' : deletePicture env s.files d1.picture = (none, files1) := hdel
      split
      · rename_i e hdo
        simp [DeleteOne, hnf .deleteOne] at hdo
        split at hdo <;> cases hdo
      · rename_i r cars' hdo
        unfold DeleteOne at hdo
        rw [hnf .deleteOne] at hdo
        simp only [Bool.false_eq_true, if_false] at hdo
        split at hdo
        · rename_i hnone
          rw [List.find?_eq_none] at hnone
          exact absurd (by simp [Filter.matches, hd1id]) (hnone d1 hd1mem)
        · cases hdo
          have hkey : ∀ x ∈ removeFirst (Filter.matches ⟨id, none⟩) s.cars, x.id ≠ id :=
            removeFirst_key_ne CarDoc.id _ id s.cars hu (fun x => by simp [Filter.matches])
          constructor
          · intro x hx
            have hxmem := mem_removeFirst _ _ x hx
            have hne : x ≠ d1 := fun h => hkey x hx (h ▸ hd1id)
            exact live_after_deletePicture env s files1 d1 x hinv hd1mem hxmem hne hdel'
          · exact List.Nodup.sublist ((removeFirst_sublist _ _).map _) hinv.2

theorem replaceFirst_eq_map (id : ObjectID) (d' : CarDoc) (cars : List CarDoc)
    (hu : (cars.map CarDoc.id).Nodup) :
    replaceFirst (Filter.matches ⟨id, none⟩) d' cars
      = cars.map (fun x => if x.id = id then d' else x) := by
  induction cars with
  | nil => rfl
  | cons y ys ih =>
    rw [List.map_cons, List.nodup_cons] at hu
    by_cases hy : y.id = id
    · have hp : Filter.matches ⟨id, none⟩ y = true := by simp [Filter.matches, hy]
      have hrest : ys.map (fun x => if x.id = id then d' else x) = ys := by
        conv_rhs => rw [← List.map_id ys]
        apply List.map_congr_left
        intro x hx
        have hxid : x.id ≠ id := by
          intro h
          exact hu.1 (hy ▸ h ▸ List.mem_map_of_mem CarDoc.id hx)
        simp [hxid]
      simp only [replaceFirst, hp, if_true, List.map_cons, hy, hrest]
    · have hp : Filter.matches ⟨id, none⟩ y = false := by simp [Filter.matches, hy]
      simp only [replaceFirst, hp, Bool.false_eq_true, if_false, List.map_cons, hy, ih hu.2]

/-- The store after the picture-changing write of `UpdateCar`, when no storage call fails, the
supplied car does not carry another `_id`, and a car with the id exists. -/
theorem UpdateCar_write_store (env : Env) (s : Store) (id : ObjectID) (car : Car)
    (us : UploadStream) (d1 : CarDoc) (hnf : NoFault env) (hu : UniqueIds s)
    (hd1 : d1 ∈ s.cars) (hd1id : d1.id = id)
    (hidok : car.ID = NilObjectID ∨ car.ID = id) :
    ∃ d', d'.picture = car.Picture ∧
      (UpdateCar.write env s id car (some us)).store
        = { cars := s.cars.map (fun x => if x.id = id then d' else x),
            files := us.Close env s.files } := by
  cases hfind : s.cars.find? (Filter.matches ⟨id, none⟩) with
  | none =>
    rw [List.find?_eq_none] at hfind
    exact absurd (by simp [Filter.matches, hd1id]) (hfind d1 hd1)
  | some d0 =>
    have hd0id : d0.id = id := matches_id id d0 (List.find?_some hfind)
    have hne : ¬ (car.ID ≠ NilObjectID ∧ car.ID ≠ d0.id) := by
      rintro ⟨h1, h2⟩
      rcases hidok with h | h
      · exact h1 h
      · exact h2 (h.trans hd0id.symm)
    refine ⟨{ id := d0.id, make := car.Make, model := car.Model, year := car.Year,
              price := car.Price, status := CarStatusAvailable,
              customer := match car.Customer with
                | none => d0.customer
                | some c => .doc c,
              picture := car.Picture }, rfl, ?_⟩
    unfold UpdateCar.write UpdateOne
    simp only [hnf .updateOne, Bool.false_eq_true, if_false, hfind, Update.apply, hne]
    rw [replaceFirst_eq_map id _ s.cars hu]

theorem UpdateCar_image_PictureInvariant (env : Env) (s : Store) (id : ObjectID) (car : Car)
    (X : List Byte) (fileName : String) (hnf : NoFault env) (hfresh : FreshFileID env s)
    (hu : UniqueIds s) (hinv : PictureInvariant s)
    (hidok : car.ID = NilObjectID ∨ car.ID = id) :
    PictureInvariant (UpdateCar env s id car (some X) fileName).store := by
  unfold UpdateCar
  dsimp only
  split
  · exact hinv
  · rename_i existingCar hfind
    obtain ⟨d1, hd1, rfl⟩ := FindOne_ok env s.cars _ existingCar hfind
    have hd1mem := List.mem_of_find?_eq_some hd1
    have hd1id := (matches_status id _ d1 (List.find?_some hd1)).1
    split
    · rename_i e files1 hdel
      have hdel' : deletePicture env s.files d1.picture = (some e, files1) := hdel
      rw [deletePicture_error_of_no_fault env s.files files1 d1.picture e (hnf .bucketDelete)
        hdel']
      exact hinv
    · rename_i files1 hdel
      have hdel' : deletePicture env s.files d1.picture = (none, files1) := hdel
      have hsub : ∀ f ∈ files1, f ∈ s.files := by
        rcases deletePicture_ok env s.files files1 d1.picture hdel' with
          ⟨_, rfl⟩ | ⟨_, oldId, _, _, _, rfl⟩
        · exact fun f hf => hf
        · exact fun f hf => mem_removeFirst _ _ f hf
      have hfresh1 : ∀ f ∈ files1, f.id ≠ env.newFileID := fun f hf => hfresh f (hsub f hf)
      simp only [OpenUploadStream, hnf .openUploadStream, UploadStream.Write,
        hnf .uploadWrite, Bool.false_eq_true, if_false]
      obtain ⟨d', hd'pic, hstore⟩ := UpdateCar_write_store env { s with files := files1 } id
        { car with Picture := env.newFileID.Hex }
        ⟨env.newFileID, fileName, [] ++ Slice.bytes (some X)⟩ d1 hnf hu hd1mem hd1id hidok
      rw [hstore, Close_fresh env _ files1 (hnf .uploadClose) hfresh1]
      have hd'parse : ObjectIDFromHex d'.picture = .ok env.newFileID := by
        rw [hd'pic]
        exact ObjectIDFromHex_Hex _
      constructor
      · intro x' hx'
        obtain ⟨x, hx, rfl⟩ := List.mem_map.1 hx'
        by_cases hxid : x.id = id
        · simp only [hxid, if_true]
          rw [referencesLiveBlob_iff]
          exact ⟨env.newFileID, hd'parse, _,
            List.mem_append_right _ (List.mem_singleton_self _), rfl⟩
        · simp only [hxid, if_false]
          have hne : x ≠ d1 := fun h => hxid (h ▸ hd1id)
          exact referencesLiveBlob_mono files1 _ _ (fun f hf => List.mem_append_left _ hf)
            (live_after_deletePicture env s files1 d1 x hinv hd1mem hx hne hdel')
      · rw [List.map_map]
        refine List.Nodup.map_on ?_ (List.Nodup.of_map _ hu)
        intro x hx y hy hxy
        simp only [Function.comp] at hxy
        by_cases hxid : x.id = id <;> by_cases hyid : y.id = id
        · exact List.inj_on_of_nodup_map hu hx hy (hxid.trans hyid.symm)
        · simp only [hxid, hyid, if_true, if_false, hd'parse] at hxy
          exact absurd hxy.symm (picture_ne_fresh env s hfresh hinv y hy)
        · simp only [hxid, hyid, if_true, if_false, hd'parse] at hxy
          exact absurd hxy (picture_ne_fresh env s hfresh hinv x hx)
        · simp only [hxid, hyid, if_false] at hxy
          exact List.inj_on_of_nodup_map hinv.2 hx hy hxy

/-- C17, as the code has it: `UpdateCar` without image bytes writes the supplied picture field
into the document.  In a store that satisfies the picture invariant, with no storage call
failing, such an update with an empty picture field succeeds and leaves a car whose picture
references no blob. -/
theorem UpdateCar_without_image_breaks_PictureInvariant :
    NoFault env0 ∧
    PictureInvariant (storeWith (toyota (oid 1) CarStatusAvailable .absent)) ∧
    (UpdateCar env0 (storeWith (toyota (oid 1) CarStatusAvailable .absent)) (oid 1) civic
      none "").result = .ok ⟨1, 1, 0⟩ ∧
    ¬ PictureInvariant (UpdateCar env0 (storeWith (toyota (oid 1) CarStatusAvailable .absent))
      (oid 1) civic none "").store :=
  ⟨fun _ => rfl, by decide, by decide, by decide⟩

/-- C17, amended: if no storage call fails, the generated file id is new to the bucket, car ids
are unique and, before the operation, every car's picture references a live blob and no blob
is referenced by two cars, then the same holds after `CreateCar`, after `UpdateCar` with image
bytes (the supplied car not carrying another `_id`, a write the server rejects), after
`UpdateCar` without image bytes when the supplied picture field is the current picture of the
car with that id, and after `DeleteCar`, `ReserveCar`, `CancelReservation` and `SellCar`. -/
theorem PictureInvariant_preserved (env : Env) (s : Store) (hnf : NoFault env)
    (hfresh : FreshFileID env s) (hu : UniqueIds s) (hinv : PictureInvariant s) :
    (∀ car fileData fileName,
      PictureInvariant (CreateCar env s car fileData fileName).store) ∧
    (∀ id car X fileName, (car.ID = NilObjectID ∨ car.ID = id) →
      PictureInvariant (UpdateCar env s id car (some X) fileName).store) ∧
    (∀ id car fileName, (∀ d ∈ s.cars, d.id = id → car.Picture = d.picture) →
      PictureInvariant (UpdateCar env s id car none fileName).store) ∧
    (∀ id, PictureInvariant (DeleteCar env s id).store) ∧
    (∀ id customer, PictureInvariant (ReserveCar env s id customer).store) ∧
    (∀ id, PictureInvariant (CancelReservation env s id).store) ∧
    (∀ id customer, PictureInvariant (SellCar env s id customer).store) :=
  ⟨fun car fileData fileName =>
     CreateCar_PictureInvariant env s car fileData fileName hnf hfresh hinv,
   fun id car X fileName hidok =>
     UpdateCar_image_PictureInvariant env s id car X fileName hnf hfresh hu hinv hidok,
   fun id car fileName hsame => UpdateCar_nil_PictureInvariant env s id car fileName hinv hsame,
   fun id => DeleteCar_PictureInvariant env s id hnf hu hinv,
   fun id customer => ReserveCar_PictureInvariant env s id customer hinv,
   fun id => CancelReservation_PictureInvariant env s id hinv,
   fun id customer => SellCar_PictureInvariant env s id customer hinv⟩

theorem PictureInvariant_preserved_witness :
    NoFault env0 ∧
    FreshFileID env0 (storeWith (toyota (oid 1) CarStatusAvailable .absent)) ∧
    UniqueIds (storeWith (toyota (oid 1) CarStatusAvailable .absent)) ∧
    PictureInvariant (storeWith (toyota (oid 1) CarStatusAvailable .absent)) ∧
    PictureInvariant (CreateCar env0 (storeWith (toyota (oid 1) CarStatusAvailable .absent))
      civic (some [4]) "civic.jpg").store ∧
    PictureInvariant (UpdateCar env0 (storeWith (toyota (oid 1) CarStatusAvailable .absent))
      (oid 1) civic (some [5]) "new.jpg").store ∧
    PictureInvariant (DeleteCar env0 (storeWith (toyota (oid 1) CarStatusAvailable .absent))
      (oid 1)).store :=
  ⟨fun _ => rfl, by unfold FreshFileID; decide, by decide, by decide,
    (PictureInvariant_preserved env0 _ (fun _ => rfl) (by unfold FreshFileID; decide)
      (by decide) (by decide)).1 civic (some [4]) "civic.jpg",
    (PictureInvariant_preserved env0 _ (fun _ => rfl) (by unfold FreshFileID; decide)
      (by decide) (by decide)).2.1 (oid 1) civic [5] "new.jpg" (.inl rfl),
    (PictureInvariant_preserved env0 _ (fun _ => rfl) (by unfold FreshFileID; decide)
      (by decide) (by decide)).2.2.2.1 (oid 1)⟩

/-! ## DeleteCar -/

theorem removeFirst_eq_filter {α κ : Type} [DecidableEq κ] (key : α → κ) (p : α → Bool) (k : κ)
    (l : List α) (hu : (l.map key).Nodup) (hp : ∀ x, p x = true ↔ key x = k) :
    removeFirst p l = l.filter (fun x => key x != k) := by
  induction l with
  | nil => rfl
  | cons y ys ih =>
    rw [List.map_cons, List.nodup_cons] at hu
    by_cases hy : p y = true
    · have hyk := (hp y).1 hy
      have hrest : ys.filter (fun x => key x != k) = ys := by
        rw [List.filter_eq_self]
        intro x hx
        have : key x ≠ k := fun h => hu.1 (hyk ▸ h ▸ List.mem_map_of_mem key hx)
        simpa using this
      simp [removeFirst, hy, List.filter_cons, hyk, hrest]
    · have hy' : p y = false := by simpa using hy
      have hyk : key y ≠ k := fun h => hy ((hp y).2 h)
      simp [removeFirst, hy', List.filter_cons, hyk, ih hu.2]

/-- C18: `DeleteCar` on an available car whose picture is the id of a stored blob.  With unique
car and file ids and none of its three storage calls failing, the call succeeds and reports
one deleted document; afterwards no car has the id, no file has the picture's id and
`GetCarImage` on the picture fails; the collection and the bucket are the old ones without
that car and without that blob, every other car and blob being unchanged. -/
theorem DeleteCar_available (env env' : Env) (s : Store) (id pid : ObjectID) (d : CarDoc)
    (hd : getCar s id = some d) (hst : d.status = CarStatusAvailable)
    (hpic : ObjectIDFromHex d.picture = .ok pid) (hblob : ∃ f ∈ s.files, f.id = pid)
    (hu : UniqueIds s) (huf : UniqueFileIds s)
    (hok : env.fails .findOne = false ∧ env.fails .bucketDelete = false ∧
      env.fails .deleteOne = false) :
    (DeleteCar env s id).result = .ok ⟨1⟩ ∧
    getCar (DeleteCar env s id).store id = none ∧
    (∀ f ∈ (DeleteCar env s id).store.files, f.id ≠ pid) ∧
    (∃ e, (GetCarImage env' (DeleteCar env s id).store d.picture).result = .error e) ∧
    (DeleteCar env s id).store.cars = s.cars.filter (fun x => x.id != id) ∧
    (DeleteCar env s id).store.files = s.files.filter (fun f => f.id != pid) ∧
    (∀ id', id' ≠ id → getCar (DeleteCar env s id).store id' = getCar s id') := by
  have hfind := FindOne_of_getCar env s id CarStatusAvailable d hd hst
  have hne : d.picture ≠ "" := by
    intro h
    rw [h, ObjectIDFromHex_empty] at hpic
    cases hpic
  have hany : s.files.any (fun f => f.id == pid) = true := by
    obtain ⟨f, hf, hfid⟩ := hblob
    exact List.any_eq_true.2 ⟨f, hf, by simpa using hfid⟩
  have hdel : deletePicture env s.files (decodeCar d).Picture
      = (none, removeFirst (fun f => f.id == pid) s.files) := by
    show deletePicture env s.files d.picture = _
    simp [deletePicture, hne, hpic, BucketDelete, hok.2.1, hany]
  have hd' : s.cars.find? (Filter.matches ⟨id, none⟩) = some d := by
    rw [matches_none_eq]
    exact hd
  have hstore : DeleteCar env s id
      = ⟨.ok ⟨1⟩, { cars := removeFirst (Filter.matches ⟨id, none⟩) s.cars,
                    files := removeFirst (fun f => f.id == pid) s.files }⟩ := by
    simp [DeleteCar, hfind, hok.1, hdel, DeleteOne, hok.2.2, hd']
  have hcars : removeFirst (Filter.matches ⟨id, none⟩) s.cars
      = s.cars.filter (fun x => x.id != id) :=
    removeFirst_eq_filter CarDoc.id _ id s.cars hu (fun x => by simp [Filter.matches])
  have hfiles : removeFirst (fun f => f.id == pid) s.files
      = s.files.filter (fun f => f.id != pid) :=
    removeFirst_eq_filter GridFile.id _ pid s.files huf (fun x => by simp)
  have hgone : ∀ f ∈ s.files.filter (fun f => f.id != pid), f.id ≠ pid := by
    intro f hf
    simpa using (List.mem_filter.1 hf).2
  rw [hstore, hcars, hfiles]
  refine ⟨rfl, ?_, hgone, ?_, rfl, rfl, ?_⟩
  · unfold getCar
    rw [List.find?_eq_none]
    intro x hx
    have := (List.mem_filter.1 hx).2
    simpa using this
  · obtain ⟨e, he⟩ := Download_missing env' _ pid hgone
    exact ⟨e, by simp only [GetCarImage, hpic, he]⟩
  · intro id' hid'
    unfold getCar
    rw [← hcars]
    apply find?_removeFirst_other
    intro x hx
    have := matches_id id x hx
    simpa [this] using fun h => hid' h.symm

theorem DeleteCar_available_witness :
    getCar (storeWith (toyota (oid 1) CarStatusAvailable .absent)) (oid 1)
      = some (toyota (oid 1) CarStatusAvailable .absent) ∧
    ObjectIDFromHex (toyota (oid 1) CarStatusAvailable .absent).picture = .ok (oid 10) ∧
    (DeleteCar env0 (storeWith (toyota (oid 1) CarStatusAvailable .absent)) (oid 1)).result
      = .ok ⟨1⟩ ∧
    getCar (DeleteCar env0 (storeWith (toyota (oid 1) CarStatusAvailable .absent))
      (oid 1)).store (oid 1) = none ∧
    (∀ f ∈ (DeleteCar env0 (storeWith (toyota (oid 1) CarStatusAvailable .absent))
      (oid 1)).store.files, f.id ≠ oid 10) :=
  ⟨by decide, by decide,
    (DeleteCar_available env0 env0 (storeWith (toyota (oid 1) CarStatusAvailable .absent))
      (oid 1) (oid 10) (toyota (oid 1) CarStatusAvailable .absent) (by decide) rfl (by decide)
      (by decide) (by decide) (by decide) ⟨rfl, rfl, rfl⟩).1,
    (DeleteCar_available env0 env0 (storeWith (toyota (oid 1) CarStatusAvailable .absent))
      (oid 1) (oid 10) (toyota (oid 1) CarStatusAvailable .absent) (by decide) rfl (by decide)
      (by decide) (by decide) (by decide) ⟨rfl, rfl, rfl⟩).2.1,
    (DeleteCar_available env0 env0 (storeWith (toyota (oid 1) CarStatusAvailable .absent))
      (oid 1) (oid 10) (toyota (oid 1) CarStatusAvailable .absent) (by decide) rfl (by decide)
      (by decide) (by decide) (by decide) ⟨rfl, rfl, rfl⟩).2.2.1⟩

/-- C19: `DeleteCar` on an available car fails when one of its steps fails, and it deletes the
blob before the document.  If the lookup fails, or the (non-empty) picture cannot be parsed, an
error is returned and the store is unchanged.  If the blob deletion fails (the call fails or no
file has the id), an error is returned and the collection is unchanged, so the car document is
still there as it was; the bucket is unchanged too, unless `Bucket.Delete` returned its fault
with the file removed already, and then it is the old bucket without that file.  If the blob
deletion succeeds and the document deletion fails, an error is returned, the car document is
still there as it was, and its blob has been removed from the bucket. -/
theorem DeleteCar_failures (env : Env) (s : Store) (id : ObjectID) (d : CarDoc)
    (hd : getCar s id = some d) (hst : d.status = CarStatusAvailable) :
    (env.fails .findOne = true →
      (DeleteCar env s id).result = .error (.Storage .findOne) ∧
      (DeleteCar env s id).store = s) ∧
    (∀ e, env.fails .findOne = false → d.picture ≠ "" →
      ObjectIDFromHex d.picture = .error e →
      (DeleteCar env s id).result = .error e ∧ (DeleteCar env s id).store = s) ∧
    (∀ pid, env.fails .findOne = false → ObjectIDFromHex d.picture = .ok pid →
      (env.fails .bucketDelete = true ∨ ∀ f ∈ s.files, f.id ≠ pid) →
      (∃ e, (DeleteCar env s id).result = .error e) ∧
      (DeleteCar env s id).store.cars = s.cars ∧
      getCar (DeleteCar env s id).store id = some d ∧
      (DeleteCar env s id).store.files =
        (if env.fails .bucketDelete = true ∧ env.failedDeleteRemovesFile = true
          then removeFirst (fun f => f.id == pid) s.files else s.files)) ∧
    (∀ pid, env.fails .findOne = false → ObjectIDFromHex d.picture = .ok pid →
      env.fails .bucketDelete = false → (∃ f ∈ s.files, f.id = pid) →
      env.fails .deleteOne = true →
      (DeleteCar env s id).result = .error (.Storage .deleteOne) ∧
      (DeleteCar env s id).store.cars = s.cars ∧
      getCar (DeleteCar env s id).store id = some d ∧
      (DeleteCar env s id).store.files = removeFirst (fun f => f.id == pid) s.files ∧
      (UniqueFileIds s → ∀ f ∈ (DeleteCar env s id).store.files, f.id ≠ pid)) := by
  have hfind := FindOne_of_getCar env s id CarStatusAvailable d hd hst
  have hpicd : (decodeCar d).Picture = d.picture := rfl
  refine ⟨?_, ?_, ?_, ?_⟩
  · intro hf
    simp [DeleteCar, hfind, hf]
  · intro e hf hne hparse
    simp [DeleteCar, hfind, hf, hpicd, deletePicture, hne, hparse]
  · intro pid hf hparse hfail
    have hne : d.picture ≠ "" := by
      intro h
      rw [h, ObjectIDFromHex_empty] at hparse
      cases hparse
    have hdel : ∃ e, deletePicture env s.files d.picture = (some e,
        if env.fails .bucketDelete = true ∧ env.failedDeleteRemovesFile = true
          then removeFirst (fun f => f.id == pid) s.files else s.files) := by
      by_cases hbd : env.fails .bucketDelete = true
      · refine ⟨.Storage .bucketDelete, ?_⟩
        by_cases hr : env.failedDeleteRemovesFile = true
        · simp [deletePicture, hne, hparse, BucketDelete, hbd, hr]
        · simp [deletePicture, hne, hparse, BucketDelete, hbd, hr]
      · rcases hfail with hbd' | hmissing
        · exact absurd hbd' hbd
        · have hany : s.files.any (fun f => f.id == pid) = false := by
            rw [Bool.eq_false_iff]
            intro h
            obtain ⟨f, hf', hfid⟩ := List.any_eq_true.1 h
            exact hmissing f hf' (by simpa using hfid)
          exact ⟨.ErrFileNotFound,
            by simp [deletePicture, hne, hparse, BucketDelete, hbd, hany]⟩
    obtain ⟨e, he⟩ := hdel
    have hout : DeleteCar env s id = ⟨.error e, ⟨s.cars,
        if env.fails .bucketDelete = true ∧ env.failedDeleteRemovesFile = true
          then removeFirst (fun f => f.id == pid) s.files else s.files⟩⟩ := by
      simp [DeleteCar, hfind, hf, hpicd, he]
    rw [hout]
    exact ⟨⟨e, rfl⟩, rfl, hd, rfl⟩
  · intro pid hf hparse hbd hblob hdo
    have hne : d.picture ≠ "" := by
      intro h
      rw [h, ObjectIDFromHex_empty] at hparse
      cases hparse
    have hany : s.files.any (fun f => f.id == pid) = true := by
      obtain ⟨f, hf', hfid⟩ := hblob
      exact List.any_eq_true.2 ⟨f, hf', by simpa using hfid⟩
    have hdel : deletePicture env s.files d.picture
        = (none, removeFirst (fun f => f.id == pid) s.files) := by
      simp [deletePicture, hne, hparse, BucketDelete, hbd, hany]
    have hout : DeleteCar env s id = ⟨.error (.Storage .deleteOne),
        { s with files := removeFirst (fun f => f.id == pid) s.files }⟩ := by
      simp [DeleteCar, hfind, hf, hpicd, hdel, DeleteOne, hdo]
    rw [hout]
    refine ⟨rfl, rfl, hd, rfl, ?_⟩
    intro huf
    exact removeFirst_key_ne GridFile.id _ pid s.files huf (fun x => by simp)

theorem DeleteCar_failures_witness :
    getCar (storeWith (toyota (oid 1) CarStatusAvailable .absent)) (oid 1)
      = some (toyota (oid 1) CarStatusAvailable .absent) ∧
    (DeleteCar (envFailing .deleteOne) (storeWith (toyota (oid 1) CarStatusAvailable .absent))
      (oid 1)).result = .error (.Storage .deleteOne) ∧
    (DeleteCar (envFailing .deleteOne) (storeWith (toyota (oid 1) CarStatusAvailable .absent))
      (oid 1)).store.cars = [toyota (oid 1) CarStatusAvailable .absent] ∧
    getCar (DeleteCar (envFailing .deleteOne)
      (storeWith (toyota (oid 1) CarStatusAvailable .absent)) (oid 1)).store (oid 1)
      = some (toyota (oid 1) CarStatusAvailable .absent) ∧
    (DeleteCar (envFailing .deleteOne) (storeWith (toyota (oid 1) CarStatusAvailable .absent))
      (oid 1)).store.files = [] ∧
    (∃ e, (DeleteCar envDeleteFailingLate
      (storeWith (toyota (oid 1) CarStatusAvailable .absent)) (oid 1)).result = .error e) ∧
    (DeleteCar envDeleteFailingLate (storeWith (toyota (oid 1) CarStatusAvailable .absent))
      (oid 1)).store.cars = [toyota (oid 1) CarStatusAvailable .absent] :=
  ⟨by decide,
    ((DeleteCar_failures (envFailing .deleteOne)
      (storeWith (toyota (oid 1) CarStatusAvailable .absent)) (oid 1)
      (toyota (oid 1) CarStatusAvailable .absent) (by decide) rfl).2.2.2 (oid 10) rfl
      (by decide) rfl (by decide) rfl).1,
    ((DeleteCar_failures (envFailing .deleteOne)
      (storeWith (toyota (oid 1) CarStatusAvailable .absent)) (oid 1)
      (toyota (oid 1) CarStatusAvailable .absent) (by decide) rfl).2.2.2 (oid 10) rfl
      (by decide) rfl (by decide) rfl).2.1,
    ((DeleteCar_failures (envFailing .deleteOne)
      (storeWith (toyota (oid 1) CarStatusAvailable .absent)) (oid 1)
      (toyota (oid 1) CarStatusAvailable .absent) (by decide) rfl).2.2.2 (oid 10) rfl
      (by decide) rfl (by decide) rfl).2.2.1,
    ((DeleteCar_failures (envFailing .deleteOne)
      (storeWith (toyota (oid 1) CarStatusAvailable .absent)) (oid 1)
      (toyota (oid 1) CarStatusAvailable .absent) (by decide) rfl).2.2.2 (oid 10) rfl
      (by decide) rfl (by decide) rfl).2.2.2.1,
    ((DeleteCar_failures envDeleteFailingLate
      (storeWith (toyota (oid 1) CarStatusAvailable .absent)) (oid 1)
      (toyota (oid 1) CarStatusAvailable .absent) (by decide) rfl).2.2.1 (oid 10) rfl
      (by decide) (.inl rfl)).1,
    ((DeleteCar_failures envDeleteFailingLate
      (storeWith (toyota (oid 1) CarStatusAvailable .absent)) (oid 1)
      (toyota (oid 1) CarStatusAvailable .absent) (by decide) rfl).2.2.1 (oid 10) rfl
      (by decide) (.inl rfl)).2.1⟩

/-! ## CreateCar when a step fails -/

/-- C20: a failure of the deferred `Close` of the upload stream is not reported by `CreateCar`.
With only that call failing, `CreateCar` returns the insert result and no error, the car
document is inserted with the picture id of the upload, and no blob is in the bucket, so
`GetCarImage` on the persisted picture finds no file. -/
theorem CreateCar_close_failure_not_reported :
    (CreateCar (envFailing .uploadClose) ⟨[], []⟩ civic (some [1, 2, 3]) "civic.jpg").result
      = .ok ⟨oid 30⟩ ∧
    (CreateCar (envFailing .uploadClose) ⟨[], []⟩ civic (some [1, 2, 3]) "civic.jpg").store.cars
      = [marshalCar (oid 30)
          { civic with Status := CarStatusAvailable, Picture := (oid 20).Hex }] ∧
    (CreateCar (envFailing .uploadClose) ⟨[], []⟩ civic (some [1, 2, 3])
      "civic.jpg").store.files = [] ∧
    (GetCarImage env0 (CreateCar (envFailing .uploadClose) ⟨[], []⟩ civic (some [1, 2, 3])
      "civic.jpg").store (oid 20).Hex).result = .error .ErrFileNotFound := by
  decide

/-- The failures `CreateCar` does report: a failing open or write of the upload stream gives
an error and no car document is inserted; a failing insert gives an error, no car document is
inserted, and the bucket is what the deferred `Close` leaves: the uploaded blob stays, no
compensating delete is made. -/
theorem CreateCar_reported_failures (env : Env) (s : Store) (car : Car) (fileData : Slice)
    (fileName : String) :
    (env.fails .openUploadStream = true →
      (CreateCar env s car fileData fileName).result = .error (.Storage .openUploadStream) ∧
      (CreateCar env s car fileData fileName).store = s) ∧
    (env.fails .openUploadStream = false → env.fails .uploadWrite = true →
      (CreateCar env s car fileData fileName).result = .error (.Storage .uploadWrite) ∧
      (CreateCar env s car fileData fileName).store.cars = s.cars) ∧
    (env.fails .openUploadStream = false → env.fails .uploadWrite = false →
      ∀ e, InsertOne env s.cars
          { car with Status := CarStatusAvailable, Picture := env.newFileID.Hex } = .error e →
      (CreateCar env s car fileData fileName).result = .error e ∧
      (CreateCar env s car fileData fileName).store.cars = s.cars ∧
      (CreateCar env s car fileData fileName).store.files
        = UploadStream.Close env ⟨env.newFileID, fileName, fileData.bytes⟩ s.files ∧
      (env.fails .uploadClose = false → FreshFileID env s →
        (CreateCar env s car fileData fileName).store.files
          = s.files ++ [⟨env.newFileID, fileName, fileData.bytes⟩])) := by
  refine ⟨?_, ?_, ?_⟩
  · intro h1
    simp [CreateCar, OpenUploadStream, h1]
  · intro h1 h2
    simp [CreateCar, OpenUploadStream, h1, UploadStream.Write, h2]
  · intro h1 h2 e he
    have hout : CreateCar env s car fileData fileName
        = ⟨.error e, { s with files :=
            UploadStream.Close env ⟨env.newFileID, fileName, fileData.bytes⟩ s.files },
          { car with Status := CarStatusAvailable, Picture := env.newFileID.Hex }⟩ := by
      simp [CreateCar, OpenUploadStream, h1, UploadStream.Write, h2, he]
    rw [hout]
    refine ⟨rfl, rfl, rfl, ?_⟩
    intro hclose hfresh
    exact Close_fresh env ⟨env.newFileID, fileName, fileData.bytes⟩ s.files hclose hfresh

/-! ## UpdateCar when a step before the final write fails -/

theorem UpdateCar_write_error_cars (env : Env) (s : Store) (id : ObjectID) (car : Car)
    (pending : Option UploadStream) (e : Error)
    (h : (UpdateCar.write env s id car pending).result = .error e) :
    (UpdateCar.write env s id car pending).store.cars = s.cars := by
  unfold UpdateCar.write at h ⊢
  dsimp only at h ⊢
  split
  · rfl
  · rename_i r cars' hupd
    rw [hupd] at h
    cases h

/-- C21: `UpdateCar` with image bytes, when a step before the final document write fails.  If
the lookup of the available car fails, the error is returned and the whole store is as before.
If parsing or deleting the old picture fails, the error is returned and every car document is
as before; the bucket is as before too, unless `Bucket.Delete` returned its fault with the
file removed already, and then it is the old bucket without that file.  If opening or writing
the upload stream fails, the error is returned and every car document is as before (all
fields, picture and status included).  More generally an `UpdateCar` call that returns an
error, with or without image bytes, leaves every car document as it was. -/
theorem UpdateCar_early_failures (env : Env) (s : Store) (id : ObjectID) (car : Car)
    (X : List Byte) (fileName : String) :
    (∀ e, FindOne env s.cars ⟨id, some CarStatusAvailable⟩ = .error e →
      (UpdateCar env s id car (some X) fileName).result = .error e ∧
      (UpdateCar env s id car (some X) fileName).store = s) ∧
    (∀ existingCar e files,
      FindOne env s.cars ⟨id, some CarStatusAvailable⟩ = .ok existingCar →
      deletePicture env s.files existingCar.Picture = (some e, files) →
      (UpdateCar env s id car (some X) fileName).result = .error e ∧
      (UpdateCar env s id car (some X) fileName).store.cars = s.cars ∧
      (UpdateCar env s id car (some X) fileName).store.files = files ∧
      (files = s.files ∨
        (env.fails .bucketDelete = true ∧ env.failedDeleteRemovesFile = true ∧
          e = .Storage .bucketDelete ∧
          ∃ pid, ObjectIDFromHex existingCar.Picture = .ok pid ∧
            files = removeFirst (fun f => f.id == pid) s.files))) ∧
    (∀ existingCar files, FindOne env s.cars ⟨id, some CarStatusAvailable⟩ = .ok existingCar →
      deletePicture env s.files existingCar.Picture = (none, files) →
      env.fails .openUploadStream = true →
      (UpdateCar env s id car (some X) fileName).result
        = .error (.Storage .openUploadStream) ∧
      (UpdateCar env s id car (some X) fileName).store.cars = s.cars) ∧
    (∀ existingCar files, FindOne env s.cars ⟨id, some CarStatusAvailable⟩ = .ok existingCar →
      deletePicture env s.files existingCar.Picture = (none, files) →
      env.fails .openUploadStream = false → env.fails .uploadWrite = true →
      (UpdateCar env s id car (some X) fileName).result = .error (.Storage .uploadWrite) ∧
      (UpdateCar env s id car (some X) fileName).store.cars = s.cars) ∧
    (∀ fileData e, (UpdateCar env s id car fileData fileName).result = .error e →
      (UpdateCar env s id car fileData fileName).store.cars = s.cars) := by
  refine ⟨?_, ?_, ?_, ?_, ?_⟩
  · intro e h
    simp [UpdateCar, h]
  · intro existingCar e files h1 h2
    refine ⟨by simp [UpdateCar, h1, h2], by simp [UpdateCar, h1, h2],
      by simp [UpdateCar, h1, h2], ?_⟩
    exact deletePicture_error env s.files files existingCar.Picture e h2
  · intro existingCar files h1 h2 h3
    simp [UpdateCar, h1, h2, OpenUploadStream, h3]
  · intro existingCar files h1 h2 h3 h4
    simp [UpdateCar, h1, h2, OpenUploadStream, h3, UploadStream.Write, h4]
  · intro fileData e h
    cases fileData with
    | none => exact UpdateCar_write_error_cars env s id car none e h
    | some Y =>
      cases hfo : FindOne env s.cars ⟨id, some CarStatusAvailable⟩ with
      | error e1 => simp [UpdateCar, hfo]
      | ok existingCar =>
        rcases hdp : deletePicture env s.files existingCar.Picture with ⟨_ | e2, files⟩
        · by_cases h3 : env.fails .openUploadStream = true
          · simp [UpdateCar, hfo, hdp, OpenUploadStream, h3]
          · by_cases h4 : env.fails .uploadWrite = true
            · simp [UpdateCar, hfo, hdp, OpenUploadStream, h3, UploadStream.Write, h4]
            · have heq : UpdateCar env s id car (some Y) fileName
                  = UpdateCar.write env { s with files := files } id
                      { car with Picture := env.newFileID.Hex }
                      (some ⟨env.newFileID, fileName, Y⟩) := by
                simp [UpdateCar, hfo, hdp, OpenUploadStream, h3, UploadStream.Write, h4,
                  Slice.bytes]
              rw [heq] at h ⊢
              exact UpdateCar_write_error_cars env _ id _ _ e h
        · simp [UpdateCar, hfo, hdp]

theorem UpdateCar_early_failures_witness :
    FindOne env0 (storeWith (toyota (oid 1) CarStatusAvailable .absent)).cars
      ⟨oid 1, some CarStatusAvailable⟩
      = .ok (decodeCar (toyota (oid 1) CarStatusAvailable .absent)) ∧
    (UpdateCar (envFailing .uploadWrite) (storeWith (toyota (oid 1) CarStatusAvailable .absent))
      (oid 1) civic (some [7]) "new.jpg").result = .error (.Storage .uploadWrite) ∧
    (UpdateCar (envFailing .uploadWrite) (storeWith (toyota (oid 1) CarStatusAvailable .absent))
      (oid 1) civic (some [7]) "new.jpg").store.cars
      = [toyota (oid 1) CarStatusAvailable .absent] ∧
    deletePicture envDeleteFailingLate
      (storeWith (toyota (oid 1) CarStatusAvailable .absent)).files
      (decodeCar (toyota (oid 1) CarStatusAvailable .absent)).Picture
      = (some (.Storage .bucketDelete), []) ∧
    (UpdateCar envDeleteFailingLate (storeWith (toyota (oid 1) CarStatusAvailable .absent))
      (oid 1) civic (some [7]) "new.jpg").result = .error (.Storage .bucketDelete) ∧
    (UpdateCar envDeleteFailingLate (storeWith (toyota (oid 1) CarStatusAvailable .absent))
      (oid 1) civic (some [7]) "new.jpg").store.cars
      = [toyota (oid 1) CarStatusAvailable .absent] :=
  ⟨by decide,
    ((UpdateCar_early_failures (envFailing .uploadWrite)
      (storeWith (toyota (oid 1) CarStatusAvailable .absent)) (oid 1) civic [7]
      "new.jpg").2.2.2.1 (decodeCar (toyota (oid 1) CarStatusAvailable .absent)) []
      (by decide) (by decide) rfl rfl).1,
    ((UpdateCar_early_failures (envFailing .uploadWrite)
      (storeWith (toyota (oid 1) CarStatusAvailable .absent)) (oid 1) civic [7]
      "new.jpg").2.2.2.1 (decodeCar (toyota (oid 1) CarStatusAvailable .absent)) []
      (by decide) (by decide) rfl rfl).2,
    by decide,
    ((UpdateCar_early_failures envDeleteFailingLate
      (storeWith (toyota (oid 1) CarStatusAvailable .absent)) (oid 1) civic [7]
      "new.jpg").2.1 (decodeCar (toyota (oid 1) CarStatusAvailable .absent))
      (.Storage .bucketDelete) [] (by decide) (by decide)).1,
    ((UpdateCar_early_failures envDeleteFailingLate
      (storeWith (toyota (oid 1) CarStatusAvailable .absent)) (oid 1) civic [7]
      "new.jpg").2.1 (decodeCar (toyota (oid 1) CarStatusAvailable .absent))
      (.Storage .bucketDelete) [] (by decide) (by decide)).2.1⟩

/-! ## Which strings are object ids -/

theorem fromHexChar_utf8Size (c : Char) (h : (fromHexChar c).isSome = true) :
    c.utf8Size = 1 := by
  have hle : c.toNat ≤ 102 := by
    unfold fromHexChar at h
    split at h
    · omega
    · split at h
      · omega
      · split at h
        · omega
        · simp at h
  unfold Char.utf8Size
  have : c.val ≤ 0x7F := by
    rw [UInt32.le_def]
    show c.val.toNat ≤ 127
    have : c.toNat = c.val.toNat := rfl
    omega
  simp [this]

theorem fromHexChar_lt (c : Char) (v : Nat) (h : fromHexChar c = some v) : v < 16 := by
  unfold fromHexChar at h
  split at h
  · cases h
    omega
  · split at h
    · cases h
      omega
    · split at h
      · cases h
        omega
      · cases h

theorem hexValue_some_hex (cs : List Char) (acc v : Nat) (h : hexValue cs acc = some v) :
    ∀ c ∈ cs, (fromHexChar c).isSome = true := by
  induction cs generalizing acc with
  | nil => simp
  | cons c cs ih =>
    simp only [hexValue] at h
    cases hc : fromHexChar c with
    | none => simp [hc] at h
    | some w =>
      simp only [hc] at h
      intro x hx
      rcases List.mem_cons.1 hx with rfl | hx
      · simp [hc]
      · exact ih _ h x hx

theorem hexValue_of_hex (cs : List Char) (acc : Nat)
    (h : ∀ c ∈ cs, (fromHexChar c).isSome = true) :
    ∃ v, hexValue cs acc = some v ∧ v < (acc + 1) * 16 ^ cs.length := by
  induction cs generalizing acc with
  | nil => exact ⟨acc, rfl, by simp⟩
  | cons c cs ih =>
    have hc := h c (List.mem_cons_self _ _)
    obtain ⟨w, hw⟩ := Option.isSome_iff_exists.1 hc
    have hwlt := fromHexChar_lt c w hw
    obtain ⟨v, hv, hvlt⟩ := ih (acc * 16 + w) (fun x hx => h x (List.mem_cons_of_mem _ hx))
    refine ⟨v, by simp only [hexValue, hw, hv], ?_⟩
    have hle : (acc * 16 + w + 1) * 16 ^ cs.length ≤ (acc + 1) * 16 ^ (cs.length + 1) := by
      have h1 : (acc + 1) * 16 ^ (cs.length + 1) = ((acc + 1) * 16) * 16 ^ cs.length := by
        rw [Nat.pow_succ]
        ring
      rw [h1]
      exact Nat.mul_le_mul_right _ (by omega)
    simpa using Nat.lt_of_lt_of_le hvlt hle

/-- The strings `ObjectIDFromHex` accepts are exactly the 24 hexadecimal digits. -/
theorem ObjectIDFromHex_ok_iff (s : String) :
    (∃ id, ObjectIDFromHex s = .ok id) ↔ isObjectIDHex s := by
  unfold isObjectIDHex
  constructor
  · rintro ⟨id, h⟩
    unfold ObjectIDFromHex at h
    split at h
    · cases h
    · rename_i hsize
      split at h
      · cases h
      · rename_i v hv
        exact ⟨by simpa using hsize, hexValue_some_hex s.data 0 v hv⟩
  · rintro ⟨hsize, hhex⟩
    have hlen : s.data.length = 24 := by
      rw [← utf8ByteSize_go_ascii s.data (fun c hc => fromHexChar_utf8Size c (hhex c hc))]
      exact hsize
    obtain ⟨v, hv, hvlt⟩ := hexValue_of_hex s.data 0 hhex
    have hvlt' : v < 2 ^ 96 := by
      rw [hlen] at hvlt
      norm_num at hvlt ⊢
      exact hvlt
    refine ⟨⟨v, hvlt'⟩, ?_⟩
    unfold ObjectIDFromHex
    simp only [hsize, ne_eq, not_true_eq_false, if_false, hv]
    exact dif_pos hvlt'

theorem ObjectIDFromHex_error_of_not_hex (s : String) (h : ¬ isObjectIDHex s) :
    ∃ e, ObjectIDFromHex s = .error e := by
  cases hp : ObjectIDFromHex s with
  | error e => exact ⟨e, rfl⟩
  | ok id => exact absurd ((ObjectIDFromHex_ok_iff s).1 ⟨id, hp⟩) h

/-! ## GetCarImage on a bad or unknown identifier -/

/-- C22: `GetCarImage` returns an error, and so no bytes, when the picture id is not the 24
hexadecimal digits of an object id, and also when it is one but no blob has that id.  For an
invalid id the bucket is not consulted: the result is the same whatever the bucket holds and
whichever storage calls would fail.  The store is never changed. -/
theorem GetCarImage_errors (env : Env) (s : Store) (pictureID : String) :
    (¬ isObjectIDHex pictureID →
      (∃ e, (GetCarImage env s pictureID).result = .error e) ∧
      ∀ env' s', (GetCarImage env' s' pictureID).result
        = (GetCarImage env s pictureID).result) ∧
    (∀ id, ObjectIDFromHex pictureID = .ok id → (∀ f ∈ s.files, f.id ≠ id) →
      ∃ e, (GetCarImage env s pictureID).result = .error e) ∧
    (GetCarImage env s pictureID).store = s := by
  refine ⟨?_, ?_, ?_⟩
  · intro h
    obtain ⟨e, he⟩ := ObjectIDFromHex_error_of_not_hex pictureID h
    refine ⟨⟨e, by simp [GetCarImage, he]⟩, ?_⟩
    intro env' s'
    simp [GetCarImage, he]
  · intro id hid hmissing
    obtain ⟨e, he⟩ := Download_missing env s.files id hmissing
    exact ⟨e, by simp [GetCarImage, hid, he]⟩
  · unfold GetCarImage
    split
    · rfl
    · split <;> rfl

theorem GetCarImage_errors_witness :
    ¬ isObjectIDHex "invalid-id" ∧
    (GetCarImage env0 (storeWith (toyota (oid 1) CarStatusAvailable .absent))
      "invalid-id").result = .error .ErrInvalidHex ∧
    ObjectIDFromHex (oid 11).Hex = .ok (oid 11) ∧
    (∃ e, (GetCarImage env0 (storeWith (toyota (oid 1) CarStatusAvailable .absent))
      (oid 11).Hex).result = .error e) :=
  ⟨by decide, by decide, by decide,
    (GetCarImage_errors env0 (storeWith (toyota (oid 1) CarStatusAvailable .absent))
      (oid 11).Hex).2.1 (oid 11) (by decide) (by decide)⟩

/-! ## Two reservations of the same car -/

/-- What `ReserveCar` does on an available car when its update call does not fail. -/
theorem ReserveCar_on_available (env : Env) (s : Store) (id : ObjectID) (customer : Customer)
    (d : CarDoc) (hok : env.fails .updateOne = false) (hd : getCar s id = some d)
    (hst : d.status = CarStatusAvailable) :
    (ReserveCar env s id customer).result = .ok ⟨1, 1, 0⟩ ∧
    (ReserveCar env s id customer).store.files = s.files ∧
    getCar (ReserveCar env s id customer).store id
      = some { d with status := CarStatusReserved, customer := .doc customer } := by
  have hu := UpdateOne_match env s.cars id CarStatusAvailable CarStatusReserved (.doc customer) d
    hok hd hst (by decide)
  have hid : d.id = id := by simpa using List.find?_some hd
  refine ⟨by simp only [ReserveCar, hu], by simp only [ReserveCar, hu], ?_⟩
  simp only [ReserveCar, hu, getCar]
  exact find?_id_replaceFirst s.cars id CarStatusAvailable d _ hd hst hid

/-- What `ReserveCar` does when no available car has the id and its update call does not
fail. -/
theorem ReserveCar_on_none (env : Env) (s : Store) (id : ObjectID) (customer : Customer)
    (hok : env.fails .updateOne = false)
    (h : ∀ x ∈ s.cars, x.id = id → x.status ≠ CarStatusAvailable) :
    (ReserveCar env s id customer).result = .ok ⟨0, 0, 0⟩ ∧
    (ReserveCar env s id customer).store = s := by
  simp [ReserveCar, UpdateOne_no_match env s.cars id CarStatusAvailable _ h, hok]

/-- One order of two reservations of the same available car: the call whose update reaches
the store first matches the car, the other matches nothing and changes nothing. -/
theorem ReserveCar_then_ReserveCar (env1 env2 : Env) (s : Store) (id : ObjectID)
    (c1 c2 : Customer) (d : CarDoc) (h1 : env1.fails .updateOne = false)
    (h2 : env2.fails .updateOne = false) (hu : UniqueIds s) (hd : getCar s id = some d)
    (hst : d.status = CarStatusAvailable) :
    (ReserveCar env1 s id c1).result = .ok ⟨1, 1, 0⟩ ∧
    (ReserveCar env2 (ReserveCar env1 s id c1).store id c2).result = .ok ⟨0, 0, 0⟩ ∧
    (ReserveCar env2 (ReserveCar env1 s id c1).store id c2).store
      = (ReserveCar env1 s id c1).store ∧
    getCar (ReserveCar env2 (ReserveCar env1 s id c1).store id c2).store id
      = some { d with status := CarStatusReserved, customer := .doc c1 } := by
  obtain ⟨hr1, _, hg1⟩ := ReserveCar_on_available env1 s id c1 d h1 hd hst
  have hu1 : UniqueIds (ReserveCar env1 s id c1).store :=
    (UniqueIds_preserved env1 s hu).2.2.2.1 id c1
  have hnone : ∀ x ∈ (ReserveCar env1 s id c1).store.cars, x.id = id →
      x.status ≠ CarStatusAvailable := by
    intro x hx hxid
    have hd1mem := List.mem_of_find?_eq_some hg1
    have hd1id : ({ d with status := CarStatusReserved, customer := .doc c1 } : CarDoc).id = id :=
      by simpa using List.find?_some hg1
    have hxeq := List.inj_on_of_nodup_map hu1 hx hd1mem (hxid.trans hd1id.symm)
    rw [hxeq]
    show CarStatusReserved ≠ CarStatusAvailable
    decide
  obtain ⟨hr2, hstore⟩ := ReserveCar_on_none env2 (ReserveCar env1 s id c1).store id c2 h2 hnone
  refine ⟨hr1, hr2, hstore, ?_⟩
  rw [hstore]
  exact hg1

theorem ReserveCar_call_step (env : Env) (id : ObjectID) (customer : Customer) (s : Store) :
    (ReserveCar.call env id customer).step s
      = (.returned (ReserveCar env s id customer).result, (ReserveCar env s id customer).store) := by
  unfold ReserveCar.call Call.updateOne Call.step ReserveCar
  dsimp only
  split <;> rfl

theorem interleave_returned {α β : Type} (schedule : List Bool) (x : α) (y : β) (s : Store) :
    interleave schedule (.returned x) (.returned y) s = some (x, y, s) := by
  induction schedule with
  | nil => rfl
  | cons turn rest ih =>
    cases turn
    · exact ih
    · exact ih

/-- When the first call has returned and the second has its one update pending, the run
completes exactly when the second call gets a turn, with what that update does then. -/
theorem interleave_returned_updateOne {α : Type} (schedule : List Bool) (x : α) (env : Env)
    (f : Filter) (u : Update) (s s' : Store) (y : Except Error UpdateResult)
    (hstep : (Call.updateOne env f u).step s = (.returned y, s')) :
    interleave schedule (.returned x) (Call.updateOne env f u) s
      = if false ∈ schedule then some (x, y, s') else none := by
  induction schedule with
  | nil => rfl
  | cons turn rest ih =>
    cases turn
    · show interleave rest (.returned x) ((Call.updateOne env f u).step s).1
        ((Call.updateOne env f u).step s).2 = _
      rw [hstep]
      simp [interleave_returned]
    · show interleave rest (.returned x) (Call.updateOne env f u) s = _
      rw [ih]
      simp

theorem interleave_updateOne_returned {β : Type} (schedule : List Bool) (y : β) (env : Env)
    (f : Filter) (u : Update) (s s' : Store) (x : Except Error UpdateResult)
    (hstep : (Call.updateOne env f u).step s = (.returned x, s')) :
    interleave schedule (Call.updateOne env f u) (.returned y) s
      = if true ∈ schedule then some (x, y, s') else none := by
  induction schedule with
  | nil => rfl
  | cons turn rest ih =>
    cases turn
    · show interleave rest (Call.updateOne env f u) (.returned y) s = _
      rw [ih]
      simp
    · show interleave rest ((Call.updateOne env f u).step s).1 (.returned y)
        ((Call.updateOne env f u).step s).2 = _
      rw [hstep]
      simp [interleave_returned]

/-- Every interleaving of two `ReserveCar` calls is one of the two orders of their updates:
the call that gets the first turn runs its update on the original store, the other runs its
update on the store the first one left, once it gets a turn. -/
theorem interleave_ReserveCar (envA envB : Env) (id : ObjectID) (customerA customerB : Customer)
    (s : Store) (schedule : List Bool) :
    interleave schedule (ReserveCar.call envA id customerA) (ReserveCar.call envB id customerB) s
      = match schedule with
        | [] => none
        | true :: rest =>
          if false ∈ rest then
            some ((ReserveCar envA s id customerA).result,
              (ReserveCar envB (ReserveCar envA s id customerA).store id customerB).result,
              (ReserveCar envB (ReserveCar envA s id customerA).store id customerB).store)
          else none
        | false :: rest =>
          if true ∈ rest then
            some ((ReserveCar envA (ReserveCar envB s id customerB).store id customerA).result,
              (ReserveCar envB s id customerB).result,
              (ReserveCar envA (ReserveCar envB s id customerB).store id customerA).store)
          else none := by
  cases schedule with
  | nil => rfl
  | cons turn rest =>
    cases turn
    · show interleave rest (ReserveCar.call envA id customerA)
        ((ReserveCar.call envB id customerB).step s).1
        ((ReserveCar.call envB id customerB).step s).2 = _
      rw [ReserveCar_call_step]
      exact interleave_updateOne_returned rest _ envA _ _ _ _ _
        (ReserveCar_call_step envA id customerA _)
    · show interleave rest ((ReserveCar.call envA id customerA).step s).1
        (ReserveCar.call envB id customerB)
        ((ReserveCar.call envA id customerA).step s).2 = _
      rw [ReserveCar_call_step]
      exact interleave_returned_updateOne rest _ envB _ _ _ _ _
        (ReserveCar_call_step envB id customerB _)

/-- C23: two `ReserveCar` calls running concurrently on the same available car, under any
schedule of their store operations (neither update call failing, car ids unique).  Every
schedule that gives each call a turn runs both calls to their return.  Whenever both calls
have returned, exactly one of them reports one matched record, namely the one whose update
ran first, the other reports zero matched records, and the customer stored with the car, now
`reserved`, is the first one's. -/
theorem concurrent_ReserveCar (envA envB : Env) (s : Store) (id : ObjectID)
    (customerA customerB : Customer) (d : CarDoc) (schedule : List Bool)
    (hA : envA.fails .updateOne = false) (hB : envB.fails .updateOne = false)
    (hu : UniqueIds s) (hd : getCar s id = some d) (hst : d.status = CarStatusAvailable) :
    (true ∈ schedule → false ∈ schedule →
      ∃ out, interleave schedule (ReserveCar.call envA id customerA)
        (ReserveCar.call envB id customerB) s = some out) ∧
    (∀ rA rB s', interleave schedule (ReserveCar.call envA id customerA)
        (ReserveCar.call envB id customerB) s = some (rA, rB, s') →
      (schedule.head? = some true ∧ rA = .ok ⟨1, 1, 0⟩ ∧ rB = .ok ⟨0, 0, 0⟩ ∧
        getCar s' id
          = some { d with status := CarStatusReserved, customer := .doc customerA }) ∨
      (schedule.head? = some false ∧ rA = .ok ⟨0, 0, 0⟩ ∧ rB = .ok ⟨1, 1, 0⟩ ∧
        getCar s' id
          = some { d with status := CarStatusReserved, customer := .doc customerB })) := by
  have hAB := ReserveCar_then_ReserveCar envA envB s id customerA customerB d hA hB hu hd hst
  have hBA := ReserveCar_then_ReserveCar envB envA s id customerB customerA d hB hA hu hd hst
  rw [interleave_ReserveCar]
  cases schedule with
  | nil =>
    refine ⟨fun h => by simp at h, ?_⟩
    intro rA rB s' h
    cases h
  | cons turn rest =>
    cases turn
    · refine ⟨fun h1 _ => ?_, ?_⟩
      · have h1' : true ∈ rest := by simpa using h1
        dsimp only
        rw [if_pos h1']
        exact ⟨_, rfl⟩
      · intro rA rB s' h
        by_cases hmem : true ∈ rest
        · simp only [hmem, if_true, Option.some.injEq, Prod.mk.injEq] at h
          obtain ⟨h1, h2, h3⟩ := h
          subst h1 h2 h3
          exact .inr ⟨rfl, hBA.2.1, hBA.1, hBA.2.2.2⟩
        · simp only [hmem, if_false] at h
          cases h
    · refine ⟨fun _ h2 => ?_, ?_⟩
      · have h2' : false ∈ rest := by simpa using h2
        dsimp only
        rw [if_pos h2']
        exact ⟨_, rfl⟩
      · intro rA rB s' h
        by_cases hmem : false ∈ rest
        · simp only [hmem, if_true, Option.some.injEq, Prod.mk.injEq] at h
          obtain ⟨h1, h2, h3⟩ := h
          subst h1 h2 h3
          exact .inl ⟨rfl, hAB.1, hAB.2.1, hAB.2.2.2⟩
        · simp only [hmem, if_false] at h
          cases h

theorem concurrent_ReserveCar_witness :
    env0.fails .updateOne = false ∧
    UniqueIds (storeWith (toyota (oid 1) CarStatusAvailable .absent)) ∧
    getCar (storeWith (toyota (oid 1) CarStatusAvailable .absent)) (oid 1)
      = some (toyota (oid 1) CarStatusAvailable .absent) ∧
    interleave [false, true] (ReserveCar.call env0 (oid 1) johnDoe)
        (ReserveCar.call env0 (oid 1) ⟨"Jane Roe", "jane@example.com", "555"⟩)
        (storeWith (toyota (oid 1) CarStatusAvailable .absent))
      = some (.ok ⟨0, 0, 0⟩, .ok ⟨1, 1, 0⟩,
          storeWith (toyota (oid 1) CarStatusReserved
            (.doc ⟨"Jane Roe", "jane@example.com", "555"⟩))) ∧
    getCar (storeWith (toyota (oid 1) CarStatusReserved
        (.doc ⟨"Jane Roe", "jane@example.com", "555"⟩))) (oid 1)
      = some { toyota (oid 1) CarStatusAvailable .absent with
          status := CarStatusReserved,
          customer := .doc ⟨"Jane Roe", "jane@example.com", "555"⟩ } :=
  ⟨rfl, by decide, by decide, by decide,
    ((concurrent_ReserveCar env0 env0 (storeWith (toyota (oid 1) CarStatusAvailable .absent))
      (oid 1) johnDoe ⟨"Jane Roe", "jane@example.com", "555"⟩
      (toyota (oid 1) CarStatusAvailable .absent) [false, true] rfl rfl (by decide) (by decide)
      rfl).2 (.ok ⟨0, 0, 0⟩) (.ok ⟨1, 1, 0⟩) _ (by decide)).elim
      (fun h => absurd h.1 (by decide)) (fun h => h.2.2.2)⟩

/-! ## The lifecycle scenario -/

set_option maxRecDepth 100000 in
/-- C24: the scenario of the specification, run on the empty store with no storage call
failing, for any image bytes `X`.  Create the Toyota Corolla: inserted with status `available`,
and `GetCarImage` on its picture returns `X`.  Reserve for John Doe: one record matched, status
`reserved` with that customer.  Sell: zero records matched, the store is unchanged and the car
still reserved.  Cancel the reservation: one record matched, status `available`, customer
cleared.  Sell to John Doe: one record matched, status `sold` with that customer.  Delete:
fails with `ErrNoDocuments`, the store is unchanged and the car still there with status
`sold`. -/
theorem lifecycle_scenario (X : List Byte) :
    ((scenario1 X).result = .ok ⟨oid 30⟩ ∧
      getCar (scenario1 X).store (oid 30) = some (corollaDoc CarStatusAvailable .absent) ∧
      (GetCarImage env0 (scenario1 X).store (corollaDoc CarStatusAvailable .absent).picture).result
        = .ok X) ∧
    ((scenario2 X).result = .ok ⟨1, 1, 0⟩ ∧
      getCar (scenario2 X).store (oid 30)
        = some (corollaDoc CarStatusReserved (.doc johnDoe))) ∧
    ((scenario3 X).result = .ok ⟨0, 0, 0⟩ ∧
      (scenario3 X).store = (scenario2 X).store ∧
      getCar (scenario3 X).store (oid 30)
        = some (corollaDoc CarStatusReserved (.doc johnDoe))) ∧
    ((scenario4 X).result = .ok ⟨1, 1, 0⟩ ∧
      getCar (scenario4 X).store (oid 30) = some (corollaDoc CarStatusAvailable .null) ∧
      (decodeCar (corollaDoc CarStatusAvailable .null)).Customer = none) ∧
    ((scenario5 X).result = .ok ⟨1, 1, 0⟩ ∧
      getCar (scenario5 X).store (oid 30) = some (corollaDoc CarStatusSold (.doc johnDoe)) ∧
      (decodeCar (corollaDoc CarStatusSold (.doc johnDoe))).Customer = some johnDoe) ∧
    ((scenario6 X).result = .error .ErrNoDocuments ∧
      (scenario6 X).store = (scenario5 X).store ∧
      getCar (scenario6 X).store (oid 30) = some (corollaDoc CarStatusSold (.doc johnDoe))) :=
  ⟨⟨rfl, rfl, rfl⟩, ⟨rfl, rfl⟩, ⟨rfl, rfl, rfl⟩, ⟨rfl, rfl, rfl⟩, ⟨rfl, rfl, rfl⟩,
    ⟨rfl, rfl, rfl⟩⟩

/-! ## Handlers: the id in the route -/

/-- C25: for an id string that is not the 24 hexadecimal digits of an object id, the handlers
`UpdateCar`, `DeleteCar`, `ReserveCar`, `CancelReservation` and `SellCar` answer 400 with the
message "Invalid car ID", whatever the rest of the request holds and whatever the service is;
the service's state is untouched, the service is not called. -/
theorem handlers_invalid_car_ID (σ : Type) (ParseFloat : String → Float64)
    (isEmail : String → Bool) (carService : IcarService σ) (req : Request) (st : σ)
    (h : ¬ isObjectIDHex (req.vars "id")) :
    handlers.UpdateCar ParseFloat carService req st
      = some (⟨400, .text "Invalid car ID"⟩, st) ∧
    handlers.DeleteCar carService req st = (⟨400, .text "Invalid car ID"⟩, st) ∧
    handlers.ReserveCar isEmail carService req st = (⟨400, .text "Invalid car ID"⟩, st) ∧
    handlers.CancelReservation carService req st = (⟨400, .text "Invalid car ID"⟩, st) ∧
    handlers.SellCar isEmail carService req st = (⟨400, .text "Invalid car ID"⟩, st) := by
  obtain ⟨e, he⟩ := ObjectIDFromHex_error_of_not_hex (req.vars "id") h
  refine ⟨?_, ?_, ?_, ?_, ?_⟩
  · simp only [handlers.UpdateCar, he]
  · simp only [handlers.DeleteCar, he]
  · simp only [handlers.ReserveCar, he]
  · simp only [handlers.CancelReservation, he]
  · simp only [handlers.SellCar, he]

theorem handlers_invalid_car_ID_witness :
    ¬ isObjectIDHex ((customerRequest "invalid-id").vars "id") ∧
    handlers.ReserveCar (fun _ => true) (NewCarServiceInterface env0)
        (customerRequest "invalid-id") (storeWith (toyota (oid 1) CarStatusAvailable .absent))
      = (⟨400, .text "Invalid car ID"⟩, storeWith (toyota (oid 1) CarStatusAvailable .absent)) :=
  ⟨by decide,
    (handlers_invalid_car_ID Store (fun _ => ⟨0⟩) (fun _ => true) (NewCarServiceInterface env0)
      (customerRequest "invalid-id") (storeWith (toyota (oid 1) CarStatusAvailable .absent))
      (by decide)).2.2.1⟩

/-! ## Handlers: validation of the car form -/

theorem geOne_not_isZero (x : Float64) (h : x.geOne = true) : x.isZero = false := by
  simp only [Float64.geOne, Bool.and_eq_true, decide_eq_true_eq] at h
  simp only [Float64.isZero, beq_eq_false_iff_ne, ne_eq]
  omega

theorem bytesToString_eq_empty (b : List Byte) : bytesToString b = "" ↔ b = [] := by
  constructor
  · intro h
    have := congrArg String.data h
    simpa [bytesToString] using this
  · rintro rfl
    rfl

/-- When `validate.Struct` accepts a car built by the handlers. -/
theorem validateCar_eq_nil_iff (car : Car) (hst : car.Status = CarStatusAvailable) :
    validateCar car = [] ↔
      (car.Make ≠ "" ∧ car.Model ≠ "" ∧ car.Year ≥ 1900 ∧ car.Price.geOne = true ∧
        car.Picture ≠ "") := by
  have hst1 : ¬ (CarStatusAvailable = "") := by decide
  unfold validateCar
  simp only [hst, List.append_eq_nil, ne_eq, not_true_eq_false, false_and, if_false, hst1,
    and_true]
  constructor
  · rintro ⟨⟨⟨⟨h1, h2⟩, h3⟩, h4⟩, h5⟩
    have hmake : car.Make ≠ "" := by
      intro h
      simp [h] at h1
    have hmodel : car.Model ≠ "" := by
      intro h
      simp [h] at h2
    have hyear : car.Year ≥ 1900 := by
      by_cases hy0 : car.Year = 0
      · simp [hy0] at h3
      · by_cases hy : car.Year < 1900
        · simp [hy0, hy] at h3
        · omega
    have hprice : car.Price.geOne = true := by
      by_cases hz : car.Price.isZero = true
      · simp [hz] at h4
      · by_cases hg : car.Price.geOne = true
        · exact hg
        · simp [hz, hg] at h4
    have hpic : car.Picture ≠ "" := by
      intro h
      simp [h] at h5
    exact ⟨hmake, hmodel, hyear, hprice, hpic⟩
  · rintro ⟨h1, h2, h3, h4, h5⟩
    have hy0 : car.Year ≠ 0 := by omega
    have hy : ¬ car.Year < 1900 := by omega
    simp [h1, h2, hy0, hy, geOne_not_isZero _ h4, h4, h5]

/-- C26, as the code has it: the price must be at least 1, not just positive.  A form with make
Toyota, model Corolla, year 2020, a non-empty picture and price 0.5 (a number above zero) is
rejected by both handlers with 400 and the message "Price must be at least 1"; the store is
untouched. -/
theorem handlers_reject_price_below_one :
    (parseFloatExamples "0.5").gtZero = true ∧
    handlers.CreateCar parseFloatExamples (NewCarServiceInterface env0)
        (carRequest (oid 1).Hex "Toyota" "Corolla" "2020" "0.5" (some ⟨"c.jpg", [1, 2], false⟩))
        (storeWith (toyota (oid 1) CarStatusAvailable .absent))
      = (⟨400, .fieldErrors [("Price", "Price must be at least 1")]⟩,
          storeWith (toyota (oid 1) CarStatusAvailable .absent)) ∧
    handlers.UpdateCar parseFloatExamples (NewCarServiceInterface env0)
        (carRequest (oid 1).Hex "Toyota" "Corolla" "2020" "0.5" (some ⟨"c.jpg", [1, 2], false⟩))
        (storeWith (toyota (oid 1) CarStatusAvailable .absent))
      = some (⟨400, .fieldErrors [("Price", "Price must be at least 1")]⟩,
          storeWith (toyota (oid 1) CarStatusAvailable .absent)) := by
  decide

/-- C26, amended: for a car form that parses, with a readable, non-empty picture file, the
`CreateCar` handler and, when the id in the route is a valid one, the `UpdateCar` handler call
the service, with the car built from the form, the file bytes and the file name, if and only
if make is non-empty,
model is non-empty, the year reads as an integer of at least 1900 and the price reads as a
number of at least 1; otherwise they answer 400 with the per-field messages of the failed
fields (for an empty make "Make is required") and leave the service's state untouched. -/
theorem handlers_car_form (σ : Type) (ParseFloat : String → Float64)
    (carService : IcarService σ) (req : Request) (st : σ) (file : FormFile)
    (car : Car)
    (hparse : req.parseFormFails = false) (hfile : req.FormFile "picture" = some file)
    (hread : file.readFails = false) (hne : file.content ≠ [])
    (hcar : car = { ID := NilObjectID, Make := req.FormValue "make",
                    Model := req.FormValue "model", Year := Atoi (req.FormValue "year"),
                    Price := ParseFloat (req.FormValue "price"), Status := CarStatusAvailable,
                    Customer := none, Picture := bytesToString file.content }) :
    ((req.FormValue "make" ≠ "" ∧ req.FormValue "model" ≠ "" ∧
        Atoi (req.FormValue "year") ≥ 1900 ∧
        (ParseFloat (req.FormValue "price")).geOne = true) →
      handlers.CreateCar ParseFloat carService req st =
        (match carService.CreateCar car (some file.content) file.Filename st with
          | (.error err, st') => (⟨500, .errorText err⟩, st')
          | (.ok result, st') => (⟨200, .insertOneResult result⟩, st')) ∧
      ∀ id, ObjectIDFromHex (req.vars "id") = .ok id →
        handlers.UpdateCar ParseFloat carService req st =
          some (match carService.UpdateCar id car (some file.content) file.Filename st with
            | (.error err, st') => (⟨500, .errorText err⟩, st')
            | (.ok result, st') => (⟨200, .updateResult result⟩, st'))) ∧
    (¬ (req.FormValue "make" ≠ "" ∧ req.FormValue "model" ≠ "" ∧
        Atoi (req.FormValue "year") ≥ 1900 ∧
        (ParseFloat (req.FormValue "price")).geOne = true) →
      validateCar car ≠ [] ∧
      handlers.CreateCar ParseFloat carService req st
        = (⟨400, .fieldErrors ((validateCar car).map
            (fun e => (e.Field, validationMessage e)))⟩, st) ∧
      ∀ id, ObjectIDFromHex (req.vars "id") = .ok id →
        handlers.UpdateCar ParseFloat carService req st
          = some (⟨400, .fieldErrors ((validateCar car).map
              (fun e => (e.Field, validationMessage e)))⟩, st)) ∧
    (req.FormValue "make" = "" →
      ("Make", "Make is required") ∈
        (validateCar car).map (fun e => (e.Field, validationMessage e))) := by
  have hpic : car.Picture ≠ "" := by
    rw [hcar]
    exact fun h => hne ((bytesToString_eq_empty _).1 h)
  have hiff := validateCar_eq_nil_iff car (by rw [hcar])
  have hC : handlers.CreateCar ParseFloat carService req st =
      match validateCar car with
      | e :: errs => (handleValidationErrors (e :: errs), st)
      | [] =>
        match carService.CreateCar car (some file.content) file.Filename st with
        | (.error err, st') => (⟨500, .errorText err⟩, st')
        | (.ok result, st') => (⟨200, .insertOneResult result⟩, st') := by
    simp only [handlers.CreateCar, hparse, hfile, hread, Bool.false_eq_true, if_false, hcar,
      Car.zero]
  have hU : ∀ id, ObjectIDFromHex (req.vars "id") = .ok id →
      handlers.UpdateCar ParseFloat carService req st =
      match validateCar car with
      | e :: errs => some (handleValidationErrors (e :: errs), st)
      | [] =>
        match carService.UpdateCar id car (some file.content) file.Filename st with
        | (.error err, st') => some (⟨500, .errorText err⟩, st')
        | (.ok result, st') => some (⟨200, .updateResult result⟩, st') := by
    intro id hid
    simp only [handlers.UpdateCar, hid, hparse, hfile, hread, Bool.false_eq_true, if_false,
      hcar, Car.zero, Option.map_some']
  refine ⟨?_, ?_, ?_⟩
  · intro hvalid
    have hnil : validateCar car = [] := by
      rw [hiff, hcar]
      exact ⟨hvalid.1, hvalid.2.1, hvalid.2.2.1, hvalid.2.2.2, by rw [← hcar]; exact hpic⟩
    refine ⟨by rw [hC, hnil], ?_⟩
    intro id hid
    rw [hU id hid, hnil]
    dsimp only
    split <;> rfl
  · intro hinvalid
    have hnn : validateCar car ≠ [] := by
      intro hnil
      have h := hiff.1 hnil
      rw [hcar] at h
      exact hinvalid ⟨h.1, h.2.1, h.2.2.1, h.2.2.2.1⟩
    cases hv : validateCar car with
    | nil => exact absurd hv hnn
    | cons e errs =>
      refine ⟨by simp, ?_, ?_⟩
      · rw [hC, hv]
        rfl
      · intro id hid
        rw [hU id hid, hv]
        rfl
  · intro hmake
    rw [hcar]
    simp [validateCar, hmake, validationMessage]

theorem handlers_car_form_witness :
    (carRequest "" "Toyota" "Corolla" "2020" "20000"
      (some ⟨"c.jpg", [1, 2], false⟩)).FormValue "make" ≠ "" ∧
    handlers.CreateCar parseFloatExamples (NewCarServiceInterface env0)
        (carRequest "" "Toyota" "Corolla" "2020" "20000"
          (some ⟨"c.jpg", [1, 2], false⟩)) ⟨[], []⟩ =
      (match (NewCarServiceInterface env0).CreateCar corolla.withFormFields (some [1, 2])
          "c.jpg" ⟨[], []⟩ with
        | (.error err, st') => (⟨500, .errorText err⟩, st')
        | (.ok result, st') => (⟨200, .insertOneResult result⟩, st')) ∧
    handlers.UpdateCar parseFloatExamples (NewCarServiceInterface env0)
        (carRequest (oid 1).Hex "Toyota" "Corolla" "2020" "20000"
          (some ⟨"c.jpg", [1, 2], false⟩)) ⟨[], []⟩ =
      some (match (NewCarServiceInterface env0).UpdateCar (oid 1) corolla.withFormFields
          (some [1, 2]) "c.jpg" ⟨[], []⟩ with
        | (.error err, st') => (⟨500, .errorText err⟩, st')
        | (.ok result, st') => (⟨200, .updateResult result⟩, st')) :=
  ⟨by decide,
    ((handlers_car_form Store parseFloatExamples (NewCarServiceInterface env0)
      (carRequest "" "Toyota" "Corolla" "2020" "20000"
        (some ⟨"c.jpg", [1, 2], false⟩)) ⟨[], []⟩ ⟨"c.jpg", [1, 2], false⟩
      corolla.withFormFields rfl rfl rfl (by decide) (by decide)).1
      (by decide)).1,
    ((handlers_car_form Store parseFloatExamples (NewCarServiceInterface env0)
      (carRequest (oid 1).Hex "Toyota" "Corolla" "2020" "20000"
        (some ⟨"c.jpg", [1, 2], false⟩)) ⟨[], []⟩ ⟨"c.jpg", [1, 2], false⟩
      corolla.withFormFields rfl rfl rfl (by decide) (by decide)).1
      (by decide)).2 (oid 1) (by decide)⟩

/-! ## Handlers: validation of the customer -/

/-- When `validate.Struct` accepts a customer. -/
theorem validateCustomer_eq_nil_iff (isEmail : String → Bool) (c : Customer) :
    validateCustomer isEmail c = [] ↔
      (c.FullName ≠ "" ∧ c.Email ≠ "" ∧ isEmail c.Email = true ∧ c.PhoneNumber ≠ "" ∧
        c.PhoneNumber.data.all (fun ch => 48 ≤ ch.toNat ∧ ch.toNat ≤ 57) = true) := by
  unfold validateCustomer
  simp only [List.append_eq_nil]
  constructor
  · rintro ⟨⟨h1, h2⟩, h3⟩
    have hname : c.FullName ≠ "" := by
      intro h
      simp [h] at h1
    have hmail : c.Email ≠ "" ∧ isEmail c.Email = true := by
      by_cases he : c.Email = ""
      · simp [he] at h2
      · by_cases hv : isEmail c.Email = true
        · exact ⟨he, hv⟩
        · simp [he, hv] at h2
    have hphone : c.PhoneNumber ≠ "" ∧
        c.PhoneNumber.data.all (fun ch => 48 ≤ ch.toNat ∧ ch.toNat ≤ 57) = true := by
      by_cases hp : c.PhoneNumber = ""
      · simp [hp] at h3
      · by_cases hd : c.PhoneNumber.data.all (fun ch => 48 ≤ ch.toNat ∧ ch.toNat ≤ 57) = true
        · exact ⟨hp, hd⟩
        · simp only [hp, if_false, hd, not_false_eq_true, if_true] at h3
          cases h3
    exact ⟨hname, hmail.1, hmail.2, hphone.1, hphone.2⟩
  · rintro ⟨h1, h2, h3, h4, h5⟩
    simp only [h1, h2, h3, h4, h5, if_false, not_true_eq_false, and_self]

/-- C27: for a valid car id and a decoded customer, the `ReserveCar` and `SellCar` handlers
call the service, with that id and customer, exactly when the full name is non-empty, the
email is non-empty and passes the email check, and the phone number is a non-empty string of
digits; otherwise they answer 400 with the map of per-field messages, which for a non-empty
email that fails the check holds "Email is not a valid email address", and the service's state
is untouched. -/
theorem handlers_customer_validation (σ : Type) (isEmail : String → Bool)
    (carService : IcarService σ) (req : Request) (st : σ) (id : ObjectID)
    (customer : Customer) (hid : ObjectIDFromHex (req.vars "id") = .ok id)
    (hc : req.jsonCustomer = some customer) :
    ((customer.FullName ≠ "" ∧ customer.Email ≠ "" ∧ isEmail customer.Email = true ∧
        customer.PhoneNumber ≠ "" ∧
        customer.PhoneNumber.data.all (fun ch => 48 ≤ ch.toNat ∧ ch.toNat ≤ 57) = true) →
      handlers.ReserveCar isEmail carService req st =
        (match carService.ReserveCar id customer st with
          | (.error err, st') => (⟨500, .errorText err⟩, st')
          | (.ok result, st') => (⟨200, .updateResult result⟩, st')) ∧
      handlers.SellCar isEmail carService req st =
        (match carService.SellCar id customer st with
          | (.error err, st') => (⟨500, .errorText err⟩, st')
          | (.ok result, st') => (⟨200, .updateResult result⟩, st'))) ∧
    (¬ (customer.FullName ≠ "" ∧ customer.Email ≠ "" ∧ isEmail customer.Email = true ∧
        customer.PhoneNumber ≠ "" ∧
        customer.PhoneNumber.data.all (fun ch => 48 ≤ ch.toNat ∧ ch.toNat ≤ 57) = true) →
      validateCustomer isEmail customer ≠ [] ∧
      handlers.ReserveCar isEmail carService req st
        = (⟨400, .fieldErrors ((validateCustomer isEmail customer).map
            (fun e => (e.Field, validationMessage e)))⟩, st) ∧
      handlers.SellCar isEmail carService req st
        = (⟨400, .fieldErrors ((validateCustomer isEmail customer).map
            (fun e => (e.Field, validationMessage e)))⟩, st)) ∧
    (customer.Email ≠ "" → isEmail customer.Email = false →
      ("Email", "Email is not a valid email address") ∈
        (validateCustomer isEmail customer).map (fun e => (e.Field, validationMessage e))) := by
  have hiff := validateCustomer_eq_nil_iff isEmail customer
  refine ⟨?_, ?_, ?_⟩
  · intro hvalid
    have hnil := hiff.2 hvalid
    simp only [handlers.ReserveCar, handlers.SellCar, hid, hc, hnil, and_self]
  · intro hinvalid
    have hnn : validateCustomer isEmail customer ≠ [] := fun hnil => hinvalid (hiff.1 hnil)
    refine ⟨hnn, ?_, ?_⟩
    · simp only [handlers.ReserveCar, hid, hc]
      cases hv : validateCustomer isEmail customer with
      | nil => exact absurd hv hnn
      | cons e errs => rfl
    · simp only [handlers.SellCar, hid, hc]
      cases hv : validateCustomer isEmail customer with
      | nil => exact absurd hv hnn
      | cons e errs => rfl
  · intro hne hbad
    simp [validateCustomer, hne, hbad, validationMessage]

theorem handlers_customer_validation_witness :
    ObjectIDFromHex ((customerRequest (oid 1).Hex).vars "id") = .ok (oid 1) ∧
    johnDoe.Email ≠ "" ∧
    handlers.ReserveCar (fun _ => false) (NewCarServiceInterface env0)
        (customerRequest (oid 1).Hex) (storeWith (toyota (oid 1) CarStatusAvailable .absent))
      = (⟨400, .fieldErrors ((validateCustomer (fun _ => false) johnDoe).map
            (fun e => (e.Field, validationMessage e)))⟩,
          storeWith (toyota (oid 1) CarStatusAvailable .absent)) ∧
    ("Email", "Email is not a valid email address") ∈
      (validateCustomer (fun _ => false) johnDoe).map
        (fun e => (e.Field, validationMessage e)) :=
  ⟨by decide, by decide,
    ((handlers_customer_validation Store (fun _ => false) (NewCarServiceInterface env0)
      (customerRequest (oid 1).Hex) (storeWith (toyota (oid 1) CarStatusAvailable .absent))
      (oid 1) johnDoe (by decide) rfl).2.1 (by simp)).2.1,
    (handlers_customer_validation Store (fun _ => false) (NewCarServiceInterface env0)
      (customerRequest (oid 1).Hex) (storeWith (toyota (oid 1) CarStatusAvailable .absent))
      (oid 1) johnDoe (by decide) rfl).2.2 (by decide) rfl⟩

/-! ## What the status operations leave alone -/

theorem forall₂_replaceFirst (R : CarDoc → CarDoc → Prop) (p : CarDoc → Bool) (d d' : CarDoc)
    (cars : List CarDoc) (hrefl : ∀ x, R x x) (hd : cars.find? p = some d) (hR : R d d') :
    List.Forall₂ R cars (replaceFirst p d' cars) := by
  have hall : ∀ l : List CarDoc, List.Forall₂ R l l := by
    intro l
    induction l with
    | nil => exact List.Forall₂.nil
    | cons x xs ih => exact List.Forall₂.cons (hrefl x) ih
  induction cars with
  | nil => simp at hd
  | cons x xs ih =>
    rw [List.find?_cons] at hd
    by_cases hx : p x = true
    · have hxd : x = d := by simpa [hx] using hd
      subst hxd
      simp only [replaceFirst, hx, if_true]
      exact List.Forall₂.cons hR (hall xs)
    · have hx' : p x = false := by simpa using hx
      rw [hx'] at hd
      simp only [replaceFirst, hx', Bool.false_eq_true, if_false]
      exact List.Forall₂.cons (hrefl x) (ih hd)

/-- A conditional status update leaves every document as it was, except for the status and
customer of a document with the given id. -/
theorem setStatusCustomer_frame (env : Env) (cars cars' : List CarDoc) (id : ObjectID)
    (st st' : String) (c : BsonCustomer) (r : UpdateResult)
    (h : UpdateOne env cars ⟨id, some st⟩ (.setStatusCustomer st' c) = .ok (r, cars')) :
    List.Forall₂ (fun d d' => d.sameButStatusCustomer d' ∧ (d.id ≠ id → d' = d)) cars cars' := by
  have hrefl : ∀ x : CarDoc, x.sameButStatusCustomer x ∧ (x.id ≠ id → x = x) :=
    fun x => ⟨⟨rfl, rfl, rfl, rfl, rfl, rfl⟩, fun _ => rfl⟩
  rcases UpdateOne_cars env cars cars' _ _ r h with rfl | ⟨d, d', hd, hd', rfl⟩
  · clear h
    induction cars' with
    | nil => exact List.Forall₂.nil
    | cons x xs ih => exact List.Forall₂.cons (hrefl x) ih
  · refine forall₂_replaceFirst _ _ d d' cars hrefl hd ?_
    simp only [Update.apply, Except.ok.injEq] at hd'
    subst hd'
    have hid := (matches_status id st d (List.find?_some hd)).1
    exact ⟨⟨rfl, rfl, rfl, rfl, rfl, rfl⟩, fun hne => absurd hid hne⟩

/-- C28: frame of `ReserveCar`, `SellCar` and `CancelReservation`.  For every store and every
call, the bucket is unchanged, the list of car ids is unchanged, and the collection after the
call matches the collection before document by document: each document keeps its id, make,
model, year, price and picture, and a document whose id is not the given one is unchanged
altogether. -/
theorem status_operations_frame (env : Env) (s : Store) (id : ObjectID)
    (customer : Customer) :
    ((ReserveCar env s id customer).store.files = s.files ∧
      (ReserveCar env s id customer).store.cars.map CarDoc.id = s.cars.map CarDoc.id ∧
      List.Forall₂ (fun d d' => d.sameButStatusCustomer d' ∧ (d.id ≠ id → d' = d))
        s.cars (ReserveCar env s id customer).store.cars) ∧
    ((SellCar env s id customer).store.files = s.files ∧
      (SellCar env s id customer).store.cars.map CarDoc.id = s.cars.map CarDoc.id ∧
      List.Forall₂ (fun d d' => d.sameButStatusCustomer d' ∧ (d.id ≠ id → d' = d))
        s.cars (SellCar env s id customer).store.cars) ∧
    ((CancelReservation env s id).store.files = s.files ∧
      (CancelReservation env s id).store.cars.map CarDoc.id = s.cars.map CarDoc.id ∧
      List.Forall₂ (fun d d' => d.sameButStatusCustomer d' ∧ (d.id ≠ id → d' = d))
        s.cars (CancelReservation env s id).store.cars) := by
  have hsame : List.Forall₂
      (fun d d' => CarDoc.sameButStatusCustomer d d' ∧ (d.id ≠ id → d' = d)) s.cars s.cars := by
    generalize s.cars = l
    induction l with
    | nil => exact List.Forall₂.nil
    | cons x xs ih =>
      exact List.Forall₂.cons ⟨⟨rfl, rfl, rfl, rfl, rfl, rfl⟩, fun _ => rfl⟩ ih
  refine ⟨?_, ?_, ?_⟩
  · unfold ReserveCar
    split
    · exact ⟨rfl, rfl, hsame⟩
    · rename_i r cars' h
      exact ⟨rfl, UpdateOne_map_id env _ _ _ _ r h, setStatusCustomer_frame env _ _ id _ _ _ r h⟩
  · unfold SellCar
    split
    · exact ⟨rfl, rfl, hsame⟩
    · rename_i r cars' h
      exact ⟨rfl, UpdateOne_map_id env _ _ _ _ r h, setStatusCustomer_frame env _ _ id _ _ _ r h⟩
  · unfold CancelReservation
    split
    · exact ⟨rfl, rfl, hsame⟩
    · rename_i r cars' h
      exact ⟨rfl, UpdateOne_map_id env _ _ _ _ r h, setStatusCustomer_frame env _ _ id _ _ _ r h⟩

/-! ## Handlers: the file header in UpdateCar -/

theorem validateCar_picture_required (car : Car) (h : car.Picture = "") :
    ("Picture", "Picture is required") ∈
      (validateCar car).map (fun e => (e.Field, validationMessage e)) := by
  simp [validateCar, h, validationMessage]

/-- The answer of the `UpdateCar` handler once the id is valid, the form parsed and the file,
if any, read: 400 when validation fails, otherwise the call of the service, for which a file
header must be there. -/
theorem handlers_UpdateCar_after_read (σ : Type) (ParseFloat : String → Float64)
    (carService : IcarService σ) (req : Request) (st : σ) (id : ObjectID)
    (hid : ObjectIDFromHex (req.vars "id") = .ok id) (hparse : req.parseFormFails = false) :
    (req.FormFile "picture" = none →
      handlers.UpdateCar ParseFloat carService req st =
        match validateCar (formCar ParseFloat req "") with
        | e :: errs => some (handleValidationErrors (e :: errs), st)
        | [] => none) ∧
    (∀ file, req.FormFile "picture" = some file → file.readFails = false →
      handlers.UpdateCar ParseFloat carService req st =
        match validateCar (formCar ParseFloat req (bytesToString file.content)) with
        | e :: errs => some (handleValidationErrors (e :: errs), st)
        | [] =>
          match carService.UpdateCar id (formCar ParseFloat req (bytesToString file.content))
              (some file.content) file.Filename st with
          | (.error err, st') => some (⟨500, .errorText err⟩, st')
          | (.ok result, st') => some (⟨200, .updateResult result⟩, st')) := by
  constructor
  · intro hfile
    simp only [handlers.UpdateCar, hid, hparse, hfile, Bool.false_eq_true, if_false, Car.zero,
      Option.map_none', formCar]
  · intro file hfile hread
    simp only [handlers.UpdateCar, hid, hparse, hfile, hread, Bool.false_eq_true, if_false,
      Car.zero, Option.map_some', formCar]

theorem validateCar_formCar_empty (ParseFloat : String → Float64) (req : Request) :
    ∃ e errs, validateCar (formCar ParseFloat req "") = e :: errs := by
  cases h : validateCar (formCar ParseFloat req "") with
  | nil =>
    have := (validateCar_eq_nil_iff (formCar ParseFloat req "") rfl).1 h
    exact absurd rfl this.2.2.2.2
  | cons e errs => exact ⟨e, errs, rfl⟩

/-- The two ways the `UpdateCar` handler can end: with an answer that does not involve the
service, or with the call of the service on a form that has a picture file part with
content. -/
theorem handlers_UpdateCar_cases (ParseFloat : String → Float64) (req : Request) :
    (∃ resp, ∀ (τ : Type) (svc : IcarService τ) (t : τ),
      handlers.UpdateCar ParseFloat svc req t = some (resp, t)) ∨
    (∃ id file, req.FormFile "picture" = some file ∧ file.content ≠ [] ∧
      ∀ (τ : Type) (svc : IcarService τ) (t : τ),
        handlers.UpdateCar ParseFloat svc req t =
          match svc.UpdateCar id (formCar ParseFloat req (bytesToString file.content))
              (some file.content) file.Filename t with
          | (.error err, t') => some (⟨500, .errorText err⟩, t')
          | (.ok result, t') => some (⟨200, .updateResult result⟩, t')) := by
  cases hid : ObjectIDFromHex (req.vars "id") with
  | error e =>
    exact .inl ⟨⟨400, .text "Invalid car ID"⟩, fun τ svc t => by
      simp only [handlers.UpdateCar, hid]⟩
  | ok id =>
    by_cases hparse : req.parseFormFails = true
    · exact .inl ⟨⟨500, .text "Error parsing form data"⟩, fun τ svc t => by
        simp only [handlers.UpdateCar, hid, hparse, if_true]⟩
    · have hparse' : req.parseFormFails = false := by simpa using hparse
      cases hfile : req.FormFile "picture" with
      | none =>
        obtain ⟨e, errs, hv⟩ := validateCar_formCar_empty ParseFloat req
        exact .inl ⟨handleValidationErrors (e :: errs), fun τ svc t => by
          rw [(handlers_UpdateCar_after_read τ ParseFloat svc req t id hid hparse').1 hfile, hv]⟩
      | some file =>
        by_cases hread : file.readFails = true
        · exact .inl ⟨⟨500, .text "Error reading file"⟩, fun τ svc t => by
            simp only [handlers.UpdateCar, hid, hparse', hfile, hread, Bool.false_eq_true,
              if_false, if_true]⟩
        · have hread' : file.readFails = false := by simpa using hread
          cases hv : validateCar (formCar ParseFloat req (bytesToString file.content)) with
          | cons e errs =>
            exact .inl ⟨handleValidationErrors (e :: errs), fun τ svc t => by
              rw [(handlers_UpdateCar_after_read τ ParseFloat svc req t id hid hparse').2 file
                hfile hread', hv]⟩
          | nil =>
            have hpic := ((validateCar_eq_nil_iff _ rfl).1 hv).2.2.2.2
            have hne : file.content ≠ [] := by
              intro h
              exact hpic ((bytesToString_eq_empty _).2 h)
            exact .inr ⟨id, file, rfl, hne, fun τ svc t => by
              rw [(handlers_UpdateCar_after_read τ ParseFloat svc req t id hid hparse').2 file
                hfile hread', hv]⟩

/-- C29: the `UpdateCar` handler never reads the name of a nil file header.  For every request
the handler ends without a panic, and it calls the service only when the form has a picture
file part with non-empty content, passing those bytes and that part's file name.  For a valid
id and a form that parses, when the picture part is missing or empty, validation rejects the
car: the answer is 400 with "Picture is required" among the messages, whatever the service
is, and the service is not called. -/
theorem handlers_UpdateCar_header (ParseFloat : String → Float64) (req : Request) :
    (∀ (τ : Type) (svc : IcarService τ) (t : τ),
      handlers.UpdateCar ParseFloat svc req t ≠ none) ∧
    ((∃ resp, ∀ (τ : Type) (svc : IcarService τ) (t : τ),
        handlers.UpdateCar ParseFloat svc req t = some (resp, t)) ∨
      (∃ id file, req.FormFile "picture" = some file ∧ file.content ≠ [] ∧
        ∀ (τ : Type) (svc : IcarService τ) (t : τ),
          handlers.UpdateCar ParseFloat svc req t =
            match svc.UpdateCar id (formCar ParseFloat req (bytesToString file.content))
                (some file.content) file.Filename t with
            | (.error err, t') => some (⟨500, .errorText err⟩, t')
            | (.ok result, t') => some (⟨200, .updateResult result⟩, t'))) ∧
    (∀ id, ObjectIDFromHex (req.vars "id") = .ok id → req.parseFormFails = false →
      (req.FormFile "picture" = none ∨
        ∃ file, req.FormFile "picture" = some file ∧ file.readFails = false ∧
          file.content = []) →
      ∃ m, ("Picture", "Picture is required") ∈ m ∧
        ∀ (τ : Type) (svc : IcarService τ) (t : τ),
          handlers.UpdateCar ParseFloat svc req t = some (⟨400, .fieldErrors m⟩, t)) := by
  have hcases := handlers_UpdateCar_cases ParseFloat req
  refine ⟨?_, hcases, ?_⟩
  · intro τ svc t
    rcases hcases with ⟨resp, h⟩ | ⟨id, file, _, _, h⟩
    · rw [h]
      exact fun h' => by cases h'
    · rw [h]
      split <;> exact fun h' => by cases h'
  · intro id hid hparse hpic
    rcases hpic with hfile | ⟨file, hfile, hread, hempty⟩
    · obtain ⟨e, errs, hv⟩ := validateCar_formCar_empty ParseFloat req
      refine ⟨(validateCar (formCar ParseFloat req "")).map
        (fun e => (e.Field, validationMessage e)), validateCar_picture_required _ rfl, ?_⟩
      intro τ svc t
      rw [(handlers_UpdateCar_after_read τ ParseFloat svc req t id hid hparse).1 hfile, hv]
      rfl
    · obtain ⟨e, errs, hv⟩ := validateCar_formCar_empty ParseFloat req
      have hstr : bytesToString file.content = "" := (bytesToString_eq_empty _).2 hempty
      refine ⟨(validateCar (formCar ParseFloat req "")).map
        (fun e => (e.Field, validationMessage e)), validateCar_picture_required _ rfl, ?_⟩
      intro τ svc t
      rw [(handlers_UpdateCar_after_read τ ParseFloat svc req t id hid hparse).2 file hfile
        hread, hstr, hv]
      rfl

theorem handlers_UpdateCar_header_witness :
    ObjectIDFromHex ((carRequest (oid 1).Hex "Toyota" "Corolla" "2020" "20000" none).vars "id")
      = .ok (oid 1) ∧
    (carRequest (oid 1).Hex "Toyota" "Corolla" "2020" "20000" none).FormFile "picture" = none ∧
    ∃ m, ("Picture", "Picture is required") ∈ m ∧
      ∀ (τ : Type) (svc : IcarService τ) (t : τ),
        handlers.UpdateCar parseFloatExamples svc
          (carRequest (oid 1).Hex "Toyota" "Corolla" "2020" "20000" none) t
          = some (⟨400, .fieldErrors m⟩, t) :=
  ⟨by decide, rfl,
    (handlers_UpdateCar_header parseFloatExamples
      (carRequest (oid 1).Hex "Toyota" "Corolla" "2020" "20000" none)).2.2 (oid 1) (by decide)
      rfl (.inl rfl)⟩

/-! ## Reserving and cancelling -/

/-- Two conditional replacements in a row on the first document with the id land on the same
position of the list. -/
theorem replaceFirst_replaceFirst (cars : List CarDoc) (id : ObjectID) (st st1 : String)
    (d d1 d2 : CarDoc) (hd : cars.find? (fun x => x.id == id) = some d) (hst : d.status = st)
    (h1id : d1.id = id) (h1st : d1.status = st1) :
    replaceFirst (Filter.matches ⟨id, some st1⟩) d2
        (replaceFirst (Filter.matches ⟨id, some st⟩) d1 cars)
      = replaceFirst (fun x => x.id == id) d2 cars := by
  induction cars with
  | nil => simp at hd
  | cons x xs ih =>
    rw [List.find?_cons] at hd
    by_cases hx : x.id = id
    · have hxd : x = d := by simpa [hx] using hd
      subst hxd
      simp [replaceFirst, Filter.matches, hx, hst, h1id, h1st]
    · have hx1 : (x.id == id) = false := by simpa using hx
      have hx2 : Filter.matches ⟨id, some st⟩ x = false := by simp [Filter.matches, hx]
      have hx3 : Filter.matches ⟨id, some st1⟩ x = false := by simp [Filter.matches, hx]
      rw [hx1] at hd
      simp only [replaceFirst, hx1, hx2, hx3, Bool.false_eq_true, if_false, ih hd]

/-- C30: on a store in which the car with the id is available and reads back without a
customer, `ReserveCar` followed by `CancelReservation` (neither update call failing) both
report one matched and one modified document, and the store they leave reads back as the
original one: the bucket is the same, the cars decode to the same list of cars, and the car
with the id decodes to the same car (status available, no customer, all other fields). -/
theorem ReserveCar_CancelReservation_roundtrip (env1 env2 : Env) (s : Store) (id : ObjectID)
    (customer : Customer) (d : CarDoc) (h1 : env1.fails .updateOne = false)
    (h2 : env2.fails .updateOne = false) (hd : getCar s id = some d)
    (hst : d.status = CarStatusAvailable) (hc : (decodeCar d).Customer = none) :
    (ReserveCar env1 s id customer).result = .ok ⟨1, 1, 0⟩ ∧
    (CancelReservation env2 (ReserveCar env1 s id customer).store id).result
      = .ok ⟨1, 1, 0⟩ ∧
    (CancelReservation env2 (ReserveCar env1 s id customer).store id).store.files = s.files ∧
    (CancelReservation env2 (ReserveCar env1 s id customer).store id).store.cars.map decodeCar
      = s.cars.map decodeCar ∧
    (getCar (CancelReservation env2 (ReserveCar env1 s id customer).store id).store id).map
      decodeCar = some (decodeCar d) := by
  have hid : d.id = id := by simpa using List.find?_some hd
  have hu1 := UpdateOne_match env1 s.cars id CarStatusAvailable CarStatusReserved
    (.doc customer) d h1 hd hst (by decide)
  have hg1 := find?_id_replaceFirst s.cars id CarStatusAvailable d
    { d with status := CarStatusReserved, customer := .doc customer } hd hst hid
  have hu2 := UpdateOne_match env2 _ id CarStatusReserved CarStatusAvailable .null _ h2 hg1 rfl
    (by decide)
  have hg2 := find?_id_replaceFirst _ id CarStatusReserved
    { d with status := CarStatusReserved, customer := .doc customer }
    { d with status := CarStatusAvailable, customer := .null } hg1 rfl hid
  have hdec : decodeCar { d with status := CarStatusAvailable, customer := .null }
      = decodeCar d := by
    cases d with
    | mk i mk md y p stt c pic =>
      simp only at hst
      subst hst
      cases c with
      | absent => rfl
      | null => rfl
      | doc c => simp [decodeCar] at hc
  have hrr := replaceFirst_replaceFirst s.cars id CarStatusAvailable CarStatusReserved d
    { d with status := CarStatusReserved, customer := .doc customer }
    { d with status := CarStatusAvailable, customer := .null } hd hst hid rfl
  refine ⟨by simp only [ReserveCar, hu1], ?_, ?_, ?_, ?_⟩
  · simp only [ReserveCar, hu1, CancelReservation, hu2]
  · simp only [ReserveCar, hu1, CancelReservation, hu2]
  · simp only [ReserveCar, hu1, CancelReservation, hu2]
    rw [hrr]
    exact map_replaceFirst_of_eq decodeCar _ d _ s.cars hd hdec
  · simp only [ReserveCar, hu1, CancelReservation, hu2, getCar]
    rw [hg2, Option.map_some', hdec]

theorem ReserveCar_CancelReservation_roundtrip_witness :
    getCar (storeWith (toyota (oid 1) CarStatusAvailable .absent)) (oid 1)
      = some (toyota (oid 1) CarStatusAvailable .absent) ∧
    (CancelReservation env0
      (ReserveCar env0 (storeWith (toyota (oid 1) CarStatusAvailable .absent)) (oid 1)
        johnDoe).store (oid 1)).store.cars.map decodeCar
      = (storeWith (toyota (oid 1) CarStatusAvailable .absent)).cars.map decodeCar :=
  ⟨by decide,
    (ReserveCar_CancelReservation_roundtrip env0 env0
      (storeWith (toyota (oid 1) CarStatusAvailable .absent)) (oid 1) johnDoe
      (toyota (oid 1) CarStatusAvailable .absent) rfl rfl (by decide) rfl rfl).2.2.2.1⟩

end CarDealership
